import Mathlib

/-!
Verification of the android_dbus message-bus core against its specification.

The development shallowly embeds the C sources:
  * `dbus/dbus-marshal-basic.c`     - the wire codec for basic types,
  * `dbus/dbus-marshal-recursive.c` - the recursive type reader/writer,
  * `bus/dispatch.c`                - the dispatcher,
  * the main-loop source (`dbus-mainloop.c`).

Byte strings (`DBusString`) are lists of byte values; machine integers are
`Nat` with explicit truncation where overflow matters.  Where a primitive the
sources call lives outside the provided files (the `_dbus_string_*` insertion
primitives, the bus transaction/connection helpers), its model is derived from
the specification and marked `Modelled from the spec:` in its doc comment.
-/

namespace DBus

/-! ### Type codes and byte orders (dbus-protocol.h constants) -/

def DBUS_LITTLE_ENDIAN : Nat := 108

def DBUS_BIG_ENDIAN : Nat := 66

def DBUS_TYPE_INVALID : Nat := 0

def DBUS_TYPE_BYTE : Nat := 121

def DBUS_TYPE_BOOLEAN : Nat := 98

def DBUS_TYPE_INT32 : Nat := 105

def DBUS_TYPE_UINT32 : Nat := 117

def DBUS_TYPE_INT64 : Nat := 120

def DBUS_TYPE_UINT64 : Nat := 116

def DBUS_TYPE_DOUBLE : Nat := 100

def DBUS_TYPE_STRING : Nat := 115

def DBUS_TYPE_OBJECT_PATH : Nat := 111

def DBUS_TYPE_SIGNATURE : Nat := 103

def DBUS_TYPE_ARRAY : Nat := 97

def DBUS_TYPE_VARIANT : Nat := 118

def DBUS_TYPE_STRUCT : Nat := 114

def DBUS_STRUCT_BEGIN_CHAR : Nat := 40

def DBUS_STRUCT_END_CHAR : Nat := 41

/-! ### Byte strings -/

/-- A `DBusString` is modelled as a list of byte values. -/
abbrev DStr := List Nat

/-- `_DBUS_ALIGN_VALUE (this, boundary)`: round `this` up to a multiple of
`boundary` (the C macro uses a power-of-two bit mask, equal to this rounding). -/
def _DBUS_ALIGN_VALUE (pos boundary : Nat) : Nat :=
  (pos + boundary - 1) / boundary * boundary

/-- Insert the bytes `xs` at position `pos`, shifting the rest of the string. -/
def stringInsertAt (s : DStr) (pos : Nat) (xs : DStr) : DStr :=
  s.take pos ++ xs ++ s.drop pos

/-- Modelled from the spec: `_dbus_string_insert_byte` (dbus-string.c is not in
the sources) inserts one byte at `pos`. -/
def _dbus_string_insert_byte (s : DStr) (pos b : Nat) : DStr :=
  stringInsertAt s pos [b]

/-- Modelled from the spec: `_dbus_string_insert_bytes` inserts `n` copies of
byte `b` at `pos`. -/
def _dbus_string_insert_bytes (s : DStr) (pos n b : Nat) : DStr :=
  stringInsertAt s pos (List.replicate n b)

/-- Modelled from the spec: `_dbus_string_get_byte`. Reads the byte at `pos`. -/
def _dbus_string_get_byte (s : DStr) (pos : Nat) : Nat :=
  s.getD pos 0

/-- Modelled from the spec: `_dbus_string_delete` removes `n` bytes at `pos`. -/
def _dbus_string_delete (s : DStr) (pos n : Nat) : DStr :=
  s.take pos ++ s.drop (pos + n)

/-- The C string starting at `pos`: the bytes up to the first nul.  This is the
character sequence a caller of `_dbus_demarshal_basic_type` reads through the
returned `char *`. -/
def cStringAt (s : DStr) (pos : Nat) : DStr :=
  (s.drop pos).takeWhile (fun b => b ≠ 0)

/-! ### Packing fixed-size integers (pack_4_octets / pack_8_octets)

The C code stores the value in host order after conditionally swapping, which
produces little-endian bytes iff the requested order is little-endian. -/

/-- The `n` little-endian bytes of `v`. -/
def natToLEBytes : Nat → Nat → DStr
  | 0, _ => []
  | n + 1, v => v % 256 :: natToLEBytes n (v / 256)

/-- Read a little-endian byte list back as a number. -/
def leBytesToNat : DStr → Nat
  | [] => 0
  | b :: bs => b + 256 * leBytesToNat bs

/-- The `n` bytes of `v` in the requested byte order. -/
def packOctets (n byte_order v : Nat) : DStr :=
  if byte_order = DBUS_LITTLE_ENDIAN then natToLEBytes n v
  else (natToLEBytes n v).reverse

/-- Read `n` bytes at `pos` of `s` in the requested byte order
(`unpack_4_octets` / `unpack_8_octets`). -/
def unpackOctets (n byte_order : Nat) (s : DStr) (pos : Nat) : Nat :=
  let bs := (s.drop pos).take n
  leBytesToNat (if byte_order = DBUS_LITTLE_ENDIAN then bs else bs.reverse)

theorem natToLEBytes_length (n v : Nat) : (natToLEBytes n v).length = n := by
  induction n generalizing v with
  | zero => rfl
  | succ k ih => simp [natToLEBytes, ih]

theorem leBytesToNat_natToLEBytes (n v : Nat) :
    leBytesToNat (natToLEBytes n v) = v % 256 ^ n := by
  induction n generalizing v with
  | zero => simp [natToLEBytes, leBytesToNat, Nat.mod_one]
  | succ k ih =>
    simp only [natToLEBytes, leBytesToNat, ih]
    rw [pow_succ', Nat.mod_mul]

theorem packOctets_length (n byte_order v : Nat) :
    (packOctets n byte_order v).length = n := by
  unfold packOctets
  split <;> simp [natToLEBytes_length]

/-- Packing then unpacking from the head of a byte list recovers the value. -/
theorem unpackOctets_packOctets (n byte_order v : Nat) (rest : DStr)
    (hv : v < 256 ^ n) :
    unpackOctets n byte_order (packOctets n byte_order v ++ rest) 0 = v := by
  unfold unpackOctets packOctets
  split
  · simp [List.take_append_of_le_length, natToLEBytes_length,
      List.take_of_length_le, leBytesToNat_natToLEBytes, Nat.mod_eq_of_lt hv]
  · have hlen : (natToLEBytes n v).reverse.length = n := by
      simp [natToLEBytes_length]
    simp only [List.drop_zero]
    rw [List.take_append_of_le_length (by omega), List.take_of_length_le (by omega),
      List.reverse_reverse, leBytesToNat_natToLEBytes, Nat.mod_eq_of_lt hv]

/-! ### Basic values (DBusBasicValue union) -/

/-- The fields of the `DBusBasicValue` union that the basic-type codec uses:
`byt` (byte/boolean), `u32` (int32/uint32 bit pattern), `u64`
(int64/uint64/double bit pattern) and `str` (string pointer). -/
inductive DBusBasicValue where
  | byt (b : Nat)
  | u32 (v : Nat)
  | u64 (v : Nat)
  | str (s : DStr)
deriving DecidableEq, Repr

def DBusBasicValue.getByt : DBusBasicValue → Nat
  | .byt b => b
  | _ => 0

def DBusBasicValue.getU32 : DBusBasicValue → Nat
  | .u32 v => v
  | _ => 0

def DBusBasicValue.getU64 : DBusBasicValue → Nat
  | .u64 v => v
  | _ => 0

def DBusBasicValue.getStr : DBusBasicValue → DStr
  | .str s => s
  | _ => []

/-- The value is stored in the union field the given type code reads, and is in
range for that type.  String values are nul-free bytes (they travel as C
strings); a signature length must fit its 1-byte length field. -/
def basicWellTyped (t : Nat) (v : DBusBasicValue) : Prop :=
  match v with
  | .byt b => (t = DBUS_TYPE_BYTE ∨ t = DBUS_TYPE_BOOLEAN) ∧ b < 256
  | .u32 n => (t = DBUS_TYPE_INT32 ∨ t = DBUS_TYPE_UINT32) ∧ n < 2 ^ 32
  | .u64 n =>
      (t = DBUS_TYPE_INT64 ∨ t = DBUS_TYPE_UINT64 ∨ t = DBUS_TYPE_DOUBLE) ∧ n < 2 ^ 64
  | .str s =>
      (t = DBUS_TYPE_STRING ∨ t = DBUS_TYPE_OBJECT_PATH ∨ t = DBUS_TYPE_SIGNATURE) ∧
      (∀ b ∈ s, 0 < b ∧ b < 256) ∧ s.length < 2 ^ 32 ∧
      (t = DBUS_TYPE_SIGNATURE → s.length < 256)

instance (t : Nat) (v : DBusBasicValue) : Decidable (basicWellTyped t v) := by
  unfold basicWellTyped
  cases v <;> infer_instance

/-! ### Marshaling basic types (`_dbus_marshal_basic_type`)

`marshal_4_octets` / `marshal_8_octets` call `_dbus_string_insert_4_aligned` /
`_dbus_string_insert_8_aligned`.  Modelled from the spec: those primitives
(dbus-string.c is not in the sources) insert nul padding at the insertion point
so the value starts at the next aligned offset ("the codec ... inserts padding
bytes on encode to satisfy the next field's alignment").  These definitions give
the success-path semantics; out-of-memory failure leaves the string unchanged
(each marshal function deletes its partial insertions at its `oom` label). -/

/-- `marshal_4_octets`: byte-swap to the requested order and insert 4-aligned.
Returns the new string and `*pos_after`. -/
def marshal_4_octets (str : DStr) (insert_at value byte_order : Nat) : DStr × Nat :=
  let aligned := _DBUS_ALIGN_VALUE insert_at 4
  (stringInsertAt str insert_at
      (List.replicate (aligned - insert_at) 0 ++ packOctets 4 byte_order value),
   aligned + 4)

/-- `marshal_8_octets`: as `marshal_4_octets` with 8-byte alignment. -/
def marshal_8_octets (str : DStr) (insert_at value byte_order : Nat) : DStr × Nat :=
  let aligned := _DBUS_ALIGN_VALUE insert_at 8
  (stringInsertAt str insert_at
      (List.replicate (aligned - insert_at) 0 ++ packOctets 8 byte_order value),
   aligned + 8)

/-- `marshal_len_followed_by_bytes` for `MARSHAL_AS_STRING`: a 4-byte length
(not counting the nul), the bytes, a terminating nul. -/
def marshal_string (str : DStr) (insert_at : Nat) (value : DStr) (byte_order : Nat) :
    DStr × Nat :=
  let aligned := _DBUS_ALIGN_VALUE insert_at 4
  (stringInsertAt str insert_at
      (List.replicate (aligned - insert_at) 0 ++ packOctets 4 byte_order value.length ++
        value ++ [0]),
   aligned + 4 + value.length + 1)

/-- `marshal_len_followed_by_bytes` for `MARSHAL_AS_SIGNATURE`: a 1-byte
length, the bytes, a terminating nul; no alignment. -/
def marshal_signature (str : DStr) (insert_at : Nat) (value : DStr) : DStr × Nat :=
  (stringInsertAt str insert_at (value.length % 256 :: (value ++ [0])),
   insert_at + 1 + value.length + 1)

/-- `_dbus_marshal_basic_type`: success-path semantics per type code. -/
def _dbus_marshal_basic_type (str : DStr) (insert_at type : Nat)
    (value : DBusBasicValue) (byte_order : Nat) : DStr × Nat :=
  if type = DBUS_TYPE_BYTE ∨ type = DBUS_TYPE_BOOLEAN then
    (_dbus_string_insert_byte str insert_at value.getByt, insert_at + 1)
  else if type = DBUS_TYPE_INT32 ∨ type = DBUS_TYPE_UINT32 then
    marshal_4_octets str insert_at value.getU32 byte_order
  else if type = DBUS_TYPE_INT64 ∨ type = DBUS_TYPE_UINT64 ∨ type = DBUS_TYPE_DOUBLE then
    marshal_8_octets str insert_at value.getU64 byte_order
  else if type = DBUS_TYPE_STRING ∨ type = DBUS_TYPE_OBJECT_PATH then
    marshal_string str insert_at value.getStr byte_order
  else if type = DBUS_TYPE_SIGNATURE then
    marshal_signature str insert_at value.getStr
  else
    (str, insert_at)  -- _dbus_assert_not_reached ("not a basic type")

/-! ### Demarshaling basic types (`_dbus_demarshal_basic_type`) -/

/-- `demarshal_4_octets` / `_dbus_demarshal_uint32`: align the position to 4,
read 4 bytes, report the following position. -/
def _dbus_demarshal_uint32 (str : DStr) (byte_order pos : Nat) : Nat × Nat :=
  let p := _DBUS_ALIGN_VALUE pos 4
  (unpackOctets 4 byte_order str p, p + 4)

/-- `_dbus_demarshal_basic_type`: returns the value read and the new position.
For strings/object paths/signatures the value is the character sequence the
returned pointer addresses (up to the terminating nul). -/
def _dbus_demarshal_basic_type (str : DStr) (type byte_order pos : Nat) :
    DBusBasicValue × Nat :=
  if type = DBUS_TYPE_BYTE ∨ type = DBUS_TYPE_BOOLEAN then
    (.byt (_dbus_string_get_byte str pos), pos + 1)
  else if type = DBUS_TYPE_INT32 ∨ type = DBUS_TYPE_UINT32 then
    let p := _DBUS_ALIGN_VALUE pos 4
    (.u32 (unpackOctets 4 byte_order str p), p + 4)
  else if type = DBUS_TYPE_INT64 ∨ type = DBUS_TYPE_UINT64 ∨ type = DBUS_TYPE_DOUBLE then
    let p := _DBUS_ALIGN_VALUE pos 8
    (.u64 (unpackOctets 8 byte_order str p), p + 8)
  else if type = DBUS_TYPE_STRING ∨ type = DBUS_TYPE_OBJECT_PATH then
    let (len, p) := _dbus_demarshal_uint32 str byte_order pos
    (.str (cStringAt str p), p + len + 1)
  else if type = DBUS_TYPE_SIGNATURE then
    let len := _dbus_string_get_byte str pos
    (.str (cStringAt str (pos + 1)), pos + 1 + len + 1)
  else
    (.byt 0, pos)  -- _dbus_assert_not_reached ("not a basic type")

/-! ### Round-trip of the basic-type codec -/

theorem le_align_value (pos b : Nat) (hb : b = 1 ∨ b = 4 ∨ b = 8) :
    pos ≤ _DBUS_ALIGN_VALUE pos b := by
  unfold _DBUS_ALIGN_VALUE
  rcases hb with rfl | rfl | rfl <;> omega

theorem align_value_lt (pos b : Nat) (hb : b = 1 ∨ b = 4 ∨ b = 8) :
    _DBUS_ALIGN_VALUE pos b < pos + b := by
  unfold _DBUS_ALIGN_VALUE
  rcases hb with rfl | rfl | rfl <;> omega

theorem stringInsertAt_drop_mid (s : DStr) (pos : Nat) (xs ys : DStr)
    (h : pos ≤ s.length) :
    (stringInsertAt s pos (xs ++ ys)).drop (pos + xs.length) = ys ++ s.drop pos := by
  unfold stringInsertAt
  have h1 : (s.take pos ++ xs).length = pos + xs.length := by
    simp [List.length_take, Nat.min_eq_left h]
  calc (s.take pos ++ (xs ++ ys) ++ s.drop pos).drop (pos + xs.length)
      = ((s.take pos ++ xs) ++ (ys ++ s.drop pos)).drop (pos + xs.length) := by
        simp [List.append_assoc]
    _ = ys ++ s.drop pos := List.drop_left' h1

theorem stringInsertAt_drop (s : DStr) (pos : Nat) (xs : DStr) (h : pos ≤ s.length) :
  (stringInsertAt s pos xs).drop pos = xs ++ s.drop pos := by
  have h0 := stringInsertAt_drop_mid s pos [] xs h
  simp only [List.nil_append, List.length_nil, Nat.add_zero] at h0
  exact h0

theorem get_byte_eq_headD (s : DStr) (pos : Nat) :
    _dbus_string_get_byte s pos = (s.drop pos).headD 0 := by
  unfold _dbus_string_get_byte
  induction s generalizing pos with
  | nil => simp
  | cons a tl ih =>
    cases pos with
    | zero => rfl
    | succ p => simp only [List.drop_succ_cons]
                exact ih p

theorem takeWhile_append_nul (s rest : DStr) (hs : ∀ b ∈ s, 0 < b) :
    ((s ++ 0 :: rest).takeWhile (fun b => b ≠ 0)) = s := by
  induction s with
  | nil => simp
  | cons a tl ih =>
    have ha : a ≠ 0 := by
      have := hs a (by simp)
      omega
    rw [List.cons_append, List.takeWhile_cons_of_pos (by simp [ha]),
      ih (fun b hb => hs b (by simp [hb]))]

theorem unpackOctets_eq (n byte_order : Nat) (s : DStr) (pos v : Nat) (rest : DStr)
    (hdrop : s.drop pos = packOctets n byte_order v ++ rest) (hv : v < 256 ^ n) :
    unpackOctets n byte_order s pos = v := by
  have h := unpackOctets_packOctets n byte_order v rest hv
  unfold unpackOctets at h ⊢
  rw [hdrop]
  simp only [List.drop_zero] at h
  exact h

/-- C1: demarshaling the bytes `_dbus_marshal_basic_type` produced at any
insertion position, in either byte order, yields the original basic value (for
strings, the same character sequence the returned pointer addresses). -/
theorem demarshal_marshal_basic_type (str : DStr) (insert_at type byte_order : Nat)
    (v : DBusBasicValue) (hv : basicWellTyped type v) (hpos : insert_at ≤ str.length) :
    (_dbus_demarshal_basic_type
        (_dbus_marshal_basic_type str insert_at type v byte_order).1
        type byte_order insert_at).1 = v := by
  cases v with
  | byt b =>
    obtain ⟨ht, hb⟩ := hv
    simp only [_dbus_marshal_basic_type, _dbus_demarshal_basic_type, if_pos ht,
      DBusBasicValue.getByt, _dbus_string_insert_byte]
    rw [get_byte_eq_headD, stringInsertAt_drop str insert_at [b] hpos]
    rfl
  | u32 n =>
    obtain ⟨ht, hn⟩ := hv
    have hne1 : ¬(type = DBUS_TYPE_BYTE ∨ type = DBUS_TYPE_BOOLEAN) := by
      rcases ht with rfl | rfl <;> decide
    simp only [_dbus_marshal_basic_type, _dbus_demarshal_basic_type, if_neg hne1,
      if_pos ht, DBusBasicValue.getU32, marshal_4_octets]
    have hge : insert_at ≤ _DBUS_ALIGN_VALUE insert_at 4 :=
      le_align_value insert_at 4 (by omega)
    have hdrop := stringInsertAt_drop_mid str insert_at
      (List.replicate (_DBUS_ALIGN_VALUE insert_at 4 - insert_at) 0)
      (packOctets 4 byte_order n) hpos
    rw [List.length_replicate, Nat.add_sub_cancel' hge] at hdrop
    rw [unpackOctets_eq 4 byte_order _ _ n (str.drop insert_at) hdrop
      (by norm_num at hn ⊢; omega)]
  | u64 n =>
    obtain ⟨ht, hn⟩ := hv
    have hne1 : ¬(type = DBUS_TYPE_BYTE ∨ type = DBUS_TYPE_BOOLEAN) := by
      rcases ht with rfl | rfl | rfl <;> decide
    have hne2 : ¬(type = DBUS_TYPE_INT32 ∨ type = DBUS_TYPE_UINT32) := by
      rcases ht with rfl | rfl | rfl <;> decide
    simp only [_dbus_marshal_basic_type, _dbus_demarshal_basic_type, if_neg hne1,
      if_neg hne2, if_pos ht, DBusBasicValue.getU64, marshal_8_octets]
    have hge : insert_at ≤ _DBUS_ALIGN_VALUE insert_at 8 :=
      le_align_value insert_at 8 (by omega)
    have hdrop := stringInsertAt_drop_mid str insert_at
      (List.replicate (_DBUS_ALIGN_VALUE insert_at 8 - insert_at) 0)
      (packOctets 8 byte_order n) hpos
    rw [List.length_replicate, Nat.add_sub_cancel' hge] at hdrop
    rw [unpackOctets_eq 8 byte_order _ _ n (str.drop insert_at) hdrop
      (by norm_num at hn ⊢; omega)]
  | str s =>
    obtain ⟨ht, hnz, hlen32, hsig⟩ := hv
    have hnz1 : ∀ b ∈ s, 0 < b := fun b hb => (hnz b hb).1
    by_cases hstr : type = DBUS_TYPE_STRING ∨ type = DBUS_TYPE_OBJECT_PATH
    · have hne1 : ¬(type = DBUS_TYPE_BYTE ∨ type = DBUS_TYPE_BOOLEAN) := by
        rcases hstr with rfl | rfl <;> decide
      have hne2 : ¬(type = DBUS_TYPE_INT32 ∨ type = DBUS_TYPE_UINT32) := by
        rcases hstr with rfl | rfl <;> decide
      have hne3 : ¬(type = DBUS_TYPE_INT64 ∨ type = DBUS_TYPE_UINT64 ∨
          type = DBUS_TYPE_DOUBLE) := by
        rcases hstr with rfl | rfl <;> decide
      simp only [_dbus_marshal_basic_type, _dbus_demarshal_basic_type, if_neg hne1,
        if_neg hne2, if_neg hne3, if_pos hstr, DBusBasicValue.getStr, marshal_string,
        _dbus_demarshal_uint32]
      have hge : insert_at ≤ _DBUS_ALIGN_VALUE insert_at 4 :=
        le_align_value insert_at 4 (by omega)
      have hdrop2 := stringInsertAt_drop_mid str insert_at
        (List.replicate (_DBUS_ALIGN_VALUE insert_at 4 - insert_at) 0 ++
          packOctets 4 byte_order s.length) (s ++ [0]) hpos
      rw [List.length_append, List.length_replicate, packOctets_length] at hdrop2
      rw [show insert_at + (_DBUS_ALIGN_VALUE insert_at 4 - insert_at + 4) =
        _DBUS_ALIGN_VALUE insert_at 4 + 4 by omega] at hdrop2
      unfold cStringAt
      rw [show (List.replicate (_DBUS_ALIGN_VALUE insert_at 4 - insert_at) 0 ++
          packOctets 4 byte_order s.length ++ s ++ [0]) =
          ((List.replicate (_DBUS_ALIGN_VALUE insert_at 4 - insert_at) 0 ++
          packOctets 4 byte_order s.length) ++ (s ++ [0])) by
            simp [List.append_assoc]]
      rw [hdrop2]
      rw [show (s ++ [0]) ++ str.drop insert_at = s ++ 0 :: str.drop insert_at by simp]
      rw [takeWhile_append_nul s _ hnz1]
    · have hg : type = DBUS_TYPE_SIGNATURE := by tauto
      subst hg
      have hne1 : ¬(DBUS_TYPE_SIGNATURE = DBUS_TYPE_BYTE ∨
          DBUS_TYPE_SIGNATURE = DBUS_TYPE_BOOLEAN) := by decide
      have hne2 : ¬(DBUS_TYPE_SIGNATURE = DBUS_TYPE_INT32 ∨
          DBUS_TYPE_SIGNATURE = DBUS_TYPE_UINT32) := by decide
      have hne3 : ¬(DBUS_TYPE_SIGNATURE = DBUS_TYPE_INT64 ∨
          DBUS_TYPE_SIGNATURE = DBUS_TYPE_UINT64 ∨
          DBUS_TYPE_SIGNATURE = DBUS_TYPE_DOUBLE) := by decide
      have heq : DBUS_TYPE_SIGNATURE = DBUS_TYPE_SIGNATURE := rfl
      simp only [_dbus_marshal_basic_type, _dbus_demarshal_basic_type, if_neg hne1,
        if_neg hne2, if_neg hne3, if_neg hstr, if_pos heq, DBusBasicValue.getStr,
        marshal_signature]
      unfold cStringAt
      rw [show (s.length % 256 :: (s ++ [0])) = [s.length % 256] ++ (s ++ [0]) from rfl]
      rw [show insert_at + 1 = insert_at + [s.length % 256].length from rfl]
      simp only [if_true]
      rw [stringInsertAt_drop_mid str insert_at [s.length % 256] (s ++ [0]) hpos]
      rw [show (s ++ [0]) ++ str.drop insert_at = s ++ 0 :: str.drop insert_at by simp]
      rw [takeWhile_append_nul s _ hnz1]

/-- Witness for C1: round-trip of the uint32 value 305419896 big-endian at
insertion position 2 of a 3-byte string. -/
theorem demarshal_marshal_basic_type_witness :
    basicWellTyped DBUS_TYPE_UINT32 (.u32 305419896) ∧ (2 : Nat) ≤ ([9, 9, 9] : DStr).length ∧
    (_dbus_demarshal_basic_type
        (_dbus_marshal_basic_type [9, 9, 9] 2 DBUS_TYPE_UINT32 (.u32 305419896)
          DBUS_BIG_ENDIAN).1
        DBUS_TYPE_UINT32 DBUS_BIG_ENDIAN 2).1 = .u32 305419896 :=
  ⟨by decide, by decide,
    demarshal_marshal_basic_type [9, 9, 9] 2 DBUS_TYPE_UINT32 DBUS_BIG_ENDIAN
      (.u32 305419896) (by decide) (by decide)⟩

/-! ### The main loop: check_timeout (dbus-mainloop.c)

`unsigned long` arithmetic wraps modulo `2 ^ 64`; conversion of an unsigned
difference to `long` reinterprets values at or above `2 ^ 63` as negative. -/

def UINT64_MOD : Nat := 2 ^ 64

/-- Wrapping unsigned subtraction `a - b` on `unsigned long` (both < 2^64). -/
def usub (a b : Nat) : Nat := (a + UINT64_MOD - b) % UINT64_MOD

/-- Reinterpret an `unsigned long` value as a (two's-complement) `long`. -/
def ulongToLong (u : Nat) : Int :=
  if u < 2 ^ 63 then (u : Int) else (u : Int) - (UINT64_MOD : Int)

def _DBUS_INT_MAX : Int := 2147483647

/-- A `TimeoutCallback`: the timeout's interval and enabled flag together with
the last-fired wall time. -/
structure TimeoutCallback where
  interval : Nat
  enabled : Bool
  last_tv_sec : Nat
  last_tv_usec : Nat
deriving DecidableEq, Repr

/-- `expiration_tv_sec` as `check_timeout` computes it:
`last_tv_sec + interval/1000`, plus the carry from the microsecond field. -/
def check_timeout_exp_sec (tcb : TimeoutCallback) : Nat :=
  if 1000000 ≤
      (tcb.last_tv_usec + (tcb.interval - tcb.interval / 1000 * 1000) * 1000) % UINT64_MOD
  then ((tcb.last_tv_sec + tcb.interval / 1000) % UINT64_MOD + 1) % UINT64_MOD
  else (tcb.last_tv_sec + tcb.interval / 1000) % UINT64_MOD

/-- `expiration_tv_usec` as `check_timeout` computes it. -/
def check_timeout_exp_usec (tcb : TimeoutCallback) : Nat :=
  if 1000000 ≤
      (tcb.last_tv_usec + (tcb.interval - tcb.interval / 1000 * 1000) * 1000) % UINT64_MOD
  then (tcb.last_tv_usec + (tcb.interval - tcb.interval / 1000 * 1000) * 1000) % UINT64_MOD
    - 1000000
  else (tcb.last_tv_usec + (tcb.interval - tcb.interval / 1000 * 1000) * 1000) % UINT64_MOD

/-- The `msec_remaining` value `check_timeout` stores into `*timeout` on the
non-rewind path: clamp a negative remainder to 0, otherwise borrow from the
(discarded) seconds and clamp to `_DBUS_INT_MAX`. -/
def check_timeout_msec_remaining (tv_sec tv_usec : Nat) (tcb : TimeoutCallback) : Int :=
  if ulongToLong (usub (check_timeout_exp_sec tcb) tv_sec) < 0 ∨
      (ulongToLong (usub (check_timeout_exp_sec tcb) tv_sec) = 0 ∧
        ulongToLong (usub (check_timeout_exp_usec tcb) tv_usec / 1000) < 0) then 0
  else
    if ulongToLong (usub (check_timeout_exp_usec tcb) tv_usec / 1000) < 0 then
      if _DBUS_INT_MAX < ulongToLong (usub (check_timeout_exp_usec tcb) tv_usec / 1000) + 1000
      then _DBUS_INT_MAX
      else ulongToLong (usub (check_timeout_exp_usec tcb) tv_usec / 1000) + 1000
    else
      if _DBUS_INT_MAX < ulongToLong (usub (check_timeout_exp_usec tcb) tv_usec / 1000)
      then _DBUS_INT_MAX
      else ulongToLong (usub (check_timeout_exp_usec tcb) tv_usec / 1000)

/-- `check_timeout (tv_sec, tv_usec, tcb, timeout)`: computes the expiration
time `last + interval`; if it lies before now the system clock was set
backward, so the last-fired time is reset to now, `*timeout` becomes the full
interval and the timeout is not ready; otherwise the remaining milliseconds
are reported and the timeout is ready iff they are zero.  Returns (ready,
updated callback, `*timeout`). -/
def check_timeout (tv_sec tv_usec : Nat) (tcb : TimeoutCallback) :
    Bool × TimeoutCallback × Int :=
  if check_timeout_exp_sec tcb < tv_sec ∨
      (check_timeout_exp_sec tcb = tv_sec ∧ check_timeout_exp_usec tcb < tv_usec) then
    (false, { tcb with last_tv_sec := tv_sec, last_tv_usec := tv_usec },
      (tcb.interval : Int))
  else
    (check_timeout_msec_remaining tv_sec tv_usec tcb == 0, tcb,
      check_timeout_msec_remaining tv_sec tv_usec tcb)

/-- Under realistic bounds, the computed expiration is exactly
`last + interval` and its microsecond field is normalized. -/
theorem check_timeout_exp_spec (tcb : TimeoutCallback)
    (hlsec : tcb.last_tv_sec < 2 ^ 32) (hlusec : tcb.last_tv_usec < 1000000)
    (hint : tcb.interval ≤ 2147483647) :
    check_timeout_exp_sec tcb * 1000000 + check_timeout_exp_usec tcb =
      tcb.last_tv_sec * 1000000 + tcb.last_tv_usec + tcb.interval * 1000 ∧
    check_timeout_exp_usec tcb < 1000000 := by
  unfold check_timeout_exp_sec check_timeout_exp_usec
  have h64 : UINT64_MOD = 18446744073709551616 := by norm_num [UINT64_MOD]
  rw [h64]
  norm_num at hlsec
  have hsmall : tcb.last_tv_usec + (tcb.interval - tcb.interval / 1000 * 1000) * 1000 <
      18446744073709551616 := by omega
  have hsmall2 : tcb.last_tv_sec + tcb.interval / 1000 < 18446744073709551616 := by omega
  have hsmall3 : tcb.last_tv_sec + tcb.interval / 1000 + 1 < 18446744073709551616 := by
    omega
  simp only [Nat.mod_eq_of_lt hsmall, Nat.mod_eq_of_lt hsmall2, Nat.mod_eq_of_lt hsmall3]
  split_ifs with h <;> omega

/-- C4: a wall-clock rewind that makes the remaining time negative by more
than the interval resets the timeout's last-fired time to now and reports the
full interval remaining; a timeout whose expiration time equals the current
time exactly (remaining time zero, not negative) is reported ready to fire. -/
theorem check_timeout_rewind_and_expiry (tv_sec tv_usec : Nat) (tcb : TimeoutCallback)
    (_hsec : tv_sec < 2 ^ 32) (husec : tv_usec < 1000000)
    (hlsec : tcb.last_tv_sec < 2 ^ 32) (hlusec : tcb.last_tv_usec < 1000000)
    (hint : tcb.interval ≤ 2147483647) :
    (tcb.last_tv_sec * 1000000 + tcb.last_tv_usec + 2 * (tcb.interval * 1000) <
        tv_sec * 1000000 + tv_usec →
      check_timeout tv_sec tv_usec tcb =
        (false, { tcb with last_tv_sec := tv_sec, last_tv_usec := tv_usec },
          (tcb.interval : Int))) ∧
    (tcb.last_tv_sec * 1000000 + tcb.last_tv_usec + tcb.interval * 1000 =
        tv_sec * 1000000 + tv_usec →
      check_timeout tv_sec tv_usec tcb = (true, tcb, 0)) := by
  obtain ⟨hexp, hexpu⟩ := check_timeout_exp_spec tcb hlsec hlusec hint
  constructor
  · intro hbehind
    have hcond : check_timeout_exp_sec tcb < tv_sec ∨
        (check_timeout_exp_sec tcb = tv_sec ∧ check_timeout_exp_usec tcb < tv_usec) := by
      omega
    unfold check_timeout
    rw [if_pos hcond]
  · intro hexact
    have hes : check_timeout_exp_sec tcb = tv_sec := by omega
    have heu : check_timeout_exp_usec tcb = tv_usec := by omega
    have hcond : ¬(check_timeout_exp_sec tcb < tv_sec ∨
        (check_timeout_exp_sec tcb = tv_sec ∧ check_timeout_exp_usec tcb < tv_usec)) := by
      omega
    have hu0 : ∀ a : Nat, usub a a = 0 := by
      intro a
      unfold usub
      rw [Nat.add_sub_cancel_left, Nat.mod_self]
    have hmsec : check_timeout_msec_remaining tv_sec tv_usec tcb = 0 := by
      unfold check_timeout_msec_remaining
      rw [hes, heu, hu0, hu0]
      norm_num [ulongToLong, _DBUS_INT_MAX]
    unfold check_timeout
    rw [if_neg hcond, hmsec]
    norm_num

/-- Witness for C4: a 1000 ms timeout last fired at 1.0 s, checked at exactly
2.0 s, with bounds discharged. -/
theorem check_timeout_rewind_and_expiry_witness :
    ((2 : Nat) < 2 ^ 32 ∧ (0 : Nat) < 1000000 ∧ (1 : Nat) < 2 ^ 32 ∧
      (1000 : Nat) ≤ 2147483647) ∧
    ((1 * 1000000 + 0 + 2 * (1000 * 1000) < 2 * 1000000 + 0 →
      check_timeout 2 0 ⟨1000, true, 1, 0⟩ =
        (false, { (⟨1000, true, 1, 0⟩ : TimeoutCallback) with
          last_tv_sec := 2, last_tv_usec := 0 }, (1000 : Int))) ∧
    (1 * 1000000 + 0 + 1000 * 1000 = 2 * 1000000 + 0 →
      check_timeout 2 0 ⟨1000, true, 1, 0⟩ = (true, ⟨1000, true, 1, 0⟩, 0))) :=
  ⟨⟨by norm_num, by norm_num, by norm_num, by norm_num⟩,
    check_timeout_rewind_and_expiry 2 0 ⟨1000, true, 1, 0⟩ (by norm_num) (by norm_num)
      (by norm_num) (by norm_num) (by norm_num)⟩

/-! ### The main loop: _dbus_loop_iterate (dbus-mainloop.c)

The iteration is modelled phase by phase: building the poll set (skipping
watches that reported out-of-memory last time), computing the poll timeout
(including the OOM clamp), firing expired timeouts, firing ready watches, and
draining the dispatch queue.  The poll outcome and the callbacks' return
values come from an oracle; callbacks are assumed not to mutate the callback
list or the run depth (the serial/depth restart paths are not taken). -/

structure WatchCallback where
  fd : Nat
  enabled : Bool
  last_iteration_oom : Bool
deriving DecidableEq, Repr

inductive Callback where
  | watch (w : WatchCallback)
  | timeout (t : TimeoutCallback)
deriving DecidableEq, Repr

/-- `_dbus_get_oom_wait`: the OOM back-off interval, 500 ms by default (0 only
under `DBUS_BUILD_TESTS`). -/
def _dbus_get_oom_wait : Int := 500

/-- The fd-array building loop of `_dbus_loop_iterate`: a watch whose callback
reported out-of-memory last iteration is skipped this time, its flag is
cleared so it is re-enabled next time, `oom_watch_pending` is recorded and
`retval` is forced to `TRUE`; an enabled watch is appended to the poll set.
Returns (poll set, updated callbacks, `oom_watch_pending`, `retval`). -/
def buildPollData : List Callback → List WatchCallback × List Callback × Bool × Bool
  | [] => ([], [], false, false)
  | .watch w :: rest =>
    let r := buildPollData rest
    if w.last_iteration_oom then
      (r.1, .watch { w with last_iteration_oom := false } :: r.2.1, true, true)
    else if w.enabled then
      (w :: r.1, .watch w :: r.2.1, r.2.2.1, r.2.2.2)
    else
      (r.1, .watch w :: r.2.1, r.2.2.1, r.2.2.2)
  | .timeout t :: rest =>
    let r := buildPollData rest
    (r.1, .timeout t :: r.2.1, r.2.2.1, r.2.2.2)

/-- The smallest-remaining-time scan of `_dbus_loop_iterate`: fold
`check_timeout` over the enabled timeouts (which may reset them on a clock
rewind), stopping early once the candidate timeout reaches 0. -/
def computeTimeoutScan (tv_sec tv_usec : Nat) :
    List Callback → Int → Int × List Callback
  | [], timeout => (timeout, [])
  | .watch w :: rest, timeout =>
    let r := computeTimeoutScan tv_sec tv_usec rest timeout
    (r.1, .watch w :: r.2)
  | .timeout tcb :: rest, timeout =>
    if tcb.enabled then
      let c := check_timeout tv_sec tv_usec tcb
      let t1 := if timeout < 0 then c.2.2 else min c.2.2 timeout
      if t1 = 0 then (0, .timeout c.2.1 :: rest)
      else
        let r := computeTimeoutScan tv_sec tv_usec rest t1
        (r.1, .timeout c.2.1 :: r.2)
    else
      let r := computeTimeoutScan tv_sec tv_usec rest timeout
      (r.1, .timeout tcb :: r.2)

/-- The poll-timeout computation of `_dbus_loop_iterate`: the scan result
(initially -1, i.e. block forever), clamped to 0 when not blocking or when
dispatch is pending, then clamped by `MIN (timeout, _dbus_get_oom_wait ())`
when an OOM watch is pending. -/
def iteratePollTimeout (tv_sec tv_usec : Nat) (cbs : List Callback)
    (block need_dispatch_nonempty oom_watch_pending : Bool) : Int × List Callback :=
  let r := computeTimeoutScan tv_sec tv_usec cbs (-1)
  let t1 := if ¬block ∨ need_dispatch_nonempty then 0 else r.1
  let t2 := if oom_watch_pending then min t1 _dbus_get_oom_wait else t1
  (t2, r.2)

/-- Oracle for one iteration: the poll result, the per-fd condition bits, the
per-fd watch-callback results, and the time re-fetched after the poll. -/
structure IterateOracle where
  n_ready : Int
  condition : Nat → Nat
  watchOk : Nat → Bool
  tv2_sec : Nat
  tv2_usec : Nat

/-- The timeout-firing pass after the poll: each enabled timeout is checked
(with the refetched time); a ready one has its last-fired time saved and its
callback invoked, setting `retval`. -/
def fireTimeouts (tv_sec tv_usec : Nat) : List Callback → List Callback × Bool
  | [] => ([], false)
  | .watch w :: rest =>
    let r := fireTimeouts tv_sec tv_usec rest
    (.watch w :: r.1, r.2)
  | .timeout tcb :: rest =>
    let r := fireTimeouts tv_sec tv_usec rest
    if tcb.enabled then
      let c := check_timeout tv_sec tv_usec tcb
      if c.1 then
        (.timeout { c.2.1 with last_tv_sec := tv_sec, last_tv_usec := tv_usec } :: r.1,
          true)
      else (.timeout c.2.1 :: r.1, r.2)
    else (.timeout tcb :: r.1, r.2)

/-- The watch-firing pass: each watch that was polled (`inPoll` by fd) with a
nonzero condition and still enabled is invoked; a failed invocation marks
`last_iteration_oom`; any invocation sets `retval`. -/
def fireWatches (o : IterateOracle) (inPoll : List Nat) :
    List Callback → List Callback × Bool
  | [] => ([], false)
  | .watch w :: rest =>
    let r := fireWatches o inPoll rest
    if w.fd ∈ inPoll ∧ o.condition w.fd ≠ 0 ∧ w.enabled then
      if o.watchOk w.fd then (.watch w :: r.1, true)
      else (.watch { w with last_iteration_oom := true } :: r.1, true)
    else (.watch w :: r.1, r.2)
  | .timeout t :: rest =>
    let r := fireWatches o inPoll rest
    (.timeout t :: r.1, r.2)

/-- `_dbus_loop_iterate`: build the poll set, poll with the computed timeout,
fire expired timeouts, fire ready watches, drain one pass of the dispatch
queue (`_dbus_loop_dispatch` reports whether it was nonempty).  Returns
(`retval`, final callbacks). -/
def _dbus_loop_iterate (tv_sec tv_usec : Nat) (cbs : List Callback)
    (block need_dispatch_nonempty : Bool) (o : IterateOracle) :
    Bool × List Callback :=
  let b := buildPollData cbs
  let pt := iteratePollTimeout tv_sec tv_usec b.2.1 block need_dispatch_nonempty b.2.2.1
  let ft := fireTimeouts o.tv2_sec o.tv2_usec pt.2
  let fw := if 0 < o.n_ready then fireWatches o (b.1.map (·.fd)) ft.1 else (ft.1, false)
  (b.2.2.2 || ft.2 || fw.2 || need_dispatch_nonempty, fw.1)

/-- The watches an iteration polls: enabled and not marked OOM-skipped. -/
def pollSet (cbs : List Callback) : List WatchCallback :=
  cbs.filterMap (fun cb => match cb with
    | .watch w => if ¬w.last_iteration_oom ∧ w.enabled then some w else none
    | .timeout _ => none)

/-- The enabled watches, regardless of the OOM-skip flag. -/
def enabledWatches (cbs : List Callback) : List WatchCallback :=
  cbs.filterMap (fun cb => match cb with
    | .watch w => if w.enabled then some w else none
    | .timeout _ => none)

/-- Clear every watch's OOM-skip flag. -/
def clearOomFlags (cbs : List Callback) : List Callback :=
  cbs.map (fun cb => match cb with
    | .watch w => .watch { w with last_iteration_oom := false }
    | .timeout t => .timeout t)

/-- Does some watch carry the OOM-skip flag? -/
def anyOomWatch (cbs : List Callback) : Bool :=
  cbs.any (fun cb => match cb with
    | .watch w => w.last_iteration_oom
    | .timeout _ => false)

/-- Characterization of the fd-building loop: it polls exactly the enabled
non-OOM watches, clears every OOM flag, and reports pending/`retval` exactly
when some watch was OOM-skipped. -/
theorem buildPollData_spec (cbs : List Callback) :
    buildPollData cbs =
      (pollSet cbs, clearOomFlags cbs, anyOomWatch cbs, anyOomWatch cbs) := by
  induction cbs with
  | nil => rfl
  | cons cb rest ih =>
    cases cb with
    | watch w =>
      obtain ⟨fd, en, oom⟩ := w
      cases oom <;> cases en <;>
        simp [buildPollData, pollSet, clearOomFlags, anyOomWatch, ih, List.filterMap_cons]
    | timeout t =>
      simp [buildPollData, pollSet, clearOomFlags, anyOomWatch, ih, List.filterMap_cons]

theorem pollSet_cons_watch (w : WatchCallback) (rest : List Callback) :
    pollSet (.watch w :: rest) =
      if w.last_iteration_oom = false ∧ w.enabled = true then w :: pollSet rest
      else pollSet rest := by
  by_cases h : w.last_iteration_oom = false ∧ w.enabled = true <;>
    simp [pollSet, List.filterMap_cons, h]

theorem pollSet_cons_timeout (t : TimeoutCallback) (rest : List Callback) :
    pollSet (.timeout t :: rest) = pollSet rest := by
  simp [pollSet, List.filterMap_cons]

theorem enabledWatches_cons_watch (w : WatchCallback) (rest : List Callback) :
    enabledWatches (.watch w :: rest) =
      if w.enabled = true then w :: enabledWatches rest else enabledWatches rest := by
  by_cases h : w.enabled = true <;> simp [enabledWatches, List.filterMap_cons, h]

theorem enabledWatches_cons_timeout (t : TimeoutCallback) (rest : List Callback) :
    enabledWatches (.timeout t :: rest) = enabledWatches rest := by
  simp [enabledWatches, List.filterMap_cons]

theorem pollSet_clearOomFlags (l : List Callback) :
    pollSet (clearOomFlags l) =
      (enabledWatches l).map (fun w => { w with last_iteration_oom := false }) := by
  induction l with
  | nil => rfl
  | cons cb rest ih =>
    cases cb with
    | watch w =>
      rw [show clearOomFlags (Callback.watch w :: rest) =
        Callback.watch { w with last_iteration_oom := false } :: clearOomFlags rest
        from rfl]
      rw [pollSet_cons_watch, enabledWatches_cons_watch]
      by_cases h : w.enabled = true <;> simp [h, ih]

    | timeout t =>
      rw [show clearOomFlags (Callback.timeout t :: rest) =
        Callback.timeout t :: clearOomFlags rest from rfl]
      rw [pollSet_cons_timeout, enabledWatches_cons_timeout, ih]

theorem oom_watch_not_polled (l : List Callback) (w : WatchCallback)
    (hw : w.last_iteration_oom = true) : w ∉ pollSet l := by
  induction l with
  | nil =>
    intro hmem
    simp [pollSet] at hmem
  | cons cb rest ih =>
    intro hmem
    cases cb with
    | watch w' =>
      rw [pollSet_cons_watch] at hmem
      by_cases h : w'.last_iteration_oom = false ∧ w'.enabled = true
      · rw [if_pos h] at hmem
        rcases List.mem_cons.mp hmem with rfl | hmem'
        · rw [hw] at h
          exact absurd h.1 (by simp)
        · exact ih hmem'
      · rw [if_neg h] at hmem
        exact ih hmem
    | timeout t =>
      rw [pollSet_cons_timeout] at hmem
      exact ih hmem

theorem iteratePollTimeout_fst_pend (tv_sec tv_usec : Nat) (cbs : List Callback)
    (block nd : Bool) :
    (iteratePollTimeout tv_sec tv_usec cbs block nd true).1 =
      min (if ¬block = true ∨ nd = true then 0
           else (computeTimeoutScan tv_sec tv_usec cbs (-1)).1) _dbus_get_oom_wait := rfl

/-- C5 (amended): when some watch reported out-of-memory on the previous
iteration, this iteration polls exactly the enabled non-OOM watches (every
OOM-flagged watch is excluded), clears the flags so the following iteration
polls every enabled watch again, and reports that work was done; the poll
timeout is bounded by the OOM interval (500 ms) whenever blocking is disabled,
dispatch is pending, or the timeout scan produced a nonnegative value — with
no enabled timeout while blocking idly, the scan leaves -1 and the clamp
`MIN (-1, 500)` keeps the indefinite block. -/
theorem loop_iterate_oom_watch (tv_sec tv_usec : Nat) (cbs : List Callback)
    (block need_dispatch_nonempty : Bool) (o : IterateOracle)
    (hoom : anyOomWatch cbs = true) :
    (buildPollData cbs).1 = pollSet cbs ∧
    (∀ w : WatchCallback, w.last_iteration_oom = true → w ∉ pollSet cbs) ∧
    (buildPollData cbs).2.1 = clearOomFlags cbs ∧
    (buildPollData (clearOomFlags cbs)).1 =
      (enabledWatches cbs).map (fun w => { w with last_iteration_oom := false }) ∧
    (_dbus_loop_iterate tv_sec tv_usec cbs block need_dispatch_nonempty o).1 = true ∧
    ((block = false ∨ need_dispatch_nonempty = true ∨
        0 ≤ (computeTimeoutScan tv_sec tv_usec (buildPollData cbs).2.1 (-1)).1) →
      0 ≤ (iteratePollTimeout tv_sec tv_usec (buildPollData cbs).2.1 block
          need_dispatch_nonempty (buildPollData cbs).2.2.1).1 ∧
        (iteratePollTimeout tv_sec tv_usec (buildPollData cbs).2.1 block
          need_dispatch_nonempty (buildPollData cbs).2.2.1).1 ≤ _dbus_get_oom_wait) := by
  have hpend : (buildPollData cbs).2.2.1 = true := by
    rw [buildPollData_spec]
    exact hoom
  refine ⟨by rw [buildPollData_spec], fun w hw => oom_watch_not_polled cbs w hw,
    by rw [buildPollData_spec], by rw [buildPollData_spec, pollSet_clearOomFlags], ?_, ?_⟩
  · unfold _dbus_loop_iterate
    rw [buildPollData_spec]
    simp [hoom]
  · intro hpre
    rw [hpend, iteratePollTimeout_fst_pend]
    by_cases hb : ¬block = true ∨ need_dispatch_nonempty = true
    · rw [if_pos hb]
      unfold _dbus_get_oom_wait
      omega
    · rw [if_neg hb]
      have h0 : 0 ≤ (computeTimeoutScan tv_sec tv_usec (buildPollData cbs).2.1 (-1)).1 := by
        rcases hpre with h | h | h
        · exact absurd (Or.inl (by simp [h])) hb
        · exact absurd (Or.inr h) hb
        · exact h
      unfold _dbus_get_oom_wait
      omega

/-- Counterexample to C5 as stated: with one OOM-skipped watch, no enabled
timeout, blocking enabled and no dispatch pending, the computed poll timeout
is -1 (poll blocks indefinitely) — `MIN (-1, 500) = -1` — so the poll wait is
not bounded by the 500 ms OOM interval. -/
theorem loop_iterate_oom_timeout_counterexample :
    anyOomWatch [Callback.watch ⟨3, true, true⟩] = true ∧
    (iteratePollTimeout 0 0 (buildPollData [Callback.watch ⟨3, true, true⟩]).2.1 true
        false (buildPollData [Callback.watch ⟨3, true, true⟩]).2.2.1).1 = -1 := by
  constructor
  · decide
  · decide

/-- Witness for C5 (amended): one OOM watch, blocking disabled, a trivial
oracle. -/
theorem loop_iterate_oom_watch_witness :
    anyOomWatch [Callback.watch ⟨3, true, true⟩] = true ∧
    ((buildPollData [Callback.watch ⟨3, true, true⟩]).1 =
        pollSet [Callback.watch ⟨3, true, true⟩] ∧
      (∀ w : WatchCallback, w.last_iteration_oom = true →
        w ∉ pollSet [Callback.watch ⟨3, true, true⟩]) ∧
      (buildPollData [Callback.watch ⟨3, true, true⟩]).2.1 =
        clearOomFlags [Callback.watch ⟨3, true, true⟩] ∧
      (buildPollData (clearOomFlags [Callback.watch ⟨3, true, true⟩])).1 =
        (enabledWatches [Callback.watch ⟨3, true, true⟩]).map
          (fun w => { w with last_iteration_oom := false }) ∧
      (_dbus_loop_iterate 0 0 [Callback.watch ⟨3, true, true⟩] false false
        ⟨0, fun _ => 0, fun _ => true, 0, 0⟩).1 = true ∧
      ((false = false ∨ false = true ∨
          0 ≤ (computeTimeoutScan 0 0
            (buildPollData [Callback.watch ⟨3, true, true⟩]).2.1 (-1)).1) →
        0 ≤ (iteratePollTimeout 0 0 (buildPollData [Callback.watch ⟨3, true, true⟩]).2.1
            false false (buildPollData [Callback.watch ⟨3, true, true⟩]).2.2.1).1 ∧
          (iteratePollTimeout 0 0 (buildPollData [Callback.watch ⟨3, true, true⟩]).2.1
            false false (buildPollData [Callback.watch ⟨3, true, true⟩]).2.2.1).1 ≤
            _dbus_get_oom_wait)) :=
  ⟨by decide,
    loop_iterate_oom_watch 0 0 [Callback.watch ⟨3, true, true⟩] false false
      ⟨0, fun _ => 0, fun _ => true, 0, 0⟩ (by decide)⟩

/-! ### The dispatcher: bus_dispatch (bus/dispatch.c)

`bus_dispatch` is embedded as a function of the outcomes of its fallible
calls, collected in an oracle.  The helpers it calls from the other bus
sources (transaction, connection, policy, registry, driver) are not under
`src/`; their contracts are modelled from the spec (§4.4, §4.5, §7):
preallocation is retried until it succeeds, `bus_connection_send_oom_error`
uses the preallocated reply and needs no allocation, cancelling a transaction
discards the plan without touching recipient queues, committing flushes the
planned sends, and a policy rejection reports an access-denied error. -/

def DBUS_SERVICE_ORG_FREEDESKTOP_DBUS : String := "org.freedesktop.DBus"

inductive BusError where
  | noMemory
  | serviceDoesNotExist (name : String)
  | accessDenied
  | driverFailure
deriving DecidableEq, Repr

/-- Outcomes of the fallible calls `bus_dispatch` makes, plus the message and
connection facts it branches on. -/
structure DispatchOracle where
  destination : Option String
  isDisconnectedSignal : Bool
  messageIsSignal : Bool
  connActive : Bool
  preallocFailures : Nat
  transactionNewOk : Bool
  setSenderOk : Bool
  policyOkForDriver : Bool
  driverResult : Option BusError
  registryOwner : String → Option Nat
  policyOkForAddressed : Bool
  sendOkForAddressed : Bool
  matchRecipients : Option (List Nat)
  policyOkForMatch : Nat → Bool
  sendOkForMatch : Nat → Bool
  connectedAtOut : Bool
  sendErrorReplyOk : Bool

/-- What a run of `bus_dispatch` did: the error live at `out:`, the
transaction's fate, the replies sent to the sender, and the copies of the
message planned for recipient queues. -/
structure DispatchTrace where
  notYetHandled : Bool
  preallocated : Bool
  errorAtOut : Option BusError
  transactionCreated : Bool
  transactionCancelled : Bool
  transactionCommitted : Bool
  sentOomError : Bool
  sentErrorReply : Option BusError
  disconnectedClient : Bool
  plannedSends : List Nat
deriving DecidableEq, Repr

/-- The copies of the dispatched message that reach recipient queues: the plan
if the transaction was committed, nothing if it was cancelled (rollback never
mutates recipient queues). -/
def DispatchTrace.deliveredSends (t : DispatchTrace) : List Nat :=
  if t.transactionCommitted then t.plannedSends else []

/-- Modelled from the spec: `bus_connection_preallocate_oom_error` fails some
number of times; `bus_dispatch` sleeps (`_dbus_wait_for_memory`) and retries,
so the loop only exits with the OOM error preallocated. -/
def prealloc_oom_error_loop : Nat → Bool
  | 0 => true
  | n + 1 => prealloc_oom_error_loop n

theorem prealloc_oom_error_loop_true (n : Nat) : prealloc_oom_error_loop n = true := by
  induction n with
  | zero => rfl
  | succ k ih => exact ih

/-- `send_one_message`: a security-policy denial silently skips the recipient
(returns TRUE with nothing queued and no error); a failed transaction send is
an out-of-memory error.  Returns (result, error, queued?). -/
def send_one_message (o : DispatchOracle) (dest : Nat) :
    Bool × Option BusError × Bool :=
  if ¬o.policyOkForMatch dest then (true, none, false)
  else if ¬o.sendOkForMatch dest then (false, some .noMemory, false)
  else (true, none, true)

/-- The recipient loop of `bus_dispatch_matches`: `send_one_message` for each
recipient, stopping at the first hard failure. -/
def bus_dispatch_matches_aux (o : DispatchOracle) :
    List Nat → Option BusError × List Nat
  | [] => (none, [])
  | d :: rest =>
    let s := send_one_message o d
    if s.1 then
      let r := bus_dispatch_matches_aux o rest
      (r.1, if s.2.2 then d :: r.2 else r.2)
    else (s.2.1, [])

/-- `bus_dispatch_matches`: ask the matchmaker for the recipients (failure is
out-of-memory), then send to each.  Returns (error, queued copies). -/
def bus_dispatch_matches (o : DispatchOracle) : Option BusError × List Nat :=
  match o.matchRecipients with
  | none => (some .noMemory, [])
  | some rs => bus_dispatch_matches_aux o rs

/-- The `out:` label of `bus_dispatch`: with an error set, (a) a disconnected
sender gets nothing, (b) out-of-memory sends the preallocated OOM reply and
cancels the transaction, (c) any other error is sent as a regular error reply
through the transaction, falling back to (b) if even that fails; finally any
remaining transaction is executed (committed). -/
def bus_dispatch_out (o : DispatchOracle) (t : DispatchTrace) : DispatchTrace :=
  let t1 : DispatchTrace :=
    match t.errorAtOut with
    | none => t
    | some e =>
      if o.connectedAtOut = false then t
      else if e = BusError.noMemory then
        { t with sentOomError := true, transactionCancelled := t.transactionCreated }
      else if o.sendErrorReplyOk then { t with sentErrorReply := some e }
      else { t with sentOomError := true, transactionCancelled := t.transactionCreated }
  { t1 with transactionCommitted := t1.transactionCreated && !t1.transactionCancelled }

/-- The tail of `bus_dispatch`: run the matchmaker step, then fall to `out:`. -/
def bus_dispatch_run_matches (o : DispatchOracle) (t : DispatchTrace) : DispatchTrace :=
  let m := bus_dispatch_matches o
  match m.1 with
  | some e =>
    bus_dispatch_out o
      { t with errorAtOut := some e, plannedSends := t.plannedSends ++ m.2 }
  | none => bus_dispatch_out o { t with plannedSends := t.plannedSends ++ m.2 }

/-- `bus_dispatch`: preallocate the OOM error (looping until it exists),
handle the synthetic Disconnected signal and non-signals without destination,
open a transaction, stamp the sender, route to the bus driver / disconnect a
non-registered client / look the destination up in the name registry, run the
matchmaker, and handle any error at `out:`. -/
def bus_dispatch (o : DispatchOracle) : DispatchTrace :=
  let t0 : DispatchTrace :=
    { notYetHandled := false,
      preallocated := prealloc_oom_error_loop o.preallocFailures,
      errorAtOut := none, transactionCreated := false, transactionCancelled := false,
      transactionCommitted := false, sentOomError := false, sentErrorReply := none,
      disconnectedClient := false, plannedSends := [] }
  if o.destination = none ∧ o.isDisconnectedSignal = true then
    bus_dispatch_out o t0
  else if o.destination = none ∧ o.messageIsSignal = false then
    bus_dispatch_out o { t0 with notYetHandled := true }
  else if o.transactionNewOk = false then
    bus_dispatch_out o { t0 with errorAtOut := some .noMemory }
  else
    let t1 := { t0 with transactionCreated := true }
    if o.connActive = true ∧ o.setSenderOk = false then
      bus_dispatch_out o { t1 with errorAtOut := some .noMemory }
    else if o.destination = some DBUS_SERVICE_ORG_FREEDESKTOP_DBUS then
      if o.policyOkForDriver = false then
        bus_dispatch_out o { t1 with errorAtOut := some .accessDenied }
      else
        match o.driverResult with
        | some e => bus_dispatch_out o { t1 with errorAtOut := some e }
        | none => bus_dispatch_run_matches o t1
    else if o.connActive = false then
      bus_dispatch_out o { t1 with disconnectedClient := true }
    else
      match o.destination with
      | some name =>
        match o.registryOwner name with
        | none =>
          bus_dispatch_out o
            { t1 with errorAtOut := some (.serviceDoesNotExist name) }
        | some owner =>
          if o.policyOkForAddressed = false then
            bus_dispatch_out o { t1 with errorAtOut := some .accessDenied }
          else if o.sendOkForAddressed = false then
            bus_dispatch_out o { t1 with errorAtOut := some .noMemory }
          else
            bus_dispatch_run_matches o { t1 with plannedSends := [owner] }
      | none => bus_dispatch_run_matches o t1

/-! ### Dispatcher theorems -/

/-- Every branch of `bus_dispatch` reaches `out:` with a trace whose
error-handling fields are still clear. -/
theorem bus_dispatch_eq_out (o : DispatchOracle) :
    ∃ t : DispatchTrace, bus_dispatch o = bus_dispatch_out o t ∧
      t.preallocated = true ∧ t.transactionCancelled = false ∧
      t.transactionCommitted = false ∧ t.sentOomError = false ∧
      t.sentErrorReply = none := by
  simp only [bus_dispatch, bus_dispatch_run_matches]
  repeat' split
  all_goals
    exact ⟨_, rfl, prealloc_oom_error_loop_true _, rfl, rfl, rfl, rfl⟩

/-- The `out:` handler does not change the error, the plan, the preallocation
flag, or whether a transaction was created. -/
theorem bus_dispatch_out_preserved (o : DispatchOracle) (t : DispatchTrace) :
    (bus_dispatch_out o t).errorAtOut = t.errorAtOut ∧
    (bus_dispatch_out o t).plannedSends = t.plannedSends ∧
    (bus_dispatch_out o t).preallocated = t.preallocated ∧
    (bus_dispatch_out o t).transactionCreated = t.transactionCreated := by
  unfold bus_dispatch_out
  repeat' split
  all_goals exact ⟨rfl, rfl, rfl, rfl⟩

/-- `out:` with the out-of-memory error and a still-connected sender: send the
preallocated OOM reply, cancel any open transaction, commit nothing. -/
theorem bus_dispatch_out_oom (o : DispatchOracle) (t : DispatchTrace)
    (ht : t.errorAtOut = some BusError.noMemory) (hc : o.connectedAtOut = true) :
    bus_dispatch_out o t =
      { t with
        sentOomError := true
        transactionCancelled := t.transactionCreated
        transactionCommitted := false } := by
  unfold bus_dispatch_out
  rw [ht, hc]
  simp

/-- `out:` with a non-OOM error, a connected sender, and a successful
`bus_transaction_send_error_reply`: the error goes out as a regular reply and
the transaction commits. -/
theorem bus_dispatch_out_error_reply (o : DispatchOracle) (t : DispatchTrace)
    (e : BusError) (ht : t.errorAtOut = some e) (hne : e ≠ BusError.noMemory)
    (hc : o.connectedAtOut = true) (hr : o.sendErrorReplyOk = true) :
    bus_dispatch_out o t =
      { t with
        sentErrorReply := some e
        transactionCommitted := t.transactionCreated && !t.transactionCancelled } := by
  unfold bus_dispatch_out
  rw [ht, hc, hr]
  simp [hne]

/-- C2: a dispatch that fails with the out-of-memory error while the sender is
still connected sends the sender its preallocated NoMemory reply, cancels any
open transaction and commits nothing; the preallocated error always exists
because `bus_dispatch` loops on preallocation before doing any other work. -/
theorem bus_dispatch_oom_handling (o : DispatchOracle)
    (herr : (bus_dispatch o).errorAtOut = some BusError.noMemory)
    (hconn : o.connectedAtOut = true) :
    (bus_dispatch o).sentOomError = true ∧
    (bus_dispatch o).transactionCommitted = false ∧
    ((bus_dispatch o).transactionCreated = true →
      (bus_dispatch o).transactionCancelled = true) ∧
    (bus_dispatch o).preallocated = true := by
  obtain ⟨t, heq, hpre, hcan, hcom, hoomf, herrf⟩ := bus_dispatch_eq_out o
  rw [heq] at herr ⊢
  have herr' : t.errorAtOut = some BusError.noMemory := by
    rw [← (bus_dispatch_out_preserved o t).1, herr]
  rw [bus_dispatch_out_oom o t herr' hconn]
  exact ⟨rfl, rfl, fun h => h, hpre⟩

/-- A concrete dispatch where the security policy denies delivery to the
addressed recipient of a method call. -/
def policyDenyOracle : DispatchOracle :=
  { destination := some "com.example.Service", isDisconnectedSignal := false,
    messageIsSignal := false, connActive := true, preallocFailures := 0,
    transactionNewOk := true, setSenderOk := true, policyOkForDriver := true,
    driverResult := none,
    registryOwner := fun n => if n = "com.example.Service" then some 7 else none,
    policyOkForAddressed := false, sendOkForAddressed := true,
    matchRecipients := some [], policyOkForMatch := fun _ => true,
    sendOkForMatch := fun _ => true, connectedAtOut := true,
    sendErrorReplyOk := true }

/-- Counterexample to C3 as stated: when the policy denies delivery to an
addressed recipient, the denial is not a silent drop — `bus_dispatch` sets the
policy error and the still-connected sender receives an error reply. -/
theorem policy_denial_counterexample :
    (bus_dispatch policyDenyOracle).sentErrorReply = some BusError.accessDenied ∧
    (bus_dispatch policyDenyOracle).sentErrorReply ≠ none := by
  have h1 : (bus_dispatch policyDenyOracle).sentErrorReply =
      some BusError.accessDenied := rfl
  refine ⟨h1, ?_⟩
  rw [h1]
  simp

/-- C3 (amended): a policy denial for a match-rule recipient is a silent drop
— the denied recipient is never queued and the denial itself produces no
error, so no reply reaches the sender — but a policy denial for the addressed
recipient of a routed message sets an error that is sent back to the
still-connected sender as an error reply. -/
theorem policy_denial_semantics (o : DispatchOracle) (name : String) (owner : Nat)
    (rs : List Nat)
    (hdest : o.destination = some name)
    (hdrv : name ≠ DBUS_SERVICE_ORG_FREEDESKTOP_DBUS)
    (hact : o.connActive = true) (htn : o.transactionNewOk = true)
    (hss : o.setSenderOk = true) (hreg : o.registryOwner name = some owner)
    (hpol : o.policyOkForAddressed = false)
    (hconn : o.connectedAtOut = true) (hrep : o.sendErrorReplyOk = true) :
    (∀ d ∈ (bus_dispatch_matches_aux o rs).2, o.policyOkForMatch d = true) ∧
    ((∀ d ∈ rs, o.policyOkForMatch d = true → o.sendOkForMatch d = true) →
      (bus_dispatch_matches_aux o rs).1 = none) ∧
    (bus_dispatch o).sentErrorReply = some BusError.accessDenied := by
  have haux : ∀ l : List Nat,
      (∀ d ∈ (bus_dispatch_matches_aux o l).2, o.policyOkForMatch d = true) ∧
      ((∀ d ∈ l, o.policyOkForMatch d = true → o.sendOkForMatch d = true) →
        (bus_dispatch_matches_aux o l).1 = none) := by
    intro l
    induction l with
    | nil => exact ⟨by simp [bus_dispatch_matches_aux], fun _ => rfl⟩
    | cons d rest ih =>
      by_cases hp : o.policyOkForMatch d = true
      · by_cases hs : o.sendOkForMatch d = true
        · have hstep : bus_dispatch_matches_aux o (d :: rest) =
              ((bus_dispatch_matches_aux o rest).1,
                d :: (bus_dispatch_matches_aux o rest).2) := by
            simp only [bus_dispatch_matches_aux, send_one_message]
            simp [hp, hs]
          rw [hstep]
          refine ⟨?_, fun hall => ih.2
            (fun x hx h => hall x (List.mem_cons_of_mem _ hx) h)⟩
          intro x hx
          rcases List.mem_cons.mp hx with rfl | hx'
          · exact hp
          · exact ih.1 x hx'
        · have hstep : bus_dispatch_matches_aux o (d :: rest) =
              (some BusError.noMemory, []) := by
            simp only [bus_dispatch_matches_aux, send_one_message]
            simp [hp, hs]
          rw [hstep]
          refine ⟨by simp, fun hall => absurd (hall d (by simp) hp) hs⟩
      · have hstep : bus_dispatch_matches_aux o (d :: rest) =
            bus_dispatch_matches_aux o rest := by
          simp only [bus_dispatch_matches_aux, send_one_message]
          simp [hp]
        rw [hstep]
        exact ⟨ih.1, fun hall => ih.2
          (fun x hx h => hall x (List.mem_cons_of_mem _ hx) h)⟩
  refine ⟨(haux rs).1, (haux rs).2, ?_⟩
  have hstep : bus_dispatch o = bus_dispatch_out o
      { notYetHandled := false,
        preallocated := prealloc_oom_error_loop o.preallocFailures,
        errorAtOut := some BusError.accessDenied, transactionCreated := true,
        transactionCancelled := false, transactionCommitted := false,
        sentOomError := false, sentErrorReply := none,
        disconnectedClient := false, plannedSends := [] } := by
    unfold bus_dispatch
    simp [hdest, htn, hact, hss, hreg, hpol, hdrv]
  rw [hstep, bus_dispatch_out_error_reply o _ BusError.accessDenied rfl
    (by simp) hconn hrep]

/-- Witness for C3 (amended) at the concrete denial scenario, with one
match-rule recipient. -/
theorem policy_denial_semantics_witness :
    ((∀ d ∈ (bus_dispatch_matches_aux policyDenyOracle [5]).2,
        policyDenyOracle.policyOkForMatch d = true) ∧
      ((∀ d ∈ [5], policyDenyOracle.policyOkForMatch d = true →
          policyDenyOracle.sendOkForMatch d = true) →
        (bus_dispatch_matches_aux policyDenyOracle [5]).1 = none) ∧
      (bus_dispatch policyDenyOracle).sentErrorReply = some BusError.accessDenied) :=
  policy_denial_semantics policyDenyOracle "com.example.Service" 7 [5] rfl
    (by decide) rfl rfl rfl (by decide) rfl rfl rfl

/-- C6: a message addressed to a name that is neither the driver nor present
in the registry sets the ServiceDoesNotExist error; no copy of the message is
planned or delivered to any recipient, and the still-connected sender (memory
permitting) receives the error reply instead. -/
theorem bus_dispatch_no_such_service (o : DispatchOracle) (name : String)
    (hdest : o.destination = some name)
    (hdrv : name ≠ DBUS_SERVICE_ORG_FREEDESKTOP_DBUS)
    (hact : o.connActive = true) (htn : o.transactionNewOk = true)
    (hss : o.setSenderOk = true) (hreg : o.registryOwner name = none) :
    (bus_dispatch o).errorAtOut = some (BusError.serviceDoesNotExist name) ∧
    (bus_dispatch o).plannedSends = [] ∧
    (bus_dispatch o).deliveredSends = [] ∧
    (o.connectedAtOut = true → o.sendErrorReplyOk = true →
      (bus_dispatch o).sentErrorReply = some (BusError.serviceDoesNotExist name)) := by
  have hstep : bus_dispatch o = bus_dispatch_out o
      { notYetHandled := false,
        preallocated := prealloc_oom_error_loop o.preallocFailures,
        errorAtOut := some (BusError.serviceDoesNotExist name),
        transactionCreated := true, transactionCancelled := false,
        transactionCommitted := false, sentOomError := false,
        sentErrorReply := none, disconnectedClient := false, plannedSends := [] } := by
    unfold bus_dispatch
    simp [hdest, htn, hact, hss, hreg, hdrv]
  rw [hstep]
  refine ⟨?_, ?_, ?_, ?_⟩
  · rw [(bus_dispatch_out_preserved o _).1]
  · rw [(bus_dispatch_out_preserved o _).2.1]
  · unfold DispatchTrace.deliveredSends
    rw [(bus_dispatch_out_preserved o _).2.1]
    exact ite_self []
  · intro hc hr
    rw [bus_dispatch_out_error_reply o _ (BusError.serviceDoesNotExist name) rfl
      (by simp) hc hr]

/-- A concrete dispatch to a destination missing from the name registry. -/
def nonexistentServiceOracle : DispatchOracle :=
  { destination := some "test.nonexistent.xyz", isDisconnectedSignal := false,
    messageIsSignal := false, connActive := true, preallocFailures := 0,
    transactionNewOk := true, setSenderOk := true, policyOkForDriver := true,
    driverResult := none, registryOwner := fun _ => none,
    policyOkForAddressed := true, sendOkForAddressed := true,
    matchRecipients := some [], policyOkForMatch := fun _ => true,
    sendOkForMatch := fun _ => true, connectedAtOut := true,
    sendErrorReplyOk := true }

/-- Witness for C6 at the spec's `test.nonexistent.xyz` scenario. -/
theorem bus_dispatch_no_such_service_witness :
    (bus_dispatch nonexistentServiceOracle).errorAtOut =
      some (BusError.serviceDoesNotExist "test.nonexistent.xyz") ∧
    (bus_dispatch nonexistentServiceOracle).plannedSends = [] ∧
    (bus_dispatch nonexistentServiceOracle).deliveredSends = [] ∧
    (nonexistentServiceOracle.connectedAtOut = true →
      nonexistentServiceOracle.sendErrorReplyOk = true →
      (bus_dispatch nonexistentServiceOracle).sentErrorReply =
        some (BusError.serviceDoesNotExist "test.nonexistent.xyz")) :=
  bus_dispatch_no_such_service nonexistentServiceOracle "test.nonexistent.xyz" rfl
    (by decide) rfl rfl rfl rfl

/-- A concrete dispatch that hits out-of-memory on the addressed send. -/
def oomOnSendOracle : DispatchOracle :=
  { destination := some "com.example.Service", isDisconnectedSignal := false,
    messageIsSignal := false, connActive := true, preallocFailures := 2,
    transactionNewOk := true, setSenderOk := true, policyOkForDriver := true,
    driverResult := none,
    registryOwner := fun n => if n = "com.example.Service" then some 7 else none,
    policyOkForAddressed := true, sendOkForAddressed := false,
    matchRecipients := some [], policyOkForMatch := fun _ => true,
    sendOkForMatch := fun _ => true, connectedAtOut := true,
    sendErrorReplyOk := true }

/-- Witness for C2: the addressed send fails with OOM; the preallocated reply
goes out and the transaction is cancelled, not committed. -/
theorem bus_dispatch_oom_handling_witness :
    ((bus_dispatch oomOnSendOracle).errorAtOut = some BusError.noMemory ∧
      oomOnSendOracle.connectedAtOut = true) ∧
    ((bus_dispatch oomOnSendOracle).sentOomError = true ∧
      (bus_dispatch oomOnSendOracle).transactionCommitted = false ∧
      ((bus_dispatch oomOnSendOracle).transactionCreated = true →
        (bus_dispatch oomOnSendOracle).transactionCancelled = true) ∧
      (bus_dispatch oomOnSendOracle).preallocated = true) :=
  ⟨⟨rfl, rfl⟩, bus_dispatch_oom_handling oomOnSendOracle rfl rfl⟩

/-! ### The recursive type reader (dbus-marshal-recursive.c)

Readers never mutate the byte strings, so each reader holds its type and value
strings by value (the variant reader's `type_str = value_str` pointer aliasing
becomes storing the value string in `type_str`). -/

def first_type_in_signature (str : DStr) (pos : Nat) : Nat :=
  let t := _dbus_string_get_byte str pos
  if t = DBUS_STRUCT_BEGIN_CHAR then DBUS_TYPE_STRUCT else t

/-- `_dbus_type_is_valid`. -/
def _dbus_type_is_valid (t : Nat) : Bool :=
  t == DBUS_TYPE_BYTE || t == DBUS_TYPE_BOOLEAN || t == DBUS_TYPE_INT32 ||
  t == DBUS_TYPE_UINT32 || t == DBUS_TYPE_INT64 || t == DBUS_TYPE_UINT64 ||
  t == DBUS_TYPE_DOUBLE || t == DBUS_TYPE_STRING || t == DBUS_TYPE_OBJECT_PATH ||
  t == DBUS_TYPE_SIGNATURE || t == DBUS_TYPE_ARRAY || t == DBUS_TYPE_STRUCT ||
  t == DBUS_TYPE_VARIANT

/-- `_dbus_type_get_alignment`: 1, 4 or 8; an unknown typecode is an assertion
failure in the source (which then returns 0). -/
def _dbus_type_get_alignment (typecode : Nat) : Nat :=
  if typecode = DBUS_TYPE_BYTE ∨ typecode = DBUS_TYPE_BOOLEAN ∨
      typecode = DBUS_TYPE_VARIANT ∨ typecode = DBUS_TYPE_SIGNATURE then 1
  else if typecode = DBUS_TYPE_INT32 ∨ typecode = DBUS_TYPE_UINT32 ∨
      typecode = DBUS_TYPE_STRING ∨ typecode = DBUS_TYPE_OBJECT_PATH ∨
      typecode = DBUS_TYPE_ARRAY then 4
  else if typecode = DBUS_TYPE_INT64 ∨ typecode = DBUS_TYPE_UINT64 ∨
      typecode = DBUS_TYPE_DOUBLE ∨ typecode = DBUS_TYPE_STRUCT then 8
  else 0

def element_type_get_alignment (str : DStr) (pos : Nat) : Nat :=
  _dbus_type_get_alignment (first_type_in_signature str pos)

/-- The reader classes (the `DBusTypeReaderClass` table). -/
inductive ReaderClass where
  | body
  | bodyTypesOnly
  | struct
  | structTypesOnly
  | array
  | arrayTypesOnly
  | variant
deriving DecidableEq, Repr

def ReaderClass.types_only : ReaderClass → Bool
  | .bodyTypesOnly => true
  | .structTypesOnly => true
  | .arrayTypesOnly => true
  | _ => false

structure DBusTypeReader where
  byte_order : Nat
  finished : Bool
  type_str : DStr
  type_pos : Nat
  value_str : DStr
  value_pos : Nat
  klass : ReaderClass
  array_start_pos : Nat
  array_len_offset : Nat
deriving DecidableEq, Repr

/-- `reader_init` / `base_reader_recurse`: point the sub-reader at the same
place as the parent (the array fields start out unset; 0 here). -/
def base_reader_recurse (klass : ReaderClass) (parent : DBusTypeReader) :
    DBusTypeReader :=
  { byte_order := parent.byte_order, finished := false,
    type_str := parent.type_str, type_pos := parent.type_pos,
    value_str := parent.value_str, value_pos := parent.value_pos,
    klass := klass, array_start_pos := 0, array_len_offset := 0 }

def struct_types_only_reader_recurse (klass : ReaderClass) (parent : DBusTypeReader) :
    DBusTypeReader :=
  let sub := base_reader_recurse klass parent
  { sub with type_pos := sub.type_pos + 1 }

def struct_reader_recurse (klass : ReaderClass) (parent : DBusTypeReader) :
    DBusTypeReader :=
  let sub := struct_types_only_reader_recurse klass parent
  { sub with value_pos := _DBUS_ALIGN_VALUE sub.value_pos 8 }

/-- Values "likely to crash things if misused" in the source. -/
def array_types_only_reader_recurse (klass : ReaderClass) (parent : DBusTypeReader) :
    DBusTypeReader :=
  let sub := base_reader_recurse klass parent
  { sub with
    type_pos := sub.type_pos + 1
    array_start_pos := 2147483647
    array_len_offset := 7 }

/-- `array_reader_recurse`: align to 4 for the length word, skip it, align to
the element type's alignment; record the element region's start and the
offset back from it to the end of the length word. -/
def array_reader_recurse (klass : ReaderClass) (parent : DBusTypeReader) :
    DBusTypeReader :=
  let sub := array_types_only_reader_recurse klass parent
  let len_pos := _DBUS_ALIGN_VALUE sub.value_pos 4
  let vp2 := len_pos + 4
  let alignment := element_type_get_alignment sub.type_str sub.type_pos
  let vp3 := _DBUS_ALIGN_VALUE vp2 alignment
  { sub with
    value_pos := vp3
    array_start_pos := vp3
    array_len_offset := vp3 - (len_pos + 4) }

/-- `variant_reader_recurse`: the type region moves inside the value region
(1-byte signature length, the signature, a nul, padding to 8). -/
def variant_reader_recurse (klass : ReaderClass) (parent : DBusTypeReader) :
    DBusTypeReader :=
  let sub := base_reader_recurse klass parent
  let sig_len := _dbus_string_get_byte sub.value_str sub.value_pos
  let type_pos := sub.value_pos + 1
  { sub with
    type_str := sub.value_str
    type_pos := type_pos
    value_pos := _DBUS_ALIGN_VALUE (type_pos + sig_len + 1) 8 }

/-- `array_reader_get_array_len`: recover the length-word position from
`start_pos` and the 3-bit `len_offset` and demarshal the 4-byte length. -/
def array_reader_get_array_len (reader : DBusTypeReader) : Nat :=
  let len_pos := reader.array_start_pos - reader.array_len_offset - 4
  ((_dbus_demarshal_basic_type reader.value_str DBUS_TYPE_UINT32 reader.byte_order
    len_pos).1).getU32

def array_reader_check_finished (reader : DBusTypeReader) : Bool :=
  reader.value_pos = reader.array_start_pos + array_reader_get_array_len reader

def _dbus_type_reader_get_current_type (reader : DBusTypeReader) : Nat :=
  if reader.finished = true ∨
      (reader.klass = ReaderClass.array ∧ array_reader_check_finished reader = true) then
    DBUS_TYPE_INVALID
  else first_type_in_signature reader.type_str reader.type_pos

def _dbus_type_reader_read_basic (reader : DBusTypeReader) : DBusBasicValue :=
  (_dbus_demarshal_basic_type reader.value_str
    (_dbus_type_reader_get_current_type reader) reader.byte_order reader.value_pos).1

/-- `_dbus_type_reader_init`: a toplevel body reader. -/
def _dbus_type_reader_init (byte_order : Nat) (type_str : DStr) (type_pos : Nat)
    (value_str : DStr) (value_pos : Nat) : DBusTypeReader :=
  { byte_order := byte_order, finished := false, type_str := type_str,
    type_pos := type_pos, value_str := value_str, value_pos := value_pos,
    klass := ReaderClass.body, array_start_pos := 0, array_len_offset := 0 }

/-- `_dbus_type_reader_recurse`: dispatch on the current type; recursing into
anything else (or into a variant typecode while types-only) is an assertion
failure. -/
def _dbus_type_reader_recurse (reader : DBusTypeReader) : Option DBusTypeReader :=
  let t := first_type_in_signature reader.type_str reader.type_pos
  if t = DBUS_TYPE_STRUCT then
    some (if reader.klass.types_only then
        struct_types_only_reader_recurse ReaderClass.structTypesOnly reader
      else struct_reader_recurse ReaderClass.struct reader)
  else if t = DBUS_TYPE_ARRAY then
    some (if reader.klass.types_only then
        array_types_only_reader_recurse ReaderClass.arrayTypesOnly reader
      else array_reader_recurse ReaderClass.array reader)
  else if t = DBUS_TYPE_VARIANT then
    if reader.klass.types_only then none
    else some (variant_reader_recurse ReaderClass.variant reader)
  else none

/-- The leading-`a` loop of `skip_one_complete_type`. -/
def skip_array_prefix (type_str : DStr) : Nat → Nat → Nat
  | 0, pos => pos
  | fuel + 1, pos =>
    if _dbus_string_get_byte type_str pos = DBUS_TYPE_ARRAY then
      skip_array_prefix type_str fuel (pos + 1)
    else pos

/-- The paren-depth loop of `skip_one_complete_type`; `none` is the
"unbalanced parens in signature" assertion (or running off the string). -/
def skip_struct_scan (type_str : DStr) : Nat → Nat → Nat → Option Nat
  | 0, _, _ => none
  | fuel + 1, pos, depth =>
    if depth = 0 then some pos
    else
      let b := _dbus_string_get_byte type_str pos
      if b = DBUS_TYPE_INVALID then none
      else
        skip_struct_scan type_str fuel (pos + 1)
          (if b = DBUS_STRUCT_BEGIN_CHAR then depth + 1
           else if b = DBUS_STRUCT_END_CHAR then depth - 1 else depth)

def skip_one_complete_type (type_str : DStr) (type_pos : Nat) : Option Nat :=
  let pos := skip_array_prefix type_str (type_str.length + 1) type_pos
  if _dbus_string_get_byte type_str pos = DBUS_STRUCT_BEGIN_CHAR then
    skip_struct_scan type_str (type_str.length + 2) (pos + 1) 1
  else some (pos + 1)

def find_len_of_complete_type (type_str : DStr) (type_pos : Nat) : Option Nat :=
  (skip_one_complete_type type_str type_pos).map (fun e => e - type_pos)

/-- `_dbus_type_reader_get_signature`: the string, start and length of the
current value's complete type. -/
def _dbus_type_reader_get_signature (reader : DBusTypeReader) :
    Option (DStr × Nat × Nat) :=
  (find_len_of_complete_type reader.type_str reader.type_pos).map
    (fun len => (reader.type_str, reader.type_pos, len))

/-- `_dbus_marshal_skip_basic_type` (dbus-marshal-basic.c). -/
def _dbus_marshal_skip_basic_type (str : DStr) (type byte_order pos : Nat) : Nat :=
  if type = DBUS_TYPE_BYTE ∨ type = DBUS_TYPE_BOOLEAN then pos + 1
  else if type = DBUS_TYPE_INT32 ∨ type = DBUS_TYPE_UINT32 then
    _DBUS_ALIGN_VALUE pos 4 + 4
  else if type = DBUS_TYPE_INT64 ∨ type = DBUS_TYPE_UINT64 ∨
      type = DBUS_TYPE_DOUBLE then
    _DBUS_ALIGN_VALUE pos 8 + 8
  else if type = DBUS_TYPE_STRING ∨ type = DBUS_TYPE_OBJECT_PATH then
    let r := _dbus_demarshal_uint32 str byte_order pos
    r.2 + r.1 + 1
  else if type = DBUS_TYPE_SIGNATURE then
    pos + _dbus_string_get_byte str pos + 2
  else pos

/-- `_dbus_marshal_skip_array` (dbus-marshal-basic.c). -/
def _dbus_marshal_skip_array (str : DStr) (byte_order element_type pos : Nat) : Nat :=
  let i := _DBUS_ALIGN_VALUE pos 4
  let r := _dbus_demarshal_uint32 str byte_order i
  let alignment := _dbus_type_get_alignment element_type
  _DBUS_ALIGN_VALUE r.2 alignment + r.1

theorem alignment_of_valid (t : Nat) (h : _dbus_type_is_valid t = true) :
    _dbus_type_get_alignment t = 1 ∨ _dbus_type_get_alignment t = 4 ∨
    _dbus_type_get_alignment t = 8 := by
  simp only [_dbus_type_is_valid, Bool.or_eq_true, beq_iff_eq] at h
  rcases h with ((((((((((((rfl | rfl) | rfl) | rfl) | rfl) | rfl) | rfl) | rfl) |
    rfl) | rfl) | rfl) | rfl) | rfl) <;> decide

theorem align_sub_bound (x b : Nat) (hb : b = 1 ∨ b = 4 ∨ b = 8) :
    _DBUS_ALIGN_VALUE x b - x ≤ 7 ∧
    x + (_DBUS_ALIGN_VALUE x b - x) = _DBUS_ALIGN_VALUE x b := by
  have h1 := le_align_value x b hb
  have h2 := align_value_lt x b hb
  omega

/-- C9: recursing a reader into an array at any starting cursor stores a
`len_offset` (element-region start minus the end of the 4-byte length word) in
[0,7]: it fits the 3-bit field, and the equalities the asserts in
`array_reader_recurse` and `array_reader_get_array_len` check hold. -/
theorem array_reader_recurse_len_offset_spec (klass : ReaderClass)
    (parent : DBusTypeReader)
    (hvalid : _dbus_type_is_valid
      (first_type_in_signature parent.type_str (parent.type_pos + 1)) = true) :
    (array_reader_recurse klass parent).array_len_offset ≤ 7 ∧
    _DBUS_ALIGN_VALUE parent.value_pos 4 + 4 +
        (array_reader_recurse klass parent).array_len_offset =
      (array_reader_recurse klass parent).array_start_pos := by
  have halign := alignment_of_valid _ hvalid
  unfold array_reader_recurse array_types_only_reader_recurse base_reader_recurse
    element_type_get_alignment
  simp only
  rcases halign with h | h | h <;> rw [h] <;>
    exact align_sub_bound (_DBUS_ALIGN_VALUE parent.value_pos 4 + 4) _ (by omega)

/-- Witness for C9: recursing into `ai` at value cursor 1. -/
theorem array_reader_recurse_len_offset_spec_witness :
    _dbus_type_is_valid
      (first_type_in_signature [97, 105, 0] (0 + 1)) = true ∧
    ((array_reader_recurse ReaderClass.array
        (_dbus_type_reader_init DBUS_LITTLE_ENDIAN [97, 105, 0] 0 [9, 9, 9, 9, 9, 9, 9, 9, 9] 1)).array_len_offset ≤ 7 ∧
      _DBUS_ALIGN_VALUE 1 4 + 4 +
          (array_reader_recurse ReaderClass.array
            (_dbus_type_reader_init DBUS_LITTLE_ENDIAN [97, 105, 0] 0 [9, 9, 9, 9, 9, 9, 9, 9, 9] 1)).array_len_offset =
        (array_reader_recurse ReaderClass.array
          (_dbus_type_reader_init DBUS_LITTLE_ENDIAN [97, 105, 0] 0 [9, 9, 9, 9, 9, 9, 9, 9, 9] 1)).array_start_pos) :=
  ⟨by decide,
    array_reader_recurse_len_offset_spec ReaderClass.array
      (_dbus_type_reader_init DBUS_LITTLE_ENDIAN [97, 105, 0] 0 [9, 9, 9, 9, 9, 9, 9, 9, 9] 1)
      (by decide)⟩

/-! ### The recursive type writer (dbus-marshal-recursive.c)

The writer mutates the shared type and value strings, held in a
`MarshalStrings` store; `type_str_is_value_str` models the `type_str` pointer
choice (a variant sub-writer points its type string into the value string).
Out-of-memory is a nondeterministic oracle consulted at each fallible
allocation point; a fallible primitive that fails leaves the strings unchanged
(each one restores its partial insertions, per its `oom` label).  An operation
the source wraps in `_dbus_assert_not_reached` on failure aborts instead. -/

structure MarshalStrings where
  types : DStr
  values : DStr
deriving DecidableEq, Repr

structure AllocOracle where
  outcomes : List Bool
deriving DecidableEq, Repr

/-- The next allocation outcome (an exhausted oracle keeps succeeding). -/
def AllocOracle.next (a : AllocOracle) : Bool × AllocOracle :=
  match a.outcomes with
  | [] => (true, a)
  | b :: rest => (b, ⟨rest⟩)

structure DBusTypeWriter where
  byte_order : Nat
  type_pos : Nat
  value_pos : Nat
  container_type : Nat
  type_pos_is_expectation : Bool
  type_str_is_value_str : Bool
  u_array_len_pos : Nat
  u_array_start_pos : Nat
  u_array_element_type_pos : Nat
deriving DecidableEq, Repr

/-- The string the writer's `type_str` pointer addresses. -/
def typeStrOf (st : MarshalStrings) (w : DBusTypeWriter) : DStr :=
  if w.type_str_is_value_str then st.values else st.types

/-- Store an updated type string back through the writer's pointer. -/
def setTypeStr (st : MarshalStrings) (w : DBusTypeWriter) (s : DStr) : MarshalStrings :=
  if w.type_str_is_value_str then { st with values := s } else { st with types := s }

/-- Result of a writer operation: success, `return FALSE` (with the strings as
the operation left them — unchanged, since each failing primitive restores its
partial work), or an assertion failure. -/
inductive WR (α : Type) where
  | ok (st : MarshalStrings) (a : α) (o : AllocOracle)
  | fail (st : MarshalStrings) (o : AllocOracle)
  | abort
deriving Repr

/-- `_dbus_type_writer_init`. -/
def _dbus_type_writer_init (byte_order type_pos value_pos : Nat) : DBusTypeWriter :=
  { byte_order := byte_order, type_pos := type_pos, value_pos := value_pos,
    container_type := DBUS_TYPE_INVALID, type_pos_is_expectation := false,
    type_str_is_value_str := false, u_array_len_pos := 0, u_array_start_pos := 0,
    u_array_element_type_pos := 0 }

/-- `_dbus_type_writer_write_basic_no_typecode`: `_dbus_marshal_basic_type`
into the value string at `value_pos` (fallible; failure restores). -/
def _dbus_type_writer_write_basic_no_typecode (st : MarshalStrings) (o : AllocOracle)
    (w : DBusTypeWriter) (type : Nat) (value : DBusBasicValue) : WR DBusTypeWriter :=
  let n := o.next
  if n.1 then
    let r := _dbus_marshal_basic_type st.values w.value_pos type value w.byte_order
    WR.ok { st with values := r.1 } { w with value_pos := r.2 } n.2
  else WR.fail st n.2

/-- `write_or_verify_typecode`: inside an array or variant the expected
typecode is verified (a mismatch is an assertion failure) and `type_pos`
advances unless immediately inside an array; otherwise the typecode is
inserted (fallibly) at `type_pos`. -/
def write_or_verify_typecode (st : MarshalStrings) (o : AllocOracle)
    (w : DBusTypeWriter) (typecode : Nat) : WR DBusTypeWriter :=
  if w.type_pos_is_expectation then
    if _dbus_string_get_byte (typeStrOf st w) w.type_pos ≠ typecode then WR.abort
    else if w.container_type ≠ DBUS_TYPE_ARRAY then
      WR.ok st { w with type_pos := w.type_pos + 1 } o
    else WR.ok st w o
  else
    let n := o.next
    if n.1 then
      WR.ok (setTypeStr st w
          (_dbus_string_insert_byte (typeStrOf st w) w.type_pos typecode))
        { w with type_pos := w.type_pos + 1 } n.2
    else WR.fail st n.2

/-- `writer_recurse_init_and_check`: initialize the sub-writer (an array or
variant sub-writer, or any sub-writer of an expectation writer, has
`type_pos_is_expectation`); under an expectation parent the expected container
typecode is checked (mismatch is an assertion failure). -/
def writer_recurse_init_and_check (st : MarshalStrings) (writer : DBusTypeWriter)
    (container_type : Nat) : Option DBusTypeWriter :=
  let sub : DBusTypeWriter :=
    { byte_order := writer.byte_order, type_pos := writer.type_pos,
      value_pos := writer.value_pos, container_type := container_type,
      type_pos_is_expectation :=
        (writer.type_pos_is_expectation || container_type == DBUS_TYPE_ARRAY ||
          container_type == DBUS_TYPE_VARIANT),
      type_str_is_value_str := writer.type_str_is_value_str,
      u_array_len_pos := 0, u_array_start_pos := 0, u_array_element_type_pos := 0 }
  if writer.type_pos_is_expectation = true ∧
      first_type_in_signature (typeStrOf st writer) writer.type_pos ≠ container_type
  then none
  else some sub

/-- `writer_recurse_struct`: reserve space, write or verify `(`, pad the value
string to 8.  The parent writer is unchanged. -/
def writer_recurse_struct (st : MarshalStrings) (o : AllocOracle)
    (writer sub : DBusTypeWriter) : WR (DBusTypeWriter × DBusTypeWriter) :=
  let n1 := o.next
  if ¬n1.1 then WR.fail st n1.2
  else
    let n2 := n1.2.next
    if ¬n2.1 then WR.fail st n2.2
    else
      match write_or_verify_typecode st n2.2 sub DBUS_STRUCT_BEGIN_CHAR with
      | WR.abort => WR.abort
      | WR.fail _ _ => WR.abort
      | WR.ok st1 sub1 o3 =>
        let aligned := _DBUS_ALIGN_VALUE sub1.value_pos 8
        let vs := _dbus_string_insert_bytes st1.values sub1.value_pos
          (aligned - sub1.value_pos) 0
        WR.ok { st1 with values := vs } (writer, { sub1 with value_pos := aligned }) o3

/-- `_dbus_string_equal_substring` (dbus-string.c, modelled from the spec):
byte equality of the two ranges. -/
def _dbus_string_equal_substring (a : DStr) (a_start a_len : Nat) (b : DStr)
    (b_start : Nat) : Bool :=
  decide ((a.drop a_start).take a_len = (b.drop b_start).take a_len)

/-- The tail of `writer_recurse_array` after the typecode handling: write the
4-byte length word as zero, then pad to the element type's alignment
*unconditionally* — the padding exists even if the array stays empty. -/
def writer_recurse_array_tail (st : MarshalStrings) (o : AllocOracle)
    (writer1 : DBusTypeWriter) (contained_type : DStr) (contained_start : Nat)
    (sub1 : DBusTypeWriter) : WR (DBusTypeWriter × DBusTypeWriter) :=
  let len_pos := _DBUS_ALIGN_VALUE sub1.value_pos 4
  match _dbus_type_writer_write_basic_no_typecode st o sub1 DBUS_TYPE_UINT32
      (DBusBasicValue.u32 0) with
  | WR.fail _ _ => WR.abort
  | WR.abort => WR.abort
  | WR.ok st1 sub2 o1 =>
    if len_pos + 4 ≠ sub2.value_pos then WR.abort
    else
      let alignment := element_type_get_alignment contained_type contained_start
      let aligned := _DBUS_ALIGN_VALUE sub2.value_pos alignment
      let vs := _dbus_string_insert_bytes st1.values sub2.value_pos
        (aligned - sub2.value_pos) 0
      let st2 := { st1 with values := vs }
      let sub3 := { sub2 with
        value_pos := aligned
        u_array_len_pos := len_pos
        u_array_start_pos := aligned }
      if ¬(sub3.u_array_len_pos < sub3.u_array_start_pos) then WR.abort
      else WR.ok st2 (writer1, sub3) o1

/-- `writer_recurse_array`: verify the element signature against the parent
array's expectation; reserve space; point `type_pos` at the element type;
write the array typecode plus the element signature typecodes only when the
array is not nested inside an array or variant (`type_pos_is_expectation`);
advance the parent past the array type unless the parent is an array. -/
def writer_recurse_array (st : MarshalStrings) (o : AllocOracle)
    (writer : DBusTypeWriter) (contained_type : DStr)
    (contained_start contained_len : Nat) (sub : DBusTypeWriter) :
    WR (DBusTypeWriter × DBusTypeWriter) :=
  if writer.container_type = DBUS_TYPE_ARRAY ∧
      ¬_dbus_string_equal_substring contained_type contained_start contained_len
        (typeStrOf st writer) (writer.u_array_element_type_pos + 1) = true then
    WR.abort
  else
    let n1 := o.next
    if ¬n1.1 then WR.fail st n1.2
    else
      let sub1 : DBusTypeWriter := { sub with
        type_pos := sub.type_pos + 1
        u_array_element_type_pos := sub.type_pos + 1 }
      if writer.type_pos_is_expectation = false then
        let n2 := n1.2.next
        if ¬n2.1 then WR.fail st n2.2
        else if ¬(contained_start + contained_len ≤ contained_type.length) then
          WR.abort
        else
          let ts1 := _dbus_string_insert_byte (typeStrOf st writer) writer.type_pos
            DBUS_TYPE_ARRAY
          let ts2 := stringInsertAt ts1 sub1.u_array_element_type_pos
            ((contained_type.drop contained_start).take contained_len)
          if writer.container_type ≠ DBUS_TYPE_ARRAY then
            writer_recurse_array_tail (setTypeStr st writer ts2) n2.2
              { writer with type_pos := writer.type_pos + 1 + contained_len }
              contained_type contained_start sub1
          else WR.abort
      else
        let writer1 :=
          if writer.container_type ≠ DBUS_TYPE_ARRAY then
            { writer with type_pos := writer.type_pos + 1 + contained_len }
          else writer
        writer_recurse_array_tail st n1.2 writer1 contained_type contained_start
          sub1

/-- `writer_recurse_variant`: reserve space, write or verify the `v` typecode
in the parent, then write the 1-byte signature length, the signature, a nul,
and padding to 8 into the value string; the sub-writer's type string becomes
the value string. -/
def writer_recurse_variant (st : MarshalStrings) (o : AllocOracle)
    (writer : DBusTypeWriter) (contained_type : DStr)
    (contained_start contained_len : Nat) (sub : DBusTypeWriter) :
    WR (DBusTypeWriter × DBusTypeWriter) :=
  let n1 := o.next
  if ¬n1.1 then WR.fail st n1.2
  else
    match write_or_verify_typecode st n1.2 writer DBUS_TYPE_VARIANT with
    | WR.abort => WR.abort
    | WR.fail st2 o2 => WR.fail st2 o2
    | WR.ok st2 writer1 o2 =>
      if ¬(contained_start + contained_len ≤ contained_type.length) then WR.abort
      else
      let vs1 := _dbus_string_insert_byte st2.values sub.value_pos
        (contained_len % 256)
      let p1 := sub.value_pos + 1
      let vs2 := stringInsertAt vs1 p1
        ((contained_type.drop contained_start).take contained_len)
      let p2 := p1 + contained_len
      let vs3 := _dbus_string_insert_byte vs2 p2 DBUS_TYPE_INVALID
      let p3 := p2 + 1
      let vs4 := _dbus_string_insert_bytes vs3 p3 (_DBUS_ALIGN_VALUE p3 8 - p3) 0
      WR.ok { st2 with values := vs4 }
        (writer1, { sub with
          type_str_is_value_str := true
          type_pos := p1
          value_pos := _DBUS_ALIGN_VALUE p3 8 }) o2

/-- `_dbus_type_writer_recurse_contained_len`: init-and-check then dispatch on
the container type.  Returns the updated parent and the new sub-writer. -/
def _dbus_type_writer_recurse_contained_len (st : MarshalStrings) (o : AllocOracle)
    (writer : DBusTypeWriter) (container_type : Nat) (contained_type : DStr)
    (contained_start contained_len : Nat) : WR (DBusTypeWriter × DBusTypeWriter) :=
  match writer_recurse_init_and_check st writer container_type with
  | none => WR.abort
  | some sub =>
    if container_type = DBUS_TYPE_STRUCT then
      writer_recurse_struct st o writer sub
    else if container_type = DBUS_TYPE_ARRAY then
      writer_recurse_array st o writer contained_type contained_start contained_len sub
    else if container_type = DBUS_TYPE_VARIANT then
      writer_recurse_variant st o writer contained_type contained_start contained_len
        sub
    else WR.abort

/-- `_dbus_marshal_set_uint32` (set_4_octets): overwrite 4 bytes in place. -/
def _dbus_marshal_set_uint32 (s : DStr) (byte_order pos value : Nat) : DStr :=
  s.take pos ++ packOctets 4 byte_order value ++ s.drop (pos + 4)

/-- `_dbus_type_writer_unrecurse`: close a struct (write or verify `)`),
back-patch an array's length word with `value_pos - start_pos`, and propagate
the sub-writer's positions into the parent. -/
def _dbus_type_writer_unrecurse (st : MarshalStrings) (o : AllocOracle)
    (writer sub : DBusTypeWriter) : WR DBusTypeWriter :=
  if writer.type_pos_is_expectation = true ∧ sub.type_pos_is_expectation = false then
    WR.abort
  else
    let step1 : WR DBusTypeWriter :=
      if sub.container_type = DBUS_TYPE_STRUCT then
        write_or_verify_typecode st o sub DBUS_STRUCT_END_CHAR
      else if sub.container_type = DBUS_TYPE_ARRAY then
        let vs := _dbus_marshal_set_uint32 st.values sub.byte_order
          sub.u_array_len_pos (sub.value_pos - sub.u_array_start_pos)
        WR.ok { st with values := vs } sub o
      else WR.ok st sub o
    match step1 with
    | WR.fail st1 o1 => WR.fail st1 o1
    | WR.abort => WR.abort
    | WR.ok st1 sub1 o1 =>
      let writer1 :=
        if sub1.container_type = DBUS_TYPE_STRUCT ∧
            (writer.container_type = DBUS_TYPE_STRUCT ∨
              writer.container_type = DBUS_TYPE_INVALID) then
          { writer with type_pos := sub1.type_pos }
        else writer
      WR.ok st1 { writer1 with value_pos := sub1.value_pos } o1

/-- `_dbus_type_writer_write_basic`: reserve one byte of type space, write the
value (fallible), then write or verify the typecode (asserted to succeed). -/
def _dbus_type_writer_write_basic (st : MarshalStrings) (o : AllocOracle)
    (w : DBusTypeWriter) (type : Nat) (value : DBusBasicValue) : WR DBusTypeWriter :=
  let n1 := o.next
  if ¬n1.1 then WR.fail st n1.2
  else
    match _dbus_type_writer_write_basic_no_typecode st n1.2 w type value with
    | WR.fail st2 o2 => WR.fail st2 o2
    | WR.abort => WR.abort
    | WR.ok st2 w1 o2 =>
      match write_or_verify_typecode st2 o2 w1 type with
      | WR.ok st3 w2 o3 => WR.ok st3 w2 o3
      | _ => WR.abort

/-- Two insertions at consecutive positions compose into one. -/
theorem stringInsertAt_append (s : DStr) (p : Nat) (xs ys : DStr) :
    stringInsertAt (stringInsertAt s p xs) (p + xs.length) ys =
      stringInsertAt s p (xs ++ ys) := by
  unfold stringInsertAt
  rcases le_or_lt p s.length with h | h
  · have h1 : (s.take p ++ xs).length = p + xs.length := by
      simp [Nat.min_eq_left h]
    rw [show s.take p ++ xs ++ s.drop p = (s.take p ++ xs) ++ s.drop p by
      simp [List.append_assoc]]
    rw [List.take_left' h1, List.drop_left' h1]
    simp [List.append_assoc]
  · have hs : s.take p = s := List.take_of_length_le (Nat.le_of_lt h)
    have hd : s.drop p = [] := List.drop_eq_nil_of_le (Nat.le_of_lt h)
    rw [hs, hd]
    have h2 : ((s ++ xs ++ []).take (p + xs.length)) = s ++ xs ++ [] := by
      apply List.take_of_length_le
      simp only [List.append_nil, List.length_append]
      omega
    have h3 : ((s ++ xs ++ []).drop (p + xs.length)) = [] := by
      apply List.drop_eq_nil_of_le
      simp only [List.append_nil, List.length_append]
      omega
    rw [h2, h3]
    simp [List.append_assoc]

/-- What `writer_recurse_array_tail` does on its success path: the parent
passes through, the sub-writer records the 4-aligned length-word position and
the element-aligned start position, the type string is untouched and the value
string has the padded zero length word and element padding inserted. -/
theorem writer_recurse_array_tail_ok (st : MarshalStrings) (o : AllocOracle)
    (writer1 : DBusTypeWriter) (ct : DStr) (cs : Nat) (sub1 : DBusTypeWriter)
    (st' : MarshalStrings) (w' s' : DBusTypeWriter) (o' : AllocOracle)
    (hok : writer_recurse_array_tail st o writer1 ct cs sub1 =
      WR.ok st' (w', s') o') :
    w' = writer1 ∧
    s'.byte_order = sub1.byte_order ∧
    s'.u_array_len_pos = _DBUS_ALIGN_VALUE sub1.value_pos 4 ∧
    s'.u_array_start_pos = _DBUS_ALIGN_VALUE (_DBUS_ALIGN_VALUE sub1.value_pos 4 + 4)
      (element_type_get_alignment ct cs) ∧
    s'.value_pos = s'.u_array_start_pos ∧
    s'.u_array_len_pos < s'.u_array_start_pos ∧
    s'.type_pos = sub1.type_pos ∧
    s'.container_type = sub1.container_type ∧
    s'.type_pos_is_expectation = sub1.type_pos_is_expectation ∧
    s'.type_str_is_value_str = sub1.type_str_is_value_str ∧
    s'.u_array_element_type_pos = sub1.u_array_element_type_pos ∧
    st'.types = st.types ∧
    st'.values = stringInsertAt st.values sub1.value_pos
      (List.replicate (_DBUS_ALIGN_VALUE sub1.value_pos 4 - sub1.value_pos) 0 ++
        packOctets 4 sub1.byte_order 0 ++
        List.replicate (_DBUS_ALIGN_VALUE (_DBUS_ALIGN_VALUE sub1.value_pos 4 + 4)
            (element_type_get_alignment ct cs) -
          (_DBUS_ALIGN_VALUE sub1.value_pos 4 + 4)) 0) := by
  have hA : sub1.value_pos ≤ _DBUS_ALIGN_VALUE sub1.value_pos 4 :=
    le_align_value sub1.value_pos 4 (by omega)
  have hm : _dbus_marshal_basic_type st.values sub1.value_pos DBUS_TYPE_UINT32
      (DBusBasicValue.u32 0) sub1.byte_order =
      (stringInsertAt st.values sub1.value_pos
        (List.replicate (_DBUS_ALIGN_VALUE sub1.value_pos 4 - sub1.value_pos) 0 ++
          packOctets 4 sub1.byte_order 0),
       _DBUS_ALIGN_VALUE sub1.value_pos 4 + 4) := by
    unfold _dbus_marshal_basic_type marshal_4_octets
    rw [if_neg (by decide), if_pos (by decide)]
    rfl
  simp only [writer_recurse_array_tail, _dbus_type_writer_write_basic_no_typecode] at hok
  rw [hm] at hok
  cases hb1 : (o.next).1 with
  | false =>
    rw [hb1] at hok
    simp at hok
  | true =>
    rw [hb1] at hok
    simp only [if_true] at hok
    rw [if_neg (by simp)] at hok
    split at hok
    case isTrue => exact absurd hok (by simp)
    case isFalse hltp =>
      rw [WR.ok.injEq, Prod.mk.injEq] at hok
      obtain ⟨h1, ⟨hw, hs⟩, ho⟩ := hok
      subst h1 hw hs ho
      refine ⟨rfl, rfl, rfl, rfl, rfl, not_not.mp hltp, rfl, rfl, rfl, rfl, rfl, rfl,
        ?_⟩
      show _dbus_string_insert_bytes
          (stringInsertAt st.values sub1.value_pos _) _ _ 0 = _
      unfold _dbus_string_insert_bytes
      rw [show _DBUS_ALIGN_VALUE sub1.value_pos 4 + 4 =
          sub1.value_pos +
            (List.replicate (_DBUS_ALIGN_VALUE sub1.value_pos 4 - sub1.value_pos) 0 ++
              packOctets 4 sub1.byte_order 0).length from by
        simp [packOctets_length]
        omega]
      rw [stringInsertAt_append]

/-- The value-string block the array recursion inserts reads back as a zero
length word at the 4-aligned position, followed by `k` zero padding bytes. -/
theorem insert_len_word_block_spec (s : DStr) (vp bo k : Nat) (hvp : vp ≤ s.length) :
    unpackOctets 4 bo
      (stringInsertAt s vp (List.replicate (_DBUS_ALIGN_VALUE vp 4 - vp) 0 ++
        packOctets 4 bo 0 ++ List.replicate k 0)) (_DBUS_ALIGN_VALUE vp 4) = 0 ∧
    ((stringInsertAt s vp (List.replicate (_DBUS_ALIGN_VALUE vp 4 - vp) 0 ++
        packOctets 4 bo 0 ++ List.replicate k 0)).drop
      (_DBUS_ALIGN_VALUE vp 4 + 4)).take k = List.replicate k 0 := by
  have hA : vp ≤ _DBUS_ALIGN_VALUE vp 4 := le_align_value vp 4 (by omega)
  have hassoc : List.replicate (_DBUS_ALIGN_VALUE vp 4 - vp) 0 ++
      packOctets 4 bo 0 ++ List.replicate k 0 =
      List.replicate (_DBUS_ALIGN_VALUE vp 4 - vp) 0 ++
        (packOctets 4 bo 0 ++ List.replicate k 0) := by
    simp [List.append_assoc]
  constructor
  · have h := stringInsertAt_drop_mid s vp
      (List.replicate (_DBUS_ALIGN_VALUE vp 4 - vp) 0)
      (packOctets 4 bo 0 ++ List.replicate k 0) hvp
    rw [List.length_replicate,
      show vp + (_DBUS_ALIGN_VALUE vp 4 - vp) = _DBUS_ALIGN_VALUE vp 4 from by omega]
      at h
    rw [hassoc]
    exact unpackOctets_eq 4 bo _ _ 0 (List.replicate k 0 ++ s.drop vp)
      (by rw [h, List.append_assoc]) (by norm_num)
  · have h := stringInsertAt_drop_mid s vp
      (List.replicate (_DBUS_ALIGN_VALUE vp 4 - vp) 0 ++ packOctets 4 bo 0)
      (List.replicate k 0) hvp
    rw [List.length_append, List.length_replicate, packOctets_length,
      show vp + (_DBUS_ALIGN_VALUE vp 4 - vp + 4) = _DBUS_ALIGN_VALUE vp 4 + 4 from by
        omega] at h
    rw [h]
    exact List.take_left' (List.length_replicate k 0)

/-- C8: on every successful writer recursion into an array, the sub-writer's
length word is a 4-byte zero at the 4-aligned length position, the element
region start is padded to the element type's alignment unconditionally (zero
bytes are present even though no element has been written), and the type
string gains the array typecode plus the element signature exactly when the
writer is not inside an array or variant; nested inside an array, the type
string is untouched and the element signature was verified against the
parent's expected element type. -/
theorem writer_recurse_array_spec (st : MarshalStrings) (o : AllocOracle)
    (writer : DBusTypeWriter) (ct : DStr) (cs cl : Nat)
    (st' : MarshalStrings) (writer' sub' : DBusTypeWriter) (o' : AllocOracle)
    (halias : writer.type_str_is_value_str = false)
    (hvp : writer.value_pos ≤ st.values.length)
    (hok : _dbus_type_writer_recurse_contained_len st o writer DBUS_TYPE_ARRAY
      ct cs cl = WR.ok st' (writer', sub') o') :
    sub'.u_array_len_pos = _DBUS_ALIGN_VALUE writer.value_pos 4 ∧
    unpackOctets 4 writer.byte_order st'.values sub'.u_array_len_pos = 0 ∧
    sub'.u_array_start_pos = _DBUS_ALIGN_VALUE (sub'.u_array_len_pos + 4)
      (element_type_get_alignment ct cs) ∧
    sub'.value_pos = sub'.u_array_start_pos ∧
    (st'.values.drop (sub'.u_array_len_pos + 4)).take
        (sub'.u_array_start_pos - (sub'.u_array_len_pos + 4)) =
      List.replicate (sub'.u_array_start_pos - (sub'.u_array_len_pos + 4)) 0 ∧
    (writer.type_pos_is_expectation = true → st'.types = st.types) ∧
    (writer.container_type = DBUS_TYPE_ARRAY → st'.types = st.types ∧
      _dbus_string_equal_substring ct cs cl st.types
        (writer.u_array_element_type_pos + 1) = true) ∧
    (writer.type_pos_is_expectation = false →
      st'.types = stringInsertAt st.types writer.type_pos
        (DBUS_TYPE_ARRAY :: (ct.drop cs).take cl)) := by
  simp only [_dbus_type_writer_recurse_contained_len, writer_recurse_init_and_check]
    at hok
  split at hok
  case h_1 => exact absurd hok (by simp)
  case h_2 sub heq =>
    split at heq
    case isTrue => exact absurd heq (by simp)
    case isFalse =>
    rw [Option.some.injEq] at heq
    subst heq
    rw [if_neg (show ¬(DBUS_TYPE_ARRAY = DBUS_TYPE_STRUCT) from by decide)] at hok
    simp only [if_true] at hok
    simp only [writer_recurse_array, typeStrOf, halias, if_false,
      Bool.false_eq_true] at hok
    split at hok
    case isTrue hguard => exact absurd hok (by simp)
    case isFalse hguard =>
    cases hb1 : (o.next).1 with
    | false =>
      rw [hb1] at hok
      simp at hok
    | true =>
      rw [hb1] at hok
      rw [if_neg (by simp)] at hok
      split at hok
      case isTrue hexp =>
        cases hb2 : ((o.next).2.next).1 with
        | false =>
          rw [hb2] at hok
          simp at hok
        | true =>
          rw [hb2] at hok
          rw [if_neg (by simp)] at hok
          split at hok
          case isTrue hrange => exact absurd hok (by simp)
          case isFalse hrange =>
          split at hok
          case isFalse hcont => exact absurd hok (by simp)
          case isTrue hcont =>
          simp only [setTypeStr, halias, if_false, Bool.false_eq_true] at hok
          have htail := writer_recurse_array_tail_ok _ _ _ _ _ _ _ _ _ _ hok
          obtain ⟨hw, hbo, hlp, hsp, hvpq, hlt, htp, hct, hpe, hal, hep, hty, hva⟩ := htail
          dsimp only at hbo hlp hsp hvpq hlt htp hct hpe hal hep hty hva
          have hblock := insert_len_word_block_spec st.values writer.value_pos
            writer.byte_order
            (_DBUS_ALIGN_VALUE (_DBUS_ALIGN_VALUE writer.value_pos 4 + 4)
                (element_type_get_alignment ct cs) -
              (_DBUS_ALIGN_VALUE writer.value_pos 4 + 4)) hvp
          refine ⟨hlp, ?_, by rw [hlp]; exact hsp, hvpq, ?_, ?_, ?_, ?_⟩
          · rw [hlp, hva]
            exact hblock.1
          · rw [hva, hlp, hsp]
            exact hblock.2
          · intro h6
            rw [h6] at hexp
            exact absurd hexp (by simp)
          · intro h7
            exact absurd h7 hcont
          · intro _
            rw [hty]
            show stringInsertAt (stringInsertAt st.types writer.type_pos [DBUS_TYPE_ARRAY])
                (writer.type_pos + 1) ((ct.drop cs).take cl) = _
            rw [show writer.type_pos + 1 =
                writer.type_pos + ([DBUS_TYPE_ARRAY] : DStr).length from by simp,
              stringInsertAt_append]
            rfl
      case isFalse hexp =>
        have htail := writer_recurse_array_tail_ok _ _ _ _ _ _ _ _ _ _ hok
        obtain ⟨hw, hbo, hlp, hsp, hvpq, hlt, htp, hct, hpe, hal, hep, hty, hva⟩ := htail
        dsimp only at hbo hlp hsp hvpq hlt htp hct hpe hal hep hty hva
        have hblock := insert_len_word_block_spec st.values writer.value_pos
          writer.byte_order
          (_DBUS_ALIGN_VALUE (_DBUS_ALIGN_VALUE writer.value_pos 4 + 4)
              (element_type_get_alignment ct cs) -
            (_DBUS_ALIGN_VALUE writer.value_pos 4 + 4)) hvp
        refine ⟨hlp, ?_, by rw [hlp]; exact hsp, hvpq, ?_, fun _ => hty, ?_, ?_⟩
        · rw [hlp, hva]
          exact hblock.1
        · rw [hva, hlp, hsp]
          exact hblock.2
        · intro h7
          refine ⟨hty, ?_⟩
          by_contra hne
          exact hguard ⟨h7, by simp [hne]⟩
        · intro h8
          rw [h8] at hexp
          exact absurd rfl hexp

/-- Witness for C8: a fresh toplevel writer recursing into an array of int32
(contained signature `i`): the type string becomes `ai`, the value string is
the zero length word, and the sub-writer records len 0 / start 4. -/
theorem writer_recurse_array_spec_witness :
    ((_dbus_type_writer_init DBUS_LITTLE_ENDIAN 0 0).type_str_is_value_str = false ∧
     (_dbus_type_writer_init DBUS_LITTLE_ENDIAN 0 0).value_pos ≤
       (⟨[], []⟩ : MarshalStrings).values.length ∧
     _dbus_type_writer_recurse_contained_len ⟨[], []⟩ ⟨[]⟩
         (_dbus_type_writer_init DBUS_LITTLE_ENDIAN 0 0) DBUS_TYPE_ARRAY [105] 0 1 =
       WR.ok ⟨[97, 105], [0, 0, 0, 0]⟩
         (⟨108, 2, 0, 0, false, false, 0, 0, 0⟩, ⟨108, 1, 4, 97, true, false, 0, 4, 1⟩)
         ⟨[]⟩) ∧
    ((⟨108, 1, 4, 97, true, false, 0, 4, 1⟩ : DBusTypeWriter).u_array_len_pos =
      _DBUS_ALIGN_VALUE (_dbus_type_writer_init DBUS_LITTLE_ENDIAN 0 0).value_pos 4 ∧
    unpackOctets 4 (_dbus_type_writer_init DBUS_LITTLE_ENDIAN 0 0).byte_order
      (⟨[97, 105], [0, 0, 0, 0]⟩ : MarshalStrings).values
      (⟨108, 1, 4, 97, true, false, 0, 4, 1⟩ : DBusTypeWriter).u_array_len_pos = 0 ∧
    (⟨108, 1, 4, 97, true, false, 0, 4, 1⟩ : DBusTypeWriter).u_array_start_pos =
      _DBUS_ALIGN_VALUE
        ((⟨108, 1, 4, 97, true, false, 0, 4, 1⟩ : DBusTypeWriter).u_array_len_pos + 4)
        (element_type_get_alignment [105] 0) ∧
    (⟨108, 1, 4, 97, true, false, 0, 4, 1⟩ : DBusTypeWriter).value_pos =
      (⟨108, 1, 4, 97, true, false, 0, 4, 1⟩ : DBusTypeWriter).u_array_start_pos ∧
    ((⟨[97, 105], [0, 0, 0, 0]⟩ : MarshalStrings).values.drop
        ((⟨108, 1, 4, 97, true, false, 0, 4, 1⟩ : DBusTypeWriter).u_array_len_pos +
          4)).take
        ((⟨108, 1, 4, 97, true, false, 0, 4, 1⟩ : DBusTypeWriter).u_array_start_pos -
          ((⟨108, 1, 4, 97, true, false, 0, 4, 1⟩ : DBusTypeWriter).u_array_len_pos +
            4)) =
      List.replicate
        ((⟨108, 1, 4, 97, true, false, 0, 4, 1⟩ : DBusTypeWriter).u_array_start_pos -
          ((⟨108, 1, 4, 97, true, false, 0, 4, 1⟩ : DBusTypeWriter).u_array_len_pos +
            4)) 0 ∧
    ((_dbus_type_writer_init DBUS_LITTLE_ENDIAN 0 0).type_pos_is_expectation = true →
      (⟨[97, 105], [0, 0, 0, 0]⟩ : MarshalStrings).types =
        (⟨[], []⟩ : MarshalStrings).types) ∧
    ((_dbus_type_writer_init DBUS_LITTLE_ENDIAN 0 0).container_type =
        DBUS_TYPE_ARRAY →
      (⟨[97, 105], [0, 0, 0, 0]⟩ : MarshalStrings).types =
          (⟨[], []⟩ : MarshalStrings).types ∧
        _dbus_string_equal_substring [105] 0 1 (⟨[], []⟩ : MarshalStrings).types
          ((_dbus_type_writer_init DBUS_LITTLE_ENDIAN 0 0).u_array_element_type_pos +
            1) = true) ∧
    ((_dbus_type_writer_init DBUS_LITTLE_ENDIAN 0 0).type_pos_is_expectation = false →
      (⟨[97, 105], [0, 0, 0, 0]⟩ : MarshalStrings).types =
        stringInsertAt (⟨[], []⟩ : MarshalStrings).types
          (_dbus_type_writer_init DBUS_LITTLE_ENDIAN 0 0).type_pos
          (DBUS_TYPE_ARRAY :: (([105] : DStr).drop 0).take 1))) :=
  ⟨⟨rfl, by decide, rfl⟩,
    writer_recurse_array_spec ⟨[], []⟩ ⟨[]⟩
      (_dbus_type_writer_init DBUS_LITTLE_ENDIAN 0 0) [105] 0 1
      ⟨[97, 105], [0, 0, 0, 0]⟩ ⟨108, 2, 0, 0, false, false, 0, 0, 0⟩
      ⟨108, 1, 4, 97, true, false, 0, 4, 1⟩ ⟨[]⟩ rfl (by decide) rfl⟩

/-! ### The unimplemented basic-type-array fast paths (C10) -/

/-- Result of an array-marshal helper: the new string and position, or an
`_dbus_assert_not_reached`, carrying the string as it stood at the assert. -/
inductive MRes where
  | ok (s : DStr) (pos_after : Nat)
  | assertFailed (s : DStr)
deriving DecidableEq, Repr

/-- `marshal_1_octets_array` = `marshal_len_followed_by_bytes` in
`MARSHAL_AS_BYTE_ARRAY` mode: an aligned 4-byte length then the bytes, no
nul. -/
def marshal_1_octets_array (str : DStr) (insert_at : Nat) (value : DStr)
    (byte_order : Nat) : MRes :=
  let aligned := _DBUS_ALIGN_VALUE insert_at 4
  MRes.ok (stringInsertAt str insert_at
      (List.replicate (aligned - insert_at) 0 ++
        packOctets 4 byte_order value.length ++ value))
    (aligned + 4 + value.length)

/-- `marshal_4_octets_array` opens with
`_dbus_assert_not_reached ("FIXME insert_at")`: it asserts before writing
anything. -/
def marshal_4_octets_array (str : DStr) : MRes := MRes.assertFailed str

/-- `marshal_8_octets_array` likewise asserts before any write. -/
def marshal_8_octets_array (str : DStr) : MRes := MRes.assertFailed str

/-- `_dbus_marshal_basic_type_array`: dispatch on the element type.  Only byte
and boolean reach an implemented path; string and object path assert with
"handle string arrays", signature with "handle signature", anything else with
"non basic type in array". -/
def _dbus_marshal_basic_type_array (str : DStr) (insert_at element_type : Nat)
    (value : DStr) (byte_order : Nat) : MRes :=
  if element_type = DBUS_TYPE_BOOLEAN ∨ element_type = DBUS_TYPE_BYTE then
    marshal_1_octets_array str insert_at value byte_order
  else if element_type = DBUS_TYPE_INT32 ∨ element_type = DBUS_TYPE_UINT32 then
    marshal_4_octets_array str
  else if element_type = DBUS_TYPE_INT64 ∨ element_type = DBUS_TYPE_UINT64 ∨
      element_type = DBUS_TYPE_DOUBLE then
    marshal_8_octets_array str
  else MRes.assertFailed str

/-- `_dbus_type_writer_write_array` has an empty body: it changes nothing and
returns no defined boolean. -/
def _dbus_type_writer_write_array (st : MarshalStrings) (w : DBusTypeWriter) :
    MarshalStrings × DBusTypeWriter × Option Bool :=
  (st, w, none)

/-- `_dbus_type_reader_read_array_of_basic` has an empty body after its
assert: it produces no array data and returns no defined boolean. -/
def _dbus_type_reader_read_array_of_basic (_reader : DBusTypeReader) :
    Option (DStr × Nat) :=
  none

/-- C10: for any element type other than byte and boolean the fast paths are
unimplemented: `_dbus_marshal_basic_type_array` ends in an assertion failure
with the string untouched (the 4- and 8-octet helpers assert before writing;
string, object-path and signature elements assert immediately), and the
writer/reader array entry points compute nothing. -/
theorem basic_type_array_unimplemented (str value : DStr)
    (insert_at element_type byte_order : Nat) (st : MarshalStrings)
    (w : DBusTypeWriter) (r : DBusTypeReader)
    (h1 : element_type ≠ DBUS_TYPE_BYTE) (h2 : element_type ≠ DBUS_TYPE_BOOLEAN) :
    _dbus_marshal_basic_type_array str insert_at element_type value byte_order =
      MRes.assertFailed str ∧
    _dbus_type_writer_write_array st w = (st, w, none) ∧
    _dbus_type_reader_read_array_of_basic r = none := by
  refine ⟨?_, rfl, rfl⟩
  unfold _dbus_marshal_basic_type_array marshal_4_octets_array marshal_8_octets_array
  rw [if_neg (by tauto)]
  split_ifs <;> rfl

/-- Witness for C10 at element type int32. -/
theorem basic_type_array_unimplemented_witness :
    ((105 : Nat) ≠ DBUS_TYPE_BYTE ∧ (105 : Nat) ≠ DBUS_TYPE_BOOLEAN) ∧
    (_dbus_marshal_basic_type_array [7, 7] 0 105 [1, 2, 3] DBUS_LITTLE_ENDIAN =
      MRes.assertFailed [7, 7] ∧
    _dbus_type_writer_write_array ⟨[], []⟩ (_dbus_type_writer_init 108 0 0) =
      (⟨[], []⟩, _dbus_type_writer_init 108 0 0, none) ∧
    _dbus_type_reader_read_array_of_basic
      (_dbus_type_reader_init 108 [] 0 [] 0) = none) :=
  ⟨by decide,
    basic_type_array_unimplemented [7, 7] [1, 2, 3] 0 105 DBUS_LITTLE_ENDIAN
      ⟨[], []⟩ (_dbus_type_writer_init 108 0 0) (_dbus_type_reader_init 108 [] 0 [] 0)
      (by decide) (by decide)⟩

/-! ### Reader `next` (fueled)

`_dbus_type_reader_next` recurses through the class table (`base_reader_next`
recurses into struct/variant contents and skips them with an inner
`while (_dbus_type_reader_next (&sub))` loop), so the embedding threads
explicit fuel; `none` means fuel ran out or an asserting call (recurse on a
non-container, unbalanced signature) was hit.  The `_dbus_assert` range checks
are side-effect-free and are not modelled. -/

mutual

def _dbus_type_reader_next_f (fuel : Nat) (reader : DBusTypeReader) :
    Option (DBusTypeReader × Bool) :=
  match fuel with
  | 0 => none
  | fuel + 1 =>
    let t := _dbus_type_reader_get_current_type reader
    if t = DBUS_TYPE_INVALID then some (reader, false)
    else
      match reader_klass_next fuel reader t with
      | none => none
      | some r2 =>
        some (r2, decide (_dbus_type_reader_get_current_type r2 ≠ DBUS_TYPE_INVALID))

/-- The `klass->next` dispatch (the class table). -/
def reader_klass_next (fuel : Nat) (reader : DBusTypeReader) (t : Nat) :
    Option DBusTypeReader :=
  match fuel with
  | 0 => none
  | fuel + 1 =>
    match reader.klass with
    | ReaderClass.struct => struct_reader_next fuel reader t
    | ReaderClass.structTypesOnly => struct_reader_next fuel reader t
    | ReaderClass.array => array_reader_next fuel reader t
    | ReaderClass.arrayTypesOnly => some { reader with finished := true }
    | _ => base_reader_next fuel reader t

def base_reader_next (fuel : Nat) (reader : DBusTypeReader) (current_type : Nat) :
    Option DBusTypeReader :=
  match fuel with
  | 0 => none
  | fuel + 1 =>
    if current_type = DBUS_TYPE_STRUCT ∨ current_type = DBUS_TYPE_VARIANT then
      match _dbus_type_reader_recurse reader with
      | none => none
      | some sub =>
        match reader_skip_to_end fuel sub with
        | none => none
        | some sub2 =>
          let r1 :=
            if current_type = DBUS_TYPE_VARIANT then
              { reader with type_pos := reader.type_pos + 1 }
            else { reader with type_pos := sub2.type_pos }
          some (if reader.klass.types_only then r1
            else { r1 with value_pos := sub2.value_pos })
    else if current_type = DBUS_TYPE_ARRAY then
      let vp2 := _dbus_marshal_skip_array reader.value_str reader.byte_order
        (first_type_in_signature reader.type_str (reader.type_pos + 1))
        reader.value_pos
      let r1 :=
        if reader.klass.types_only = false then { reader with value_pos := vp2 }
        else reader
      match skip_one_complete_type r1.type_str r1.type_pos with
      | none => none
      | some tp => some { r1 with type_pos := tp }
    else
      let vp2 := _dbus_marshal_skip_basic_type reader.value_str current_type
        reader.byte_order reader.value_pos
      let r1 :=
        if reader.klass.types_only = false then { reader with value_pos := vp2 }
        else reader
      some { r1 with type_pos := r1.type_pos + 1 }

/-- `struct_reader_next`: base behaviour, then consume a closing `)` and set
`finished`. -/
def struct_reader_next (fuel : Nat) (reader : DBusTypeReader) (current_type : Nat) :
    Option DBusTypeReader :=
  match fuel with
  | 0 => none
  | fuel + 1 =>
    match base_reader_next fuel reader current_type with
    | none => none
    | some r1 =>
      if _dbus_string_get_byte r1.type_str r1.type_pos = DBUS_STRUCT_END_CHAR then
        some { r1 with type_pos := r1.type_pos + 1, finished := true }
      else some r1

/-- `array_reader_next`: skip one element by value, and skip the element type
only when the element region's end is reached. -/
def array_reader_next (fuel : Nat) (reader : DBusTypeReader) (current_type : Nat) :
    Option DBusTypeReader :=
  match fuel with
  | 0 => none
  | fuel + 1 =>
    let end_pos := reader.array_start_pos + array_reader_get_array_len reader
    let t1 := first_type_in_signature reader.type_str reader.type_pos
    let step : Option DBusTypeReader :=
      if t1 = DBUS_TYPE_STRUCT ∨ t1 = DBUS_TYPE_VARIANT then
        match _dbus_type_reader_recurse reader with
        | none => none
        | some sub =>
          match reader_skip_to_end fuel sub with
          | none => none
          | some sub2 => some { reader with value_pos := sub2.value_pos }
      else if t1 = DBUS_TYPE_ARRAY then
        let vp2 := _dbus_marshal_skip_array reader.value_str reader.byte_order
          (first_type_in_signature reader.type_str (reader.type_pos + 1))
          reader.value_pos
        some { reader with value_pos := vp2 }
      else
        let vp2 := _dbus_marshal_skip_basic_type reader.value_str current_type
          reader.byte_order reader.value_pos
        some { reader with value_pos := vp2 }
    match step with
    | none => none
    | some r1 =>
      if r1.value_pos = end_pos then
        match skip_one_complete_type r1.type_str r1.type_pos with
        | none => none
        | some tp => some { r1 with type_pos := tp }
      else some r1

/-- The `while (_dbus_type_reader_next (&sub)) ;` skip loops. -/
def reader_skip_to_end (fuel : Nat) (r : DBusTypeReader) : Option DBusTypeReader :=
  match fuel with
  | 0 => none
  | fuel + 1 =>
    match _dbus_type_reader_next_f fuel r with
    | none => none
    | some (r2, true) => reader_skip_to_end fuel r2
    | some (r2, false) => some r2

end

/-! ### `_dbus_type_writer_write_reader` (the copier, C7) -/

/-- Result of a copy: success (with the final strings, writer, reader, oracle
and the traces of basic values read and written), `return FALSE`, or an
assertion failure / fuel exhaustion. -/
inductive CopyResult where
  | ok (st : MarshalStrings) (w : DBusTypeWriter) (r : DBusTypeReader)
      (o : AllocOracle) (rt wt : List (Nat × DBusBasicValue))
  | fail (st : MarshalStrings) (w : DBusTypeWriter) (o : AllocOracle)
  | abort
deriving DecidableEq, Repr

/-- The `oom:` label of `_dbus_type_writer_write_reader`: delete the bytes
grown past the original type-string length at the original type position
(unless the writer is in expectation mode), and the bytes grown past the
original value-string length at the original value position.  (`*writer =
orig` is the caller returning `orig` as the failed writer.) -/
def write_reader_oom (st : MarshalStrings) (orig : DBusTypeWriter)
    (orig_type_len orig_value_len : Nat) : MarshalStrings :=
  let st1 :=
    if orig.type_pos_is_expectation = false then
      setTypeStr st orig (_dbus_string_delete (typeStrOf st orig) orig.type_pos
        ((typeStrOf st orig).length - orig_type_len))
    else st
  let vs := _dbus_string_delete st1.values orig.value_pos
    (st1.values.length - orig_value_len)
  { st1 with values := vs }

mutual

/-- `_dbus_type_writer_write_reader`: snapshot the writer and the string
lengths, then run the copy loop. -/
def _dbus_type_writer_write_reader_f (fuel : Nat) (st : MarshalStrings)
    (o : AllocOracle) (writer : DBusTypeWriter) (reader : DBusTypeReader) :
    CopyResult :=
  match fuel with
  | 0 => CopyResult.abort
  | fuel + 1 =>
    write_reader_loop fuel st o writer reader writer
      (typeStrOf st writer).length st.values.length

/-- The `while ((current_type = ...) != DBUS_TYPE_INVALID)` loop body:
containers recurse on both sides, copy recursively and unrecurse; basic
values are read and written through; any `FALSE` from a writer operation
goes to the `oom:` restore. -/
def write_reader_loop (fuel : Nat) (st : MarshalStrings) (o : AllocOracle)
    (writer : DBusTypeWriter) (reader : DBusTypeReader) (orig : DBusTypeWriter)
    (orig_type_len orig_value_len : Nat) : CopyResult :=
  match fuel with
  | 0 => CopyResult.abort
  | fuel + 1 =>
    let current_type := _dbus_type_reader_get_current_type reader
    if current_type = DBUS_TYPE_INVALID then
      CopyResult.ok st writer reader o [] []
    else if current_type = DBUS_TYPE_STRUCT ∨ current_type = DBUS_TYPE_VARIANT ∨
        current_type = DBUS_TYPE_ARRAY then
      match _dbus_type_reader_recurse reader with
      | none => CopyResult.abort
      | some subreader =>
        match _dbus_type_reader_get_signature subreader with
        | none => CopyResult.abort
        | some sig =>
          match _dbus_type_writer_recurse_contained_len st o writer current_type
              sig.1 sig.2.1 sig.2.2 with
          | WR.abort => CopyResult.abort
          | WR.fail st1 o1 =>
            CopyResult.fail (write_reader_oom st1 orig orig_type_len orig_value_len)
              orig o1
          | WR.ok st1 ws o1 =>
            match _dbus_type_writer_write_reader_f fuel st1 o1 ws.2 subreader with
            | CopyResult.abort => CopyResult.abort
            | CopyResult.fail st2 _ o2 =>
              CopyResult.fail (write_reader_oom st2 orig orig_type_len orig_value_len)
                orig o2
            | CopyResult.ok st2 subw2 _ o2 rt1 wt1 =>
              match _dbus_type_writer_unrecurse st2 o2 ws.1 subw2 with
              | WR.abort => CopyResult.abort
              | WR.fail st3 o3 =>
                CopyResult.fail
                  (write_reader_oom st3 orig orig_type_len orig_value_len) orig o3
              | WR.ok st3 writer2 o3 =>
                match _dbus_type_reader_next_f fuel reader with
                | none => CopyResult.abort
                | some rn =>
                  match write_reader_loop fuel st3 o3 writer2 rn.1 orig
                      orig_type_len orig_value_len with
                  | CopyResult.ok st4 w4 r4 o4 rt2 wt2 =>
                    CopyResult.ok st4 w4 r4 o4 (rt1 ++ rt2) (wt1 ++ wt2)
                  | other => other
    else
      let val := _dbus_type_reader_read_basic reader
      match _dbus_type_writer_write_basic st o writer current_type val with
      | WR.abort => CopyResult.abort
      | WR.fail st1 o1 =>
        CopyResult.fail (write_reader_oom st1 orig orig_type_len orig_value_len)
          orig o1
      | WR.ok st1 writer1 o1 =>
        match _dbus_type_reader_next_f fuel reader with
        | none => CopyResult.abort
        | some rn =>
          match write_reader_loop fuel st1 o1 writer1 rn.1 orig
              orig_type_len orig_value_len with
          | CopyResult.ok st4 w4 r4 o4 rt2 wt2 =>
            CopyResult.ok st4 w4 r4 o4 ((current_type, val) :: rt2)
              ((current_type, val) :: wt2)
          | other => other

end

/-- In-bounds cursors: the value cursor lies within the value string, and an
insertion-mode (non-expectation) type cursor lies within the type string.  (An
expectation cursor only reads, through `_dbus_string_get_byte`, which is
total.) -/
def writerWF (st : MarshalStrings) (w : DBusTypeWriter) : Prop :=
  (w.type_pos_is_expectation = false → w.type_pos ≤ (typeStrOf st w).length) ∧
  w.value_pos ≤ st.values.length

instance (st : MarshalStrings) (w : DBusTypeWriter) : Decidable (writerWF st w) := by
  unfold writerWF
  infer_instance

/-- A writer whose type string aliases the value string (a variant sub-writer)
is in expectation mode — true of every writer the API produces. -/
def writerAE (w : DBusTypeWriter) : Prop :=
  w.type_str_is_value_str = true → w.type_pos_is_expectation = true

instance (w : DBusTypeWriter) : Decidable (writerAE w) := by
  unfold writerAE
  infer_instance

theorem stringInsertAt_length (s : DStr) (pos : Nat) (xs : DStr) :
    (stringInsertAt s pos xs).length = s.length + xs.length := by
  unfold stringInsertAt
  simp only [List.length_append, List.length_take, List.length_drop]
  omega

theorem delete_length_restore (s : DStr) (pos k : Nat) (h1 : pos ≤ k)
    (h2 : k ≤ s.length) :
    (_dbus_string_delete s pos (s.length - k)).length = k := by
  unfold _dbus_string_delete
  simp only [List.length_append, List.length_take, List.length_drop]
  omega

theorem delete_types_eq (s : DStr) (pos : Nat) :
    _dbus_string_delete s pos (s.length - s.length) = s := by
  unfold _dbus_string_delete
  simp

theorem get_byte_ne_zero_lt (s : DStr) (p : Nat) (h : _dbus_string_get_byte s p ≠ 0) :
    p < s.length := by
  by_contra hge
  push_neg at hge
  unfold _dbus_string_get_byte at h
  exact h (List.getD_eq_default _ _ hge)

theorem typeStrOf_mono (st st' : MarshalStrings) (w w' : DBusTypeWriter)
    (ha : w'.type_str_is_value_str = w.type_str_is_value_str)
    (ht : st.types.length ≤ st'.types.length)
    (hv : st.values.length ≤ st'.values.length) :
    (typeStrOf st w).length ≤ (typeStrOf st' w').length := by
  unfold typeStrOf
  rw [ha]
  split <;> assumption

theorem typeStrOf_setTypeStr (st : MarshalStrings) (w w' : DBusTypeWriter) (s : DStr)
    (ha : w'.type_str_is_value_str = w.type_str_is_value_str) :
    typeStrOf (setTypeStr st w s) w' = s := by
  unfold typeStrOf setTypeStr
  rw [ha]
  split <;> simp

theorem setTypeStr_types_alias (st : MarshalStrings) (w : DBusTypeWriter) (s : DStr)
    (h : w.type_str_is_value_str = true) : (setTypeStr st w s).types = st.types := by
  unfold setTypeStr
  rw [h]
  rfl

theorem setTypeStr_types_noalias (st : MarshalStrings) (w : DBusTypeWriter) (s : DStr)
    (h : w.type_str_is_value_str = false) : (setTypeStr st w s).types = s := by
  unfold setTypeStr
  rw [h]
  rfl

theorem setTypeStr_values_alias (st : MarshalStrings) (w : DBusTypeWriter) (s : DStr)
    (h : w.type_str_is_value_str = true) : (setTypeStr st w s).values = s := by
  unfold setTypeStr
  rw [h]
  rfl

theorem setTypeStr_values_noalias (st : MarshalStrings) (w : DBusTypeWriter) (s : DStr)
    (h : w.type_str_is_value_str = false) : (setTypeStr st w s).values = st.values := by
  unfold setTypeStr
  rw [h]
  rfl

theorem typeStrOf_alias (st : MarshalStrings) (w : DBusTypeWriter)
    (h : w.type_str_is_value_str = true) : typeStrOf st w = st.values := by
  unfold typeStrOf
  rw [h]
  rfl

theorem typeStrOf_noalias (st : MarshalStrings) (w : DBusTypeWriter)
    (h : w.type_str_is_value_str = false) : typeStrOf st w = st.types := by
  unfold typeStrOf
  rw [h]
  rfl

/-- A failing `write_or_verify_typecode` leaves the strings unchanged. -/
theorem wov_fail (st : MarshalStrings) (o : AllocOracle) (w : DBusTypeWriter)
    (tc : Nat) (st' : MarshalStrings) (o' : AllocOracle)
    (h : write_or_verify_typecode st o w tc = WR.fail st' o') : st' = st := by
  simp only [write_or_verify_typecode] at h
  repeat' split at h
  all_goals cases h
  all_goals rfl

/-- A successful `write_or_verify_typecode`: in-bounds cursors are preserved,
strings only grow, an expectation writer changes nothing, and all flags and
the value cursor pass through. -/
theorem wov_ok (st : MarshalStrings) (o : AllocOracle) (w : DBusTypeWriter) (tc : Nat)
    (st' : MarshalStrings) (w' : DBusTypeWriter) (o' : AllocOracle)
    (h : write_or_verify_typecode st o w tc = WR.ok st' w' o')
    (hwf : writerWF st w) :
    writerWF st' w' ∧
    st.types.length ≤ st'.types.length ∧
    st.values.length ≤ st'.values.length ∧
    (w.type_pos_is_expectation = true → st' = st) ∧
    w'.type_pos_is_expectation = w.type_pos_is_expectation ∧
    w'.type_str_is_value_str = w.type_str_is_value_str ∧
    w'.container_type = w.container_type ∧
    w'.value_pos = w.value_pos := by
  obtain ⟨hwf1, hwf2⟩ := hwf
  simp only [write_or_verify_typecode] at h
  split at h
  case isTrue hexp =>
    split at h
    case isTrue => exact absurd h (by simp)
    case isFalse hbyte =>
      split at h
      all_goals cases h
      · refine ⟨⟨?_, hwf2⟩, le_refl _, le_refl _, fun _ => rfl, rfl, rfl, rfl, rfl⟩
        intro hc
        have hc2 : w.type_pos_is_expectation = false := hc
        rw [hexp] at hc2
        cases hc2
      · exact ⟨⟨hwf1, hwf2⟩, le_refl _, le_refl _, fun _ => rfl, rfl, rfl, rfl, rfl⟩
  case isFalse hexp =>
    rw [Bool.not_eq_true] at hexp
    split at h
    case isFalse => exact absurd h (by simp)
    case isTrue hb =>
      cases h
      have htp : w.type_pos ≤ (typeStrOf st w).length := hwf1 hexp
      have hlen : (_dbus_string_insert_byte (typeStrOf st w) w.type_pos tc).length =
          (typeStrOf st w).length + 1 := by
        unfold _dbus_string_insert_byte
        rw [stringInsertAt_length]
        rfl
      have htpe : typeStrOf (setTypeStr st w
            (_dbus_string_insert_byte (typeStrOf st w) w.type_pos tc))
          { w with type_pos := w.type_pos + 1 } =
          _dbus_string_insert_byte (typeStrOf st w) w.type_pos tc :=
        typeStrOf_setTypeStr _ _ _ _ rfl
      by_cases halias : w.type_str_is_value_str = true
      · rw [typeStrOf_alias st w halias] at hlen htp
        refine ⟨⟨?_, ?_⟩, ?_, ?_, fun hcon => ?_, rfl, rfl, rfl, rfl⟩
        · intro _
          rw [htpe, typeStrOf_alias st w halias, hlen]
          show w.type_pos + 1 ≤ st.values.length + 1
          omega
        · rw [setTypeStr_values_alias _ _ _ halias, typeStrOf_alias st w halias, hlen]
          show w.value_pos ≤ st.values.length + 1
          omega
        · rw [setTypeStr_types_alias _ _ _ halias]
        · rw [setTypeStr_values_alias _ _ _ halias, typeStrOf_alias st w halias, hlen]
          omega
        · rw [hcon] at hexp
          cases hexp
      · rw [Bool.not_eq_true] at halias
        rw [typeStrOf_noalias st w halias] at hlen htp
        refine ⟨⟨?_, ?_⟩, ?_, ?_, fun hcon => ?_, rfl, rfl, rfl, rfl⟩
        · intro _
          rw [htpe, typeStrOf_noalias st w halias, hlen]
          show w.type_pos + 1 ≤ st.types.length + 1
          omega
        · rw [setTypeStr_values_noalias _ _ _ halias]
          exact hwf2
        · rw [setTypeStr_types_noalias _ _ _ halias, typeStrOf_noalias st w halias,
            hlen]
          omega
        · rw [setTypeStr_values_noalias _ _ _ halias]
        · rw [hcon] at hexp
          cases hexp

theorem typeStrOf_eq_of_alias (st : MarshalStrings) (w w' : DBusTypeWriter)
    (h : w.type_str_is_value_str = w'.type_str_is_value_str) :
    typeStrOf st w = typeStrOf st w' := by
  unfold typeStrOf
  rw [h]

theorem first_type_ne_zero_lt (s : DStr) (p : Nat)
    (h : first_type_in_signature s p ≠ 0) : p < s.length := by
  unfold first_type_in_signature at h
  apply get_byte_ne_zero_lt s p
  intro hz
  rw [hz] at h
  exact h (by norm_num [DBUS_STRUCT_BEGIN_CHAR])

/-- `_dbus_marshal_basic_type` grows the string and lands `*pos_after` inside
it. -/
theorem marshal_basic_type_bounds (str : DStr) (vp t : Nat) (v : DBusBasicValue)
    (bo : Nat) (h : vp ≤ str.length) :
    str.length ≤ ((_dbus_marshal_basic_type str vp t v bo).1).length ∧
    (_dbus_marshal_basic_type str vp t v bo).2 ≤
      ((_dbus_marshal_basic_type str vp t v bo).1).length := by
  have h4 := le_align_value vp 4 (by omega)
  have h8 := le_align_value vp 8 (by omega)
  unfold _dbus_marshal_basic_type marshal_4_octets marshal_8_octets marshal_string
    marshal_signature _dbus_string_insert_byte
  split_ifs
  all_goals simp only [stringInsertAt_length, List.length_append,
    List.length_replicate, packOctets_length, List.length_cons, List.length_nil]
  all_goals omega

theorem set_uint32_length_mono (s : DStr) (bo pos v : Nat) :
    s.length ≤ (_dbus_marshal_set_uint32 s bo pos v).length := by
  unfold _dbus_marshal_set_uint32
  simp only [List.length_append, List.length_take, List.length_drop,
    packOctets_length]
  omega

/-- A failing `_dbus_type_writer_write_basic` leaves the strings unchanged. -/
theorem wb_fail (st : MarshalStrings) (o : AllocOracle) (w : DBusTypeWriter)
    (t : Nat) (v : DBusBasicValue) (st' : MarshalStrings) (o' : AllocOracle)
    (h : _dbus_type_writer_write_basic st o w t v = WR.fail st' o') : st' = st := by
  simp only [_dbus_type_writer_write_basic,
    _dbus_type_writer_write_basic_no_typecode] at h
  split at h
  case isTrue => cases h; rfl
  case isFalse hb1 =>
    split at h
    case h_1 st2 o2 heq =>
      cases h
      split at heq
      case isTrue => cases heq
      case isFalse => cases heq; rfl
    case h_2 heq => cases h
    case h_3 st2 w1 o2 heq =>
      split at h
      case h_1 st3 w2 o3 heq2 => cases h
      case h_2 heq2 => cases h

/-- A successful `_dbus_type_writer_write_basic`: cursors stay in bounds,
strings only grow, an expectation writer's type string is untouched, flags
pass through. -/
theorem wb_ok (st : MarshalStrings) (o : AllocOracle) (w : DBusTypeWriter)
    (t : Nat) (v : DBusBasicValue) (st' : MarshalStrings) (w' : DBusTypeWriter)
    (o' : AllocOracle)
    (h : _dbus_type_writer_write_basic st o w t v = WR.ok st' w' o')
    (hwf : writerWF st w) :
    writerWF st' w' ∧
    st.types.length ≤ st'.types.length ∧
    st.values.length ≤ st'.values.length ∧
    (w.type_pos_is_expectation = true → st'.types = st.types) ∧
    w'.type_pos_is_expectation = w.type_pos_is_expectation ∧
    w'.type_str_is_value_str = w.type_str_is_value_str ∧
    w'.container_type = w.container_type := by
  obtain ⟨hwf1, hwf2⟩ := hwf
  have hbounds := marshal_basic_type_bounds st.values w.value_pos t v w.byte_order hwf2
  simp only [_dbus_type_writer_write_basic,
    _dbus_type_writer_write_basic_no_typecode] at h
  split at h
  case isTrue => exact absurd h (by simp)
  case isFalse hb1 =>
    split at h
    case h_1 => exact absurd h (by simp)
    case h_2 => exact absurd h (by simp)
    case h_3 st2 w1 o2 heq =>
      split at heq
      case isFalse => exact absurd heq (by simp)
      case isTrue hb2 =>
        cases heq
        split at h
        case h_2 => exact absurd h (by simp)
        case h_1 st3 w2 o3 heq2 =>
        cases h
        have hwfin : writerWF
            { st with values := (_dbus_marshal_basic_type st.values w.value_pos t v
                w.byte_order).1 }
            { w with value_pos := (_dbus_marshal_basic_type st.values w.value_pos t v
                w.byte_order).2 } := by
          constructor
          · intro hc
            have hc2 : w.type_pos_is_expectation = false := hc
            have htp := hwf1 hc2
            exact le_trans htp (typeStrOf_mono st _ w _ rfl (le_refl _) hbounds.1)
          · exact hbounds.2
        obtain ⟨hwf', htm, hvm, hexp, hf1, hf2, hf3, _⟩ :=
          wov_ok _ _ _ _ _ _ _ heq2 hwfin
        refine ⟨hwf', htm, le_trans hbounds.1 hvm, ?_, hf1, hf2, hf3⟩
        intro he
        have he2 : ({ w with value_pos := (_dbus_marshal_basic_type st.values
            w.value_pos t v w.byte_order).2 } : DBusTypeWriter).type_pos_is_expectation
            = true := he
        rw [hexp he2]

/-- A failing `_dbus_type_writer_unrecurse` leaves the strings unchanged. -/
theorem unrec_fail (st : MarshalStrings) (o : AllocOracle) (w sub : DBusTypeWriter)
    (st' : MarshalStrings) (o' : AllocOracle)
    (h : _dbus_type_writer_unrecurse st o w sub = WR.fail st' o') : st' = st := by
  simp only [_dbus_type_writer_unrecurse] at h
  split at h
  · cases h
  · split at h
    case h_1 st1 o1 heq =>
      cases h
      split at heq
      · exact wov_fail _ _ _ _ _ _ heq
      · split at heq
        all_goals cases heq
    case h_2 => cases h
    case h_3 st1 sub1 o1 heq => cases h

/-- A successful `_dbus_type_writer_unrecurse`: cursors stay in bounds,
strings only grow, an expectation parent's type string is untouched, and the
parent's flags pass through. -/
theorem unrec_ok (st : MarshalStrings) (o : AllocOracle) (w sub : DBusTypeWriter)
    (st' : MarshalStrings) (w' : DBusTypeWriter) (o' : AllocOracle)
    (h : _dbus_type_writer_unrecurse st o w sub = WR.ok st' w' o')
    (hwfw : writerWF st w) (hwfs : writerWF st sub)
    (hca : sub.container_type = DBUS_TYPE_STRUCT →
      sub.type_str_is_value_str = w.type_str_is_value_str)
    (hse : sub.container_type = DBUS_TYPE_STRUCT →
      sub.type_pos_is_expectation = w.type_pos_is_expectation) :
    writerWF st' w' ∧
    st.types.length ≤ st'.types.length ∧
    st.values.length ≤ st'.values.length ∧
    (w.type_pos_is_expectation = true → st'.types = st.types) ∧
    w'.type_pos_is_expectation = w.type_pos_is_expectation ∧
    w'.type_str_is_value_str = w.type_str_is_value_str ∧
    w'.container_type = w.container_type := by
  simp only [_dbus_type_writer_unrecurse] at h
  split at h
  case isTrue => cases h
  case isFalse hchk =>
    have hws : w.type_pos_is_expectation = true →
        sub.type_pos_is_expectation = true := by
      intro hw
      cases hsub : sub.type_pos_is_expectation
      · exact absurd ⟨hw, hsub⟩ hchk
      · rfl
    split at h
    case h_1 => cases h
    case h_2 => cases h
    case h_3 stX sub1 oX heq =>
      cases h
      split at heq
      case isTrue hstruct =>
        obtain ⟨hwf1, htm, hvm, hexps, hf1, hf2, hf3, hvp⟩ :=
          wov_ok _ _ _ _ _ _ _ heq hwfs
        have hexpw : w.type_pos_is_expectation = true → st'.types = st.types :=
          fun hw => by rw [hexps (hws hw)]
        by_cases hcnd : sub1.container_type = DBUS_TYPE_STRUCT ∧
            (w.container_type = DBUS_TYPE_STRUCT ∨
              w.container_type = DBUS_TYPE_INVALID)
        · rw [if_pos hcnd]
          have hsc : sub.container_type = DBUS_TYPE_STRUCT := by
            rw [← hf3]
            exact hcnd.1
          refine ⟨⟨?_, hwf1.2⟩, htm, hvm, hexpw, rfl, rfl, rfl⟩
          intro hne
          have hne2 : w.type_pos_is_expectation = false := hne
          have hsubf : sub1.type_pos_is_expectation = false := by
            rw [hf1, hse hsc, hne2]
          have hb := hwf1.1 hsubf
          rw [show typeStrOf st' sub1 = typeStrOf st'
              { { w with type_pos := sub1.type_pos } with
                value_pos := sub1.value_pos } from
            typeStrOf_eq_of_alias _ _ _ (by
              show sub1.type_str_is_value_str = w.type_str_is_value_str
              rw [hf2, hca hsc])] at hb
          exact hb
        · rw [if_neg hcnd]
          refine ⟨⟨?_, hwf1.2⟩, htm, hvm, hexpw, rfl, rfl, rfl⟩
          intro hne
          have hne2 : w.type_pos_is_expectation = false := hne
          have hb := hwfw.1 hne2
          exact le_trans hb (typeStrOf_mono st st' w _ rfl htm hvm)
      case isFalse h1 =>
        split at heq
        case isTrue harr =>
          cases heq
          have hvm : st.values.length ≤
              (_dbus_marshal_set_uint32 st.values sub.byte_order sub.u_array_len_pos
                (sub.value_pos - sub.u_array_start_pos)).length :=
            set_uint32_length_mono _ _ _ _
          by_cases hcnd : sub.container_type = DBUS_TYPE_STRUCT ∧
              (w.container_type = DBUS_TYPE_STRUCT ∨
                w.container_type = DBUS_TYPE_INVALID)
          · exact absurd hcnd.1 h1
          · rw [if_neg hcnd]
            refine ⟨⟨?_, ?_⟩, le_refl _, hvm, fun _ => rfl, rfl, rfl, rfl⟩
            · intro hne
              have hne2 : w.type_pos_is_expectation = false := hne
              have hb := hwfw.1 hne2
              exact le_trans hb (typeStrOf_mono st _ w _ rfl (le_refl _) hvm)
            · exact le_trans hwfs.2 hvm
        case isFalse harr =>
          cases heq
          by_cases hcnd : sub.container_type = DBUS_TYPE_STRUCT ∧
              (w.container_type = DBUS_TYPE_STRUCT ∨
                w.container_type = DBUS_TYPE_INVALID)
          · exact absurd hcnd.1 h1
          · rw [if_neg hcnd]
            exact ⟨⟨fun hne => hwfw.1 hne, hwfs.2⟩, le_refl _, le_refl _,
              fun _ => rfl, rfl, rfl, rfl⟩

/-- `writer_recurse_array_tail` never reports plain failure: its fallible
steps are asserted. -/
theorem writer_recurse_array_tail_no_fail (st : MarshalStrings) (o : AllocOracle)
    (writer1 : DBusTypeWriter) (ct : DStr) (cs : Nat) (sub1 : DBusTypeWriter)
    (st' : MarshalStrings) (o' : AllocOracle)
    (h : writer_recurse_array_tail st o writer1 ct cs sub1 = WR.fail st' o') :
    False := by
  simp only [writer_recurse_array_tail, _dbus_type_writer_write_basic_no_typecode]
    at h
  repeat' split at h
  all_goals cases h

theorem wr_struct_fail (st : MarshalStrings) (o : AllocOracle)
    (writer sub : DBusTypeWriter) (st' : MarshalStrings) (o' : AllocOracle)
    (h : writer_recurse_struct st o writer sub = WR.fail st' o') : st' = st := by
  simp only [writer_recurse_struct] at h
  repeat' split at h
  all_goals cases h
  all_goals rfl

theorem wr_array_fail (st : MarshalStrings) (o : AllocOracle)
    (writer : DBusTypeWriter) (ct : DStr) (cts ctl : Nat) (sub : DBusTypeWriter)
    (st' : MarshalStrings) (o' : AllocOracle)
    (h : writer_recurse_array st o writer ct cts ctl sub = WR.fail st' o') :
    st' = st := by
  simp only [writer_recurse_array] at h
  repeat' split at h
  all_goals first
  | (cases h <;> rfl)
  | exact (writer_recurse_array_tail_no_fail _ _ _ _ _ _ _ _ h).elim

theorem wr_variant_fail (st : MarshalStrings) (o : AllocOracle)
    (writer : DBusTypeWriter) (ct : DStr) (cts ctl : Nat) (sub : DBusTypeWriter)
    (st' : MarshalStrings) (o' : AllocOracle)
    (h : writer_recurse_variant st o writer ct cts ctl sub = WR.fail st' o') :
    st' = st := by
  simp only [writer_recurse_variant] at h
  split at h
  case isTrue => cases h; rfl
  case isFalse =>
    split at h
    case h_1 => cases h
    case h_2 st2 o2 heq =>
      cases h
      exact wov_fail _ _ _ _ _ _ heq
    case h_3 st2 w1 o2 heq =>
      split at h
      all_goals cases h

/-- A failing `_dbus_type_writer_recurse_contained_len` leaves the strings
unchanged. -/
theorem wrcl_fail (st : MarshalStrings) (o : AllocOracle) (w : DBusTypeWriter)
    (ctype : Nat) (ct : DStr) (cts ctl : Nat) (st' : MarshalStrings)
    (o' : AllocOracle)
    (h : _dbus_type_writer_recurse_contained_len st o w ctype ct cts ctl =
      WR.fail st' o') : st' = st := by
  simp only [_dbus_type_writer_recurse_contained_len] at h
  split at h
  case h_1 => cases h
  case h_2 sub heq =>
    split at h
    case isTrue => exact wr_struct_fail _ _ _ _ _ _ h
    case isFalse =>
      split at h
      case isTrue => exact wr_array_fail _ _ _ _ _ _ _ _ _ h
      case isFalse =>
        split at h
        case isTrue => exact wr_variant_fail _ _ _ _ _ _ _ _ _ h
        case isFalse => cases h

/-- A successful `writer_recurse_struct`: the parent passes through untouched,
the sub-writer stays in bounds, strings only grow, an expectation sub-writer
changes nothing, the sub-writer's flags pass through. -/
theorem wr_struct_ok (st : MarshalStrings) (o : AllocOracle)
    (writer sub : DBusTypeWriter) (st' : MarshalStrings) (p' s' : DBusTypeWriter)
    (o' : AllocOracle)
    (h : writer_recurse_struct st o writer sub = WR.ok st' (p', s') o')
    (hwfs : writerWF st sub) :
    p' = writer ∧
    writerWF st' s' ∧
    st.types.length ≤ st'.types.length ∧
    st.values.length ≤ st'.values.length ∧
    (sub.type_pos_is_expectation = true → st'.types = st.types) ∧
    s'.type_pos_is_expectation = sub.type_pos_is_expectation ∧
    s'.type_str_is_value_str = sub.type_str_is_value_str ∧
    s'.container_type = sub.container_type := by
  simp only [writer_recurse_struct] at h
  split at h
  case isTrue => exact absurd h (by simp)
  case isFalse hb1 =>
    split at h
    case isTrue => exact absurd h (by simp)
    case isFalse hb2 =>
      split at h
      case h_1 => exact absurd h (by simp)
      case h_2 => exact absurd h (by simp)
      case h_3 st1 sub1 o3 heq =>
        rw [WR.ok.injEq, Prod.mk.injEq] at h
        obtain ⟨h1, ⟨hp, hs⟩, ho⟩ := h
        subst h1 hp hs ho
        obtain ⟨hwf1, htm, hvm, hexps, hf1, hf2, hf3, hvp⟩ :=
          wov_ok _ _ _ _ _ _ _ heq hwfs
        have hA := le_align_value sub1.value_pos 8 (by omega)
        have hlen : (_dbus_string_insert_bytes st1.values sub1.value_pos
            (_DBUS_ALIGN_VALUE sub1.value_pos 8 - sub1.value_pos) 0).length =
            st1.values.length + (_DBUS_ALIGN_VALUE sub1.value_pos 8 -
              sub1.value_pos) := by
          unfold _dbus_string_insert_bytes
          rw [stringInsertAt_length, List.length_replicate]
        refine ⟨rfl, ⟨?_, ?_⟩, htm, ?_, ?_, hf1, hf2, hf3⟩
        · intro hne
          have hne2 : sub1.type_pos_is_expectation = false := hne
          have hb := hwf1.1 hne2
          refine le_trans hb (typeStrOf_mono st1 _ sub1 _ rfl (le_refl _) ?_)
          rw [hlen]
          omega
        · show _DBUS_ALIGN_VALUE sub1.value_pos 8 ≤ _
          rw [hlen]
          have := hwf1.2
          omega
        · rw [hlen]
          omega
        · intro he
          rw [hexps he]

/-- A successful `writer_recurse_array`: both writers stay in bounds, strings
only grow, an expectation parent's type string is untouched, the parent's
flags pass through, and the sub-writer is an expectation writer with the
parent's aliasing. -/
theorem wr_array_ok (st : MarshalStrings) (o : AllocOracle)
    (writer : DBusTypeWriter) (ct : DStr) (cts ctl : Nat) (sub : DBusTypeWriter)
    (st' : MarshalStrings) (p' s' : DBusTypeWriter) (o' : AllocOracle)
    (h : writer_recurse_array st o writer ct cts ctl sub = WR.ok st' (p', s') o')
    (hwfw : writerWF st writer) (hAEw : writerAE writer)
    (hsexp : sub.type_pos_is_expectation = true)
    (hsvp : sub.value_pos = writer.value_pos)
    (hstp : sub.type_pos = writer.type_pos) :
    writerWF st' p' ∧
    writerWF st' s' ∧
    st.types.length ≤ st'.types.length ∧
    st.values.length ≤ st'.values.length ∧
    (writer.type_pos_is_expectation = true → st'.types = st.types) ∧
    p'.type_pos_is_expectation = writer.type_pos_is_expectation ∧
    p'.type_str_is_value_str = writer.type_str_is_value_str ∧
    p'.container_type = writer.container_type ∧
    s'.type_pos_is_expectation = true ∧
    s'.type_str_is_value_str = sub.type_str_is_value_str ∧
    s'.container_type = sub.container_type := by
  simp only [writer_recurse_array] at h
  split at h
  case isTrue => exact absurd h (by simp)
  case isFalse hguard =>
    cases hb1 : (o.next).1 with
    | false =>
      rw [hb1] at h
      exact absurd h (by simp)
    | true =>
      rw [hb1] at h
      rw [if_neg (by simp)] at h
      split at h
      case isTrue hexp =>
        have halias : writer.type_str_is_value_str = false := by
          cases hal : writer.type_str_is_value_str
          · rfl
          · rw [hAEw hal] at hexp
            cases hexp
        cases hb2 : ((o.next).2.next).1 with
        | false =>
          rw [hb2] at h
          exact absurd h (by simp)
        | true =>
          rw [hb2] at h
          rw [if_neg (by simp)] at h
          split at h
          case isTrue => exact absurd h (by simp)
          case isFalse hrange =>
            rw [not_not] at hrange
            split at h
            case isFalse => exact absurd h (by simp)
            case isTrue hcont =>
              have htail := writer_recurse_array_tail_ok _ _ _ _ _ _ _ _ _ _ h
              obtain ⟨hw, hbo, hlp, hsp, hvpq, hlt, htp2, hct, hpe, hal2, hep,
                hty, hva⟩ := htail
              dsimp only at hbo hlp hsp hvpq hlt htp2 hct hpe hal2 hep hty hva
              have hptp : p'.type_pos = writer.type_pos + 1 + ctl := by rw [hw]
              have hpexp2 : p'.type_pos_is_expectation =
                  writer.type_pos_is_expectation := by rw [hw]
              have hpal : p'.type_str_is_value_str =
                  writer.type_str_is_value_str := by rw [hw]
              have hpcont : p'.container_type = writer.container_type := by rw [hw]
              have hpvp : p'.value_pos = writer.value_pos := by rw [hw]
              rw [setTypeStr_types_noalias _ _ _ halias] at hty
              rw [setTypeStr_values_noalias _ _ _ halias] at hva
              rw [typeStrOf_noalias st writer halias] at hty
              have hwtp : writer.type_pos ≤ st.types.length := by
                have := hwfw.1 hexp
                rw [typeStrOf_noalias st writer halias] at this
                exact this
              have htslen : st'.types.length = st.types.length + 1 + ctl := by
                rw [hty]
                unfold _dbus_string_insert_byte
                rw [stringInsertAt_length, stringInsertAt_length]
                simp only [List.length_take, List.length_drop, List.length_cons,
                  List.length_nil]
                omega
              have hA := le_align_value sub.value_pos 4 (by omega)
              have hvlen : st'.values.length = st.values.length +
                  ((_DBUS_ALIGN_VALUE sub.value_pos 4 - sub.value_pos) +
                    (4 + (_DBUS_ALIGN_VALUE (_DBUS_ALIGN_VALUE sub.value_pos 4 + 4)
                        (element_type_get_alignment ct cts) -
                      (_DBUS_ALIGN_VALUE sub.value_pos 4 + 4)))) := by
                rw [hva, stringInsertAt_length]
                simp only [List.length_append, List.length_replicate,
                  packOctets_length]
                omega
              have hsvb : sub.value_pos ≤ st.values.length := by
                rw [hsvp]
                exact hwfw.2
              refine ⟨⟨?_, ?_⟩, ⟨?_, ?_⟩, ?_, ?_, ?_, hpexp2, hpal, hpcont, ?_,
                ?_, ?_⟩
              · intro _
                rw [hptp, typeStrOf_noalias st' p' (by rw [hpal, halias]), htslen]
                omega
              · rw [hpvp, hvlen]
                have := hwfw.2
                omega
              · intro hne
                rw [hpe, hsexp] at hne
                cases hne
              · rw [hvpq, hsp, hlp] at *
                rw [hvlen]
                rw [hlp, hsp] at hlt
                omega
              · rw [htslen]
                omega
              · rw [hvlen]
                omega
              · intro hcon
                rw [hcon] at hexp
                cases hexp
              · rw [hpe]
                exact hsexp
              · exact hal2
              · exact hct
      case isFalse hexp =>
        have hexpt : writer.type_pos_is_expectation = true := by
          cases he : writer.type_pos_is_expectation
          · exact absurd he hexp
          · rfl
        have htail := writer_recurse_array_tail_ok _ _ _ _ _ _ _ _ _ _ h
        obtain ⟨hw, hbo, hlp, hsp, hvpq, hlt, htp2, hct, hpe, hal2, hep,
          hty, hva⟩ := htail
        dsimp only at hbo hlp hsp hvpq hlt htp2 hct hpe hal2 hep hty hva
        have hA := le_align_value sub.value_pos 4 (by omega)
        have hvlen : st'.values.length = st.values.length +
            ((_DBUS_ALIGN_VALUE sub.value_pos 4 - sub.value_pos) +
              (4 + (_DBUS_ALIGN_VALUE (_DBUS_ALIGN_VALUE sub.value_pos 4 + 4)
                  (element_type_get_alignment ct cts) -
                (_DBUS_ALIGN_VALUE sub.value_pos 4 + 4)))) := by
          rw [hva, stringInsertAt_length]
          simp only [List.length_append, List.length_replicate, packOctets_length]
          omega
        have hsvb : sub.value_pos ≤ st.values.length := by
          rw [hsvp]
          exact hwfw.2
        have hpflags : p'.type_pos_is_expectation = writer.type_pos_is_expectation ∧
            p'.type_str_is_value_str = writer.type_str_is_value_str ∧
            p'.container_type = writer.container_type ∧
            p'.value_pos = writer.value_pos := by
          subst hw
          split
          · exact ⟨rfl, rfl, rfl, rfl⟩
          · exact ⟨rfl, rfl, rfl, rfl⟩
        refine ⟨⟨?_, ?_⟩, ⟨?_, ?_⟩, ?_, ?_, fun _ => hty, hpflags.1, hpflags.2.1,
          hpflags.2.2.1, ?_, ?_, ?_⟩
        · intro hne
          rw [hpflags.1, hexpt] at hne
          cases hne
        · rw [hpflags.2.2.2, hvlen]
          have := hwfw.2
          omega
        · intro hne
          rw [hpe, hsexp] at hne
          cases hne
        · rw [hvpq, hsp, hlp] at *
          rw [hvlen]
          rw [hlp, hsp] at hlt
          omega
        · rw [hty]
        · rw [hvlen]
          omega
        · rw [hpe]
          exact hsexp
        · exact hal2
        · exact hct

/-- A successful `writer_recurse_variant`: both writers stay in bounds,
strings only grow, an expectation parent's type string is untouched, the
parent's flags pass through, and the sub-writer is an expectation writer
whose type string aliases the value string. -/
theorem wr_variant_ok (st : MarshalStrings) (o : AllocOracle)
    (writer : DBusTypeWriter) (ct : DStr) (cts ctl : Nat) (sub : DBusTypeWriter)
    (st' : MarshalStrings) (p' s' : DBusTypeWriter) (o' : AllocOracle)
    (h : writer_recurse_variant st o writer ct cts ctl sub = WR.ok st' (p', s') o')
    (hwfw : writerWF st writer)
    (hsexp : sub.type_pos_is_expectation = true)
    (hsvp : sub.value_pos = writer.value_pos) :
    writerWF st' p' ∧
    writerWF st' s' ∧
    st.types.length ≤ st'.types.length ∧
    st.values.length ≤ st'.values.length ∧
    (writer.type_pos_is_expectation = true → st'.types = st.types) ∧
    p'.type_pos_is_expectation = writer.type_pos_is_expectation ∧
    p'.type_str_is_value_str = writer.type_str_is_value_str ∧
    p'.container_type = writer.container_type ∧
    s'.type_pos_is_expectation = true ∧
    s'.type_str_is_value_str = true ∧
    s'.container_type = sub.container_type := by
  simp only [writer_recurse_variant] at h
  split at h
  case isTrue => exact absurd h (by simp)
  case isFalse hb1 =>
    split at h
    case h_1 => exact absurd h (by simp)
    case h_2 => exact absurd h (by simp)
    case h_3 st2 writer1 o2 heq =>
      split at h
      case isTrue => exact absurd h (by simp)
      case isFalse hrange =>
        rw [not_not] at hrange
        rw [WR.ok.injEq, Prod.mk.injEq] at h
        obtain ⟨h1, ⟨hp, hs⟩, ho⟩ := h
        subst h1 hp hs ho
        obtain ⟨hwf1, htm, hvm, hexps, hf1, hf2, hf3, hvp⟩ :=
          wov_ok _ _ _ _ _ _ _ heq hwfw
        have hA := le_align_value (sub.value_pos + 1 + ctl + 1) 8 (by omega)
        have hvallen : ((_dbus_string_insert_bytes
            (_dbus_string_insert_byte
              (stringInsertAt
                (_dbus_string_insert_byte st2.values sub.value_pos (ctl % 256))
                (sub.value_pos + 1) ((ct.drop cts).take ctl))
              (sub.value_pos + 1 + ctl) DBUS_TYPE_INVALID)
            (sub.value_pos + 1 + ctl + 1)
            (_DBUS_ALIGN_VALUE (sub.value_pos + 1 + ctl + 1) 8 -
              (sub.value_pos + 1 + ctl + 1)) 0) : DStr).length =
            st2.values.length + 1 + ctl + 1 +
              (_DBUS_ALIGN_VALUE (sub.value_pos + 1 + ctl + 1) 8 -
                (sub.value_pos + 1 + ctl + 1)) := by
          unfold _dbus_string_insert_bytes _dbus_string_insert_byte
          rw [stringInsertAt_length, stringInsertAt_length, stringInsertAt_length,
            stringInsertAt_length]
          simp only [List.length_replicate, List.length_cons, List.length_nil,
            List.length_take, List.length_drop]
          omega
        have hsvb : sub.value_pos ≤ st.values.length := by
          rw [hsvp]
          exact hwfw.2
        refine ⟨⟨?_, ?_⟩, ⟨?_, ?_⟩, htm, ?_, ?_, hf1, hf2, hf3, hsexp, rfl, rfl⟩
        · intro hne
          have hne2 : writer1.type_pos_is_expectation = false := hne
          have hb := hwf1.1 hne2
          exact le_trans hb (typeStrOf_mono st2 _ writer1 writer1 rfl (le_refl _)
            (by rw [hvallen]; omega))
        · show writer1.value_pos ≤ _
          rw [hvp, hvallen]
          have := hwfw.2
          omega
        · intro hne
          have hne2 : sub.type_pos_is_expectation = false := hne
          rw [hsexp] at hne2
          cases hne2
        · show _DBUS_ALIGN_VALUE (sub.value_pos + 1 + ctl + 1) 8 ≤ _
          rw [hvallen]
          omega
        · rw [hvallen]
          omega
        · intro he
          rw [hexps he]

/-- A successful `_dbus_type_writer_recurse_contained_len`: both writers stay
in bounds, strings only grow, an expectation parent's type string is
untouched, the parent's flags pass through, the sub-writer keeps the
alias-implies-expectation invariant, and a struct sub-writer shares the
parent's aliasing and expectation mode. -/
theorem wrcl_ok (st : MarshalStrings) (o : AllocOracle) (w : DBusTypeWriter)
    (ctype : Nat) (ct : DStr) (cts ctl : Nat) (st' : MarshalStrings)
    (p' s' : DBusTypeWriter) (o' : AllocOracle)
    (h : _dbus_type_writer_recurse_contained_len st o w ctype ct cts ctl =
      WR.ok st' (p', s') o')
    (hwf : writerWF st w) (hAE : writerAE w) :
    writerWF st' p' ∧ writerWF st' s' ∧ writerAE s' ∧
    st.types.length ≤ st'.types.length ∧
    st.values.length ≤ st'.values.length ∧
    (w.type_pos_is_expectation = true → st'.types = st.types) ∧
    p'.type_pos_is_expectation = w.type_pos_is_expectation ∧
    p'.type_str_is_value_str = w.type_str_is_value_str ∧
    p'.container_type = w.container_type ∧
    (s'.container_type = DBUS_TYPE_STRUCT →
      s'.type_str_is_value_str = p'.type_str_is_value_str) ∧
    (s'.container_type = DBUS_TYPE_STRUCT →
      s'.type_pos_is_expectation = p'.type_pos_is_expectation) ∧
    (w.type_pos_is_expectation = true → s'.type_pos_is_expectation = true) := by
  simp only [_dbus_type_writer_recurse_contained_len] at h
  split at h
  case h_1 => exact absurd h (by simp)
  case h_2 sub heq =>
    simp only [writer_recurse_init_and_check] at heq
    split at heq
    case isTrue => exact absurd heq (by simp)
    case isFalse hok1 =>
      rw [Option.some.injEq] at heq
      subst heq
      split at h
      case isTrue hstruct =>
        subst hstruct
        have hwfs : writerWF st
            { byte_order := w.byte_order, type_pos := w.type_pos,
              value_pos := w.value_pos, container_type := DBUS_TYPE_STRUCT,
              type_pos_is_expectation := (w.type_pos_is_expectation ||
                DBUS_TYPE_STRUCT == DBUS_TYPE_ARRAY ||
                DBUS_TYPE_STRUCT == DBUS_TYPE_VARIANT),
              type_str_is_value_str := w.type_str_is_value_str,
              u_array_len_pos := 0, u_array_start_pos := 0,
              u_array_element_type_pos := 0 } := by
          constructor
          · intro hne
            simp only [Bool.or_eq_false_iff] at hne
            have hb := hwf.1 hne.1.1
            exact le_trans hb (le_of_eq (congrArg List.length
              (typeStrOf_eq_of_alias st w _ rfl)))
          · exact hwf.2
        obtain ⟨hpw, hwfs', htm, hvm, hexpty, hsf1, hsf2, hsf3⟩ :=
          wr_struct_ok _ _ _ _ _ _ _ _ h hwfs
        have hse' : s'.type_pos_is_expectation =
            (w.type_pos_is_expectation ||
              (DBUS_TYPE_STRUCT == DBUS_TYPE_ARRAY) ||
              (DBUS_TYPE_STRUCT == DBUS_TYPE_VARIANT)) := hsf1
        have hsa' : s'.type_str_is_value_str = w.type_str_is_value_str := hsf2
        refine ⟨⟨?_, ?_⟩, hwfs', ?_, htm, hvm, ?_, by rw [hpw], by rw [hpw],
          by rw [hpw], ?_, ?_, ?_⟩
        · rw [hpw]
          intro hne
          exact le_trans (hwf.1 hne) (typeStrOf_mono st st' w w rfl htm hvm)
        · rw [hpw]
          exact le_trans hwf.2 hvm
        · intro hal
          rw [hse']
          rw [hAE (hsa' ▸ hal)]
          rfl
        · intro he
          apply hexpty
          show (w.type_pos_is_expectation || _ || _) = true
          rw [he]
          rfl
        · intro _
          rw [hsa', hpw]
        · intro _
          rw [hse', hpw]
          simp [DBUS_TYPE_STRUCT, DBUS_TYPE_ARRAY, DBUS_TYPE_VARIANT]
        · intro he
          rw [hse', he]
          rfl
      case isFalse hns =>
        split at h
        case isTrue harray =>
          subst harray
          obtain ⟨hwfp, hwfs', htm, hvm, hexpty, hpf1, hpf2, hpf3, hsf1, hsf2,
            hsf3⟩ := wr_array_ok _ _ _ _ _ _ _ _ _ _ _ h hwf hAE (by simp) rfl rfl
          refine ⟨hwfp, hwfs', fun _ => hsf1, htm, hvm, hexpty, hpf1, hpf2, hpf3,
            ?_, ?_, fun _ => hsf1⟩
          · intro hcon
            rw [hsf3] at hcon
            have hcon2 : DBUS_TYPE_ARRAY = DBUS_TYPE_STRUCT := hcon
            exact absurd hcon2 (by decide)
          · intro hcon
            rw [hsf3] at hcon
            have hcon2 : DBUS_TYPE_ARRAY = DBUS_TYPE_STRUCT := hcon
            exact absurd hcon2 (by decide)
        case isFalse hna =>
          split at h
          case isTrue hvariant =>
            subst hvariant
            obtain ⟨hwfp, hwfs', htm, hvm, hexpty, hpf1, hpf2, hpf3, hsf1, hsf2,
              hsf3⟩ := wr_variant_ok _ _ _ _ _ _ _ _ _ _ _ h hwf (by simp) rfl
            refine ⟨hwfp, hwfs', fun _ => hsf1, htm, hvm, hexpty, hpf1, hpf2,
              hpf3, ?_, ?_, fun _ => hsf1⟩
            · intro hcon
              rw [hsf3] at hcon
              have hcon2 : DBUS_TYPE_VARIANT = DBUS_TYPE_STRUCT := hcon
              exact absurd hcon2 (by decide)
            · intro hcon
              rw [hsf3] at hcon
              have hcon2 : DBUS_TYPE_VARIANT = DBUS_TYPE_STRUCT := hcon
              exact absurd hcon2 (by decide)
          case isFalse => exact absurd h (by simp)

/-- The `oom:` restore really restores: the value string length returns to
`ovl`, an insertion-mode writer's type string length returns to `otl`, and an
expectation writer's type string is untouched. -/
theorem write_reader_oom_spec (st : MarshalStrings) (orig : DBusTypeWriter)
    (otl ovl : Nat)
    (hAEo : writerAE orig)
    (h1 : orig.value_pos ≤ ovl) (h2 : ovl ≤ st.values.length)
    (h3 : orig.type_pos_is_expectation = false → orig.type_pos ≤ otl)
    (h4 : orig.type_pos_is_expectation = false → otl ≤ st.types.length) :
    (write_reader_oom st orig otl ovl).values.length = ovl ∧
    (orig.type_pos_is_expectation = false →
      (write_reader_oom st orig otl ovl).types.length = otl) ∧
    (orig.type_pos_is_expectation = true →
      (write_reader_oom st orig otl ovl).types = st.types) := by
  simp only [write_reader_oom]
  cases hexp : orig.type_pos_is_expectation with
  | true =>
    rw [if_neg (by simp)]
    refine ⟨delete_length_restore _ _ _ h1 h2, ?_, fun _ => rfl⟩
    intro hc
    cases hc
  | false =>
    have halF : orig.type_str_is_value_str = false := by
      cases hal : orig.type_str_is_value_str
      · rfl
      · rw [hAEo hal] at hexp
        cases hexp
    rw [if_pos rfl]
    refine ⟨?_, fun _ => ?_, fun hc => by cases hc⟩
    · show (_dbus_string_delete (setTypeStr st orig
          (_dbus_string_delete (typeStrOf st orig) orig.type_pos
            ((typeStrOf st orig).length - otl))).values orig.value_pos
          ((setTypeStr st orig
            (_dbus_string_delete (typeStrOf st orig) orig.type_pos
              ((typeStrOf st orig).length - otl))).values.length - ovl)).length = ovl
      rw [setTypeStr_values_noalias _ _ _ halF]
      exact delete_length_restore _ _ _ h1 h2
    · show (setTypeStr st orig
          (_dbus_string_delete (typeStrOf st orig) orig.type_pos
            ((typeStrOf st orig).length - otl))).types.length = otl
      rw [setTypeStr_types_noalias _ _ _ halF, typeStrOf_noalias st orig halF]
      exact delete_length_restore _ _ _ (h3 hexp) (h4 hexp)

/-- What `_dbus_type_writer_write_reader` guarantees at a given fuel: on
`return FALSE` the writer returned is the pre-call snapshot and both string
lengths are restored (an expectation writer's type string untouched); on
success the reader stands at `DBUS_TYPE_INVALID`, the read trace equals the
write trace, strings only grew, and the writer is returned well-formed with
its mode flags intact. -/
def WriterSpec (fuel : Nat) : Prop :=
  ∀ (st : MarshalStrings) (o : AllocOracle) (w : DBusTypeWriter)
    (r : DBusTypeReader) (res : CopyResult),
    _dbus_type_writer_write_reader_f fuel st o w r = res →
    writerWF st w → writerAE w →
    match res with
    | CopyResult.ok st' w' r' _ rt wt =>
      _dbus_type_reader_get_current_type r' = DBUS_TYPE_INVALID ∧
      rt = wt ∧
      st.types.length ≤ st'.types.length ∧
      st.values.length ≤ st'.values.length ∧
      (w.type_pos_is_expectation = true → st'.types = st.types) ∧
      writerWF st' w' ∧
      w'.type_pos_is_expectation = w.type_pos_is_expectation ∧
      w'.type_str_is_value_str = w.type_str_is_value_str ∧
      w'.container_type = w.container_type
    | CopyResult.fail st' w' _ =>
      w' = w ∧
      st'.types.length = st.types.length ∧
      st'.values.length = st.values.length ∧
      (w.type_pos_is_expectation = true → st'.types = st.types)
    | CopyResult.abort => True

/-- The loop-body invariant threading the snapshot (`orig`, `otl`, `ovl`)
through `write_reader_loop`. -/
def LoopSpec (fuel : Nat) : Prop :=
  ∀ (st : MarshalStrings) (o : AllocOracle) (writer : DBusTypeWriter)
    (reader : DBusTypeReader) (orig : DBusTypeWriter) (otl ovl : Nat)
    (res : CopyResult),
    write_reader_loop fuel st o writer reader orig otl ovl = res →
    writerWF st writer → writerAE orig →
    writer.type_pos_is_expectation = orig.type_pos_is_expectation →
    writer.type_str_is_value_str = orig.type_str_is_value_str →
    orig.value_pos ≤ ovl → ovl ≤ st.values.length →
    (orig.type_pos_is_expectation = false → orig.type_pos ≤ otl) →
    (orig.type_pos_is_expectation = false → otl ≤ st.types.length) →
    match res with
    | CopyResult.ok st' w' r' _ rt wt =>
      _dbus_type_reader_get_current_type r' = DBUS_TYPE_INVALID ∧
      rt = wt ∧
      st.types.length ≤ st'.types.length ∧
      st.values.length ≤ st'.values.length ∧
      (orig.type_pos_is_expectation = true → st'.types = st.types) ∧
      writerWF st' w' ∧
      w'.type_pos_is_expectation = writer.type_pos_is_expectation ∧
      w'.type_str_is_value_str = writer.type_str_is_value_str ∧
      w'.container_type = writer.container_type
    | CopyResult.fail st' w' _ =>
      w' = orig ∧
      st'.values.length = ovl ∧
      (orig.type_pos_is_expectation = false → st'.types.length = otl) ∧
      (orig.type_pos_is_expectation = true → st'.types = st.types)
    | CopyResult.abort => True

/-- The copier's invariant, by induction on fuel: the snapshot/restore
contract of `_dbus_type_writer_write_reader` together with the loop-body
invariant it needs. -/
theorem write_reader_invariant : ∀ fuel : Nat, WriterSpec fuel ∧ LoopSpec fuel := by
  intro fuel
  induction fuel with
  | zero =>
    constructor
    · intro st o w r res h hwf hAE
      simp only [_dbus_type_writer_write_reader_f] at h
      subst h
      trivial
    · intro st o writer reader orig otl ovl res h hwf hAEo hfe hfa h1 h2 h3 h4
      simp only [write_reader_loop] at h
      subst h
      trivial
  | succ fuel ih =>
    obtain ⟨ihW, ihL⟩ := ih
    constructor
    · intro st o w r res h hwf hAE
      simp only [_dbus_type_writer_write_reader_f] at h
      have h4q : w.type_pos_is_expectation = false →
          (typeStrOf st w).length ≤ st.types.length := by
        intro hne
        have halF : w.type_str_is_value_str = false := by
          cases hal : w.type_str_is_value_str
          · rfl
          · rw [hAE hal] at hne
            cases hne
        rw [typeStrOf_noalias st w halF]
      have hq := ihL st o w r w (typeStrOf st w).length st.values.length res h
        hwf hAE rfl rfl hwf.2 (le_refl _) (fun hne => hwf.1 hne) h4q
      rcases res with ⟨st', w', r', o', rt, wt⟩ | ⟨st', w', o'⟩ | _
      · exact hq
      · obtain ⟨hw', hv, htl, hte⟩ := hq
        refine ⟨hw', ?_, hv, hte⟩
        cases hexp : w.type_pos_is_expectation
        · have halF : w.type_str_is_value_str = false := by
            cases hal : w.type_str_is_value_str
            · rfl
            · rw [hAE hal] at hexp
              cases hexp
          have hres := htl hexp
          rw [typeStrOf_noalias st w halF] at hres
          exact hres
        · exact congrArg List.length (hte hexp)
      · trivial
    · intro st o writer reader orig otl ovl res h hwf hAEo hfe hfa h1 h2 h3 h4
      have hAEw : writerAE writer := by
        intro hal
        rw [hfe]
        apply hAEo
        rw [← hfa]
        exact hal
      simp only [write_reader_loop] at h
      split at h
      case isTrue hcur =>
        subst h
        exact ⟨hcur, rfl, le_refl _, le_refl _, fun _ => rfl, hwf, rfl, rfl, rfl⟩
      case isFalse hcur =>
        split at h
        case isTrue hcont =>
          split at h
          case h_1 hrr =>
            subst h
            trivial
          case h_2 subreader hrr =>
            split at h
            case h_1 hsg =>
              subst h
              trivial
            case h_2 sig hsg =>
              split at h
              case h_1 heqW =>
                subst h
                trivial
              case h_2 st1 o1 heqW =>
                subst h
                rw [wrcl_fail _ _ _ _ _ _ _ _ _ heqW]
                have hS := write_reader_oom_spec st orig otl ovl hAEo h1 h2 h3 h4
                exact ⟨rfl, hS.1, hS.2.1, fun hoe => hS.2.2 hoe⟩
              case h_3 st1 ws o1 heqW =>
                obtain ⟨w1, sub1⟩ := ws
                dsimp only at h
                obtain ⟨hWFp, hWFs, hAEs, htm1, hvm1, hty1, hpf1, hpf2, hpf3,
                  hc10, hc11, hc12⟩ := wrcl_ok _ _ _ _ _ _ _ _ _ _ _ heqW hwf hAEw
                split at h
                case h_1 heqI =>
                  subst h
                  trivial
                case h_2 st2 wX o2 heqI =>
                  subst h
                  obtain ⟨hIw, hIt, hIv, hIty⟩ :=
                    ihW st1 o1 sub1 subreader _ heqI hWFs hAEs
                  have hS := write_reader_oom_spec st2 orig otl ovl hAEo h1
                    (le_trans h2 (le_trans hvm1 (le_of_eq hIv.symm)))
                    h3 (fun hne => le_trans (h4 hne) (le_trans htm1 (le_of_eq hIt.symm)))
                  refine ⟨rfl, hS.1, hS.2.1, ?_⟩
                  intro hoe
                  have hwexp : writer.type_pos_is_expectation = true := by
                    rw [hfe]
                    exact hoe
                  rw [hS.2.2 hoe, hIty (hc12 hwexp)]
                  exact hty1 hwexp
                case h_3 st2 subw2 rX o2 rt1 wt1 heqI =>
                  obtain ⟨hicur, hirt, hitm, hivm, hite, hiWF, hif1, hif2, hif3⟩ :=
                    ihW st1 o1 sub1 subreader _ heqI hWFs hAEs
                  split at h
                  case h_1 hequ =>
                    subst h
                    trivial
                  case h_2 st3 o3 hequ =>
                    subst h
                    rw [unrec_fail _ _ _ _ _ _ hequ]
                    have hS := write_reader_oom_spec st2 orig otl ovl hAEo h1
                      (le_trans h2 (le_trans hvm1 hivm))
                      h3 (fun hne => le_trans (h4 hne) (le_trans htm1 hitm))
                    refine ⟨rfl, hS.1, hS.2.1, ?_⟩
                    intro hoe
                    have hwexp : writer.type_pos_is_expectation = true := by
                      rw [hfe]
                      exact hoe
                    rw [hS.2.2 hoe, hite (hc12 hwexp)]
                    exact hty1 hwexp
                  case h_3 st3 writer2 o3 hequ =>
                    have hwfw1 : writerWF st2 w1 := by
                      constructor
                      · intro hne
                        exact le_trans (hWFp.1 hne)
                          (typeStrOf_mono st1 st2 w1 w1 rfl hitm hivm)
                      · exact le_trans hWFp.2 hivm
                    have hca2 : subw2.container_type = DBUS_TYPE_STRUCT →
                        subw2.type_str_is_value_str = w1.type_str_is_value_str := by
                      intro hcs
                      rw [hif2]
                      rw [hif3] at hcs
                      exact hc10 hcs
                    have hse2 : subw2.container_type = DBUS_TYPE_STRUCT →
                        subw2.type_pos_is_expectation = w1.type_pos_is_expectation := by
                      intro hcs
                      rw [hif1]
                      rw [hif3] at hcs
                      exact hc11 hcs
                    obtain ⟨huWF, hutm, huvm, hute, huf1, huf2, huf3⟩ :=
                      unrec_ok _ _ _ _ _ _ _ hequ hwfw1 hiWF hca2 hse2
                    split at h
                    case h_1 heqN =>
                      subst h
                      trivial
                    case h_2 rn heqN =>
                      rcases hLL : write_reader_loop fuel st3 o3 writer2 rn.1 orig
                          otl ovl with ⟨st4, w4, r4, o4, rt2, wt2⟩ | ⟨st4, w4, o4⟩ | _
                      · rw [hLL] at h
                        dsimp only at h
                        subst h
                        obtain ⟨hrcur, hrrt, hrtm, hrvm, hrte, hrWF, hrf1, hrf2,
                          hrf3⟩ := ihL st3 o3 writer2 rn.1 orig otl ovl _ hLL huWF
                            hAEo (by rw [huf1, hpf1, hfe]) (by rw [huf2, hpf2, hfa])
                            h1 (le_trans h2 (le_trans hvm1 (le_trans hivm huvm)))
                            h3 (fun hne => le_trans (h4 hne)
                              (le_trans htm1 (le_trans hitm hutm)))
                        refine ⟨hrcur, by rw [hirt, hrrt],
                          le_trans htm1 (le_trans hitm (le_trans hutm hrtm)),
                          le_trans hvm1 (le_trans hivm (le_trans huvm hrvm)), ?_,
                          hrWF, by rw [hrf1, huf1, hpf1], by rw [hrf2, huf2, hpf2],
                          by rw [hrf3, huf3, hpf3]⟩
                        intro hoe
                        have hwexp : writer.type_pos_is_expectation = true := by
                          rw [hfe]
                          exact hoe
                        rw [hrte hoe, hute (by rw [hpf1]; exact hwexp),
                          hite (hc12 hwexp)]
                        exact hty1 hwexp
                      · rw [hLL] at h
                        dsimp only at h
                        subst h
                        obtain ⟨hrw, hrv, hrtl, hrte2⟩ :=
                          ihL st3 o3 writer2 rn.1 orig otl ovl _ hLL huWF
                            hAEo (by rw [huf1, hpf1, hfe]) (by rw [huf2, hpf2, hfa])
                            h1 (le_trans h2 (le_trans hvm1 (le_trans hivm huvm)))
                            h3 (fun hne => le_trans (h4 hne)
                              (le_trans htm1 (le_trans hitm hutm)))
                        refine ⟨hrw, hrv, hrtl, ?_⟩
                        intro hoe
                        have hwexp : writer.type_pos_is_expectation = true := by
                          rw [hfe]
                          exact hoe
                        rw [hrte2 hoe, hute (by rw [hpf1]; exact hwexp),
                          hite (hc12 hwexp)]
                        exact hty1 hwexp
                      · rw [hLL] at h
                        dsimp only at h
                        subst h
                        trivial
        case isFalse hcont =>
          split at h
          case h_1 heqB =>
            subst h
            trivial
          case h_2 st1 o1 heqB =>
            subst h
            rw [wb_fail _ _ _ _ _ _ _ heqB]
            have hS := write_reader_oom_spec st orig otl ovl hAEo h1 h2 h3 h4
            exact ⟨rfl, hS.1, hS.2.1, fun hoe => hS.2.2 hoe⟩
          case h_3 st1 writer1 o1 heqB =>
            obtain ⟨hbWF, hbtm, hbvm, hbty, hbf1, hbf2, hbf3⟩ :=
              wb_ok _ _ _ _ _ _ _ _ heqB hwf
            split at h
            case h_1 heqN =>
              subst h
              trivial
            case h_2 rn heqN =>
              rcases hLL : write_reader_loop fuel st1 o1 writer1 rn.1 orig otl ovl
                with ⟨st4, w4, r4, o4, rt2, wt2⟩ | ⟨st4, w4, o4⟩ | _
              · rw [hLL] at h
                dsimp only at h
                subst h
                obtain ⟨hrcur, hrrt, hrtm, hrvm, hrte, hrWF, hrf1, hrf2, hrf3⟩ :=
                  ihL st1 o1 writer1 rn.1 orig otl ovl _ hLL hbWF hAEo
                    (by rw [hbf1, hfe]) (by rw [hbf2, hfa])
                    h1 (le_trans h2 hbvm) h3 (fun hne => le_trans (h4 hne) hbtm)
                refine ⟨hrcur, by rw [hrrt], le_trans hbtm hrtm,
                  le_trans hbvm hrvm, ?_, hrWF, by rw [hrf1, hbf1],
                  by rw [hrf2, hbf2], by rw [hrf3, hbf3]⟩
                intro hoe
                rw [hrte hoe]
                exact hbty (by rw [hfe]; exact hoe)
              · rw [hLL] at h
                dsimp only at h
                subst h
                obtain ⟨hrw, hrv, hrtl, hrte2⟩ :=
                  ihL st1 o1 writer1 rn.1 orig otl ovl _ hLL hbWF hAEo
                    (by rw [hbf1, hfe]) (by rw [hbf2, hfa])
                    h1 (le_trans h2 hbvm) h3 (fun hne => le_trans (h4 hne) hbtm)
                refine ⟨hrw, hrv, hrtl, ?_⟩
                intro hoe
                rw [hrte2 hoe]
                exact hbty (by rw [hfe]; exact hoe)
              · rw [hLL] at h
                dsimp only at h
                subst h
                trivial

/-- **C7.** If `_dbus_type_writer_write_reader` fails (returns `FALSE`), then
on return the writer's type string and value string have their pre-call
lengths and the writer struct equals its pre-call snapshot; if it succeeds,
the reader has been advanced to its end (current type `DBUS_TYPE_INVALID`)
and each basic value read was mirrored into the writer (the read trace equals
the write trace). -/
theorem write_reader_restores_or_copies (fuel : Nat) (st : MarshalStrings)
    (o : AllocOracle) (writer : DBusTypeWriter) (reader : DBusTypeReader)
    (hwf : writerWF st writer) (hAE : writerAE writer) :
    match _dbus_type_writer_write_reader_f fuel st o writer reader with
    | CopyResult.fail st' w' _ =>
      w' = writer ∧ st'.types.length = st.types.length ∧
      st'.values.length = st.values.length
    | CopyResult.ok _ _ r' _ rt wt =>
      _dbus_type_reader_get_current_type r' = DBUS_TYPE_INVALID ∧ rt = wt
    | CopyResult.abort => True := by
  have hq := (write_reader_invariant fuel).1 st o writer reader
    (_dbus_type_writer_write_reader_f fuel st o writer reader) rfl hwf hAE
  rcases hres : _dbus_type_writer_write_reader_f fuel st o writer reader with
    ⟨st', w', r', o', rt, wt⟩ | ⟨st', w', o'⟩ | _
  · rw [hres] at hq
    exact ⟨hq.1, hq.2.1⟩
  · rw [hres] at hq
    exact ⟨hq.1, hq.2.1, hq.2.2.1⟩
  · trivial

/-- The copier contract at concrete inputs: copying a single `int32` body
through a fresh toplevel writer succeeds with matching traces, and the same
copy under a failing allocation restores the empty strings. -/
theorem write_reader_restores_or_copies_witness :
    (writerWF ⟨[], []⟩ (_dbus_type_writer_init DBUS_LITTLE_ENDIAN 0 0) ∧
     writerAE (_dbus_type_writer_init DBUS_LITTLE_ENDIAN 0 0) ∧
     (match _dbus_type_writer_write_reader_f 8 ⟨[], []⟩ ⟨[]⟩
         (_dbus_type_writer_init DBUS_LITTLE_ENDIAN 0 0)
         (_dbus_type_reader_init DBUS_LITTLE_ENDIAN [105] 0 [7, 0, 0, 0] 0) with
      | CopyResult.fail st' w' _ =>
        w' = _dbus_type_writer_init DBUS_LITTLE_ENDIAN 0 0 ∧
        st'.types.length = ([] : DStr).length ∧
        st'.values.length = ([] : DStr).length
      | CopyResult.ok _ _ r' _ rt wt =>
        _dbus_type_reader_get_current_type r' = DBUS_TYPE_INVALID ∧ rt = wt
      | CopyResult.abort => True)) ∧
    (match _dbus_type_writer_write_reader_f 8 ⟨[], []⟩ ⟨[false]⟩
        (_dbus_type_writer_init DBUS_LITTLE_ENDIAN 0 0)
        (_dbus_type_reader_init DBUS_LITTLE_ENDIAN [105] 0 [7, 0, 0, 0] 0) with
     | CopyResult.fail st' w' _ =>
       w' = _dbus_type_writer_init DBUS_LITTLE_ENDIAN 0 0 ∧
       st'.types.length = ([] : DStr).length ∧
       st'.values.length = ([] : DStr).length
     | CopyResult.ok _ _ r' _ rt wt =>
       _dbus_type_reader_get_current_type r' = DBUS_TYPE_INVALID ∧ rt = wt
     | CopyResult.abort => True) :=
  ⟨⟨by decide, by decide,
    write_reader_restores_or_copies 8 ⟨[], []⟩ ⟨[]⟩
      (_dbus_type_writer_init DBUS_LITTLE_ENDIAN 0 0)
      (_dbus_type_reader_init DBUS_LITTLE_ENDIAN [105] 0 [7, 0, 0, 0] 0)
      (by decide) (by decide)⟩,
   write_reader_restores_or_copies 8 ⟨[], []⟩ ⟨[false]⟩
     (_dbus_type_writer_init DBUS_LITTLE_ENDIAN 0 0)
     (_dbus_type_reader_init DBUS_LITTLE_ENDIAN [105] 0 [7, 0, 0, 0] 0)
     (by decide) (by decide)⟩

end DBus
